import Mathlib

/-!
# Multiplayer object pooling: pool holder and pool manager

A shallow embedding of `PoolHolder.cpp` and `APoolManager.cpp`.

* Engine objects live in a heap `World.Objects`, addressed by `ObjId`; a nullable
  pointer is an `Option ObjId`.
* `TMap` is an insertion-ordered association list with unique keys, `TArray` is a `List`.
* Every member function of `APoolHolder` takes the holder and the world and gives both
  back.  A function that dereferences a pointer the code does not check returns `none`
  where that pointer is null.
* Floating point quantities (tick interval, life span) are only copied and compared
  with zero by this code; they are integers here.
* A transform is a translation along one axis: the identity is `0` and composition is
  addition.  The code copies transforms; the engine composes them when it detaches an
  actor keeping its world transform.
-/

namespace GSRT

/-! ## Engine model -/

/-- Identity of an engine object, the target of a non-null `UObject*`. -/
abbrev ObjId := Nat

abbrev FString := String

/-- Stand-in for `float`: the code copies these values and tests `> 0`. -/
abbrev FReal := Int

/-- Stand-in for `FTransform`: a translation along one axis, the identity is `0`. The
code copies transforms; the engine composes them when it detaches an actor keeping its
world transform. -/
abbrev FTransform := Int

/-- Composition `Relative * ParentToWorld`: the world transform of a component that has
the relative transform `Relative` under a parent with world transform `ParentToWorld`. -/
def ComposeTransform (Relative ParentToWorld : FTransform) : FTransform :=
  Relative + ParentToWorld

/-- Timer handle; `none` is the invalid handle `FTimerHandle()`. -/
abbrev FTimerHandle := Option Nat

inductive EEndPlayReason where
  | Destroyed
  | LevelTransition
  | EndPlayInEditor
  | RemovedFromWorld
  | Quit
deriving DecidableEq, Repr

/-- Insertion-ordered map with unique keys, as `TMap` behaves for the calls used here. -/
abbrev TMap (κ ν : Type) := List (κ × ν)

namespace TMap

variable {κ ν : Type} [DecidableEq κ]

/-- `TMap::Find`: pointer to the value stored under the key, or null. -/
def Find : TMap κ ν → κ → Option ν
  | [], _ => none
  | (k', v) :: t, k => if k' = k then some v else Find t k

/-- `TMap::Add`: replaces the value of an existing key, otherwise appends the pair. -/
def Add : TMap κ ν → κ → ν → TMap κ ν
  | [], k, v => [(k, v)]
  | (k', v') :: t, k, v => if k' = k then (k, v) :: t else (k', v') :: Add t k v

/-- `TMap::Contains`. -/
def Contains (m : TMap κ ν) (k : κ) : Bool := (Find m k).isSome

/-- `TMap::Remove`. -/
def Remove (m : TMap κ ν) (k : κ) : TMap κ ν := m.filter (fun p => decide (p.1 ≠ k))

/-- `TMap::Num`, an `int32`. -/
def Num (m : TMap κ ν) : Int := (m.length : Int)

/-- `TMap::GenerateValueArray`. -/
def GenerateValueArray (m : TMap κ ν) : List ν := m.map Prod.snd

end TMap

/-- State of one actor component, as far as the pool reads or writes it. -/
structure UActorComponent where
  bImplementsPoolableInterface : Bool
  bComponentTickEnabled : Bool
  ComponentTickInterval : FReal
  ComponentTags : List FString
  bAutoActivate : Bool
  bIsActive : Bool
  /-- `Cast<USceneComponent>` of this component is a valid object. -/
  bIsSceneComponent : Bool
  RelativeTransform : FTransform
  bVisible : Bool
  bHiddenInGame : Bool
  /-- `Cast<UStaticMeshComponent>` of this component is a valid object. -/
  bIsStaticMeshComponent : Bool
  bSimulatePhysics : Bool
  /-- This component is the root component of its owner
  (`GetOwner()->GetRootComponent() == this`); the root component is a scene component. -/
  bIsRootComponent : Bool := false
deriving DecidableEq, Repr

namespace UActorComponent

/-- `UActorComponent::SetActive`: a component whose active flag differs from the
requested one is activated or deactivated, which sets the flag and switches the tick of
the component with it; a component that has the requested flag already is left as it
is. -/
def SetActive (c : UActorComponent) (bNewActive : Bool) : UActorComponent :=
  if c.bIsActive = bNewActive then c
  else { c with bComponentTickEnabled := bNewActive, bIsActive := bNewActive }

/-- What `USceneComponent::DetachFromComponent` with the rule `KeepWorld` does to a
component of an actor attached under a parent with world transform `ParentToWorld`: the
root component keeps its world transform, which becomes its relative transform; the
other components keep their relative transform. -/
def KeepWorldTransform (ParentToWorld : FTransform) (c : UActorComponent) :
    UActorComponent :=
  if c.bIsRootComponent then
    { c with RelativeTransform := ComposeTransform c.RelativeTransform ParentToWorld }
  else c

end UActorComponent

/-- A class: its name, what it derives from, and what a freshly constructed instance
looks like (the construction provider). -/
structure UClass where
  Name : FString
  bIsChildOfAActor : Bool
  bImplementsPoolableInterface : Bool
  bActorTickEnabled : Bool
  ActorTickInterval : FReal
  bHidden : Bool
  InitialLifeSpan : FReal
  bCanBeDamaged : Bool
  Components : List UActorComponent
deriving DecidableEq, Repr

/-- State of one engine object (actor fields are unused for plain objects). -/
structure UObjectState where
  Class : Option UClass
  /-- Answer of `IsValidLowLevelFast()`. -/
  bValidLowLevel : Bool
  /-- Set by `Destroy()`; `IsValid(x)` is `x != nullptr && !x->IsPendingKill()`. -/
  bPendingKill : Bool
  bActorTickEnabled : Bool
  ActorTickInterval : FReal
  bHidden : Bool
  bCollisionEnabled : Bool
  bCanBeDamaged : Bool
  InitialLifeSpan : FReal
  AttachParent : Option ObjId
  /-- Transform the actor was spawned with. Nothing moves the pool manager and the pool
  holders, for them it is the world transform (`GetTransform()`). -/
  Transform : FTransform
  Owner : Option ObjId
  Instigator : Option ObjId
  Components : List UActorComponent
deriving DecidableEq, Repr

/-- A pending one-shot timer bound to `ReturnObject(Object, Reason)` of pool holder
`Holder`. -/
structure FTimerData where
  Handle : Nat
  Holder : ObjId
  Object : ObjId
  Reason : EEndPlayReason
  Rate : FReal
deriving DecidableEq, Repr

/-- An invocation of a hook of the poolable contract. -/
inductive HookCall where
  | PoolableBeginPlay (Object : ObjId)
  | PoolableEndPlay (Object : ObjId) (EndPlayReason : EEndPlayReason)
deriving DecidableEq, Repr

/-- The host runtime: object heap, naming provider, construction counter, timer manager
and the record of poolable-contract hooks invoked so far. -/
structure World where
  Objects : ObjId → UObjectState
  /-- `UObject::GetName`. -/
  GetName : ObjId → FString
  /-- Identity the next constructed object receives. -/
  NextId : ObjId
  Timers : List FTimerData
  NextHandle : Nat
  Calls : List HookCall

namespace World

/-- Overwrite the state of one object. -/
def SetObject (w : World) (o : ObjId) (s : UObjectState) : World :=
  { w with Objects := fun i => if i = o then s else w.Objects i }

/-- `IsValidLowLevelFast()` on a non-null pointer. -/
def IsValidLowLevelFast (w : World) (o : ObjId) : Bool := (w.Objects o).bValidLowLevel

/-- `IsValid(o)` on a non-null pointer. -/
def IsValid (w : World) (o : ObjId) : Bool := !(w.Objects o).bPendingKill

/-- State of a freshly constructed instance of a class. -/
def NewState (C : UClass) (Transform : FTransform) : UObjectState where
  Class := some C
  bValidLowLevel := true
  bPendingKill := false
  bActorTickEnabled := C.bActorTickEnabled
  ActorTickInterval := C.ActorTickInterval
  bHidden := C.bHidden
  bCollisionEnabled := true
  bCanBeDamaged := C.bCanBeDamaged
  InitialLifeSpan := C.InitialLifeSpan
  AttachParent := none
  Transform := Transform
  Owner := none
  Instigator := none
  Components := C.Components

/-- `UWorld::SpawnActor` and `NewObject`: construct an instance under the next identity.
Construction is taken to succeed. -/
def Construct (w : World) (C : UClass) (Transform : FTransform) : ObjId × World :=
  (w.NextId, { w.SetObject w.NextId (NewState C Transform) with NextId := w.NextId + 1 })

/-- `AActor::Destroy`: the actor becomes pending kill and leaves its attach parent. -/
def Destroy (w : World) (o : ObjId) : World :=
  w.SetObject o { w.Objects o with bPendingKill := true, AttachParent := none }

/-- What `AActor::DetachFromActor(FDetachmentTransformRules::KeepWorldTransform)` does
to one component of the actor: nothing when the actor has no attach parent, and
`KeepWorldTransform` under the world transform of the attach parent otherwise. -/
def DetachComponent (w : World) (Actor : ObjId) (c : UActorComponent) : UActorComponent :=
  match (w.Objects Actor).AttachParent with
  | none => c
  | some Parent => UActorComponent.KeepWorldTransform (w.Objects Parent).Transform c

/-- `AActor::DetachFromActor(FDetachmentTransformRules::KeepWorldTransform)`: the actor
leaves its attach parent, and the root component of an actor that was attached keeps its
world transform. An actor that is not attached is left as it is. -/
def DetachFromActor (w : World) (Actor : ObjId) : World :=
  w.SetObject Actor { w.Objects Actor with
    AttachParent := none
    Components := (w.Objects Actor).Components.map (w.DetachComponent Actor) }

/-- `AActor::GetAttachedActors`: the actors whose attach parent is `o`. -/
def GetAttachedActors (w : World) (o : ObjId) : List ObjId :=
  (List.range w.NextId).filter (fun i => decide ((w.Objects i).AttachParent = some o))

/-- `FTimerManager::SetTimer` with a positive rate and no looping: a timer the handle
already names is replaced, and the handle names the new timer. -/
def SetTimer (w : World) (InOutHandle : FTimerHandle) (Holder Object : ObjId)
    (Reason : EEndPlayReason) (Rate : FReal) : FTimerHandle × World :=
  let Kept := match InOutHandle with
    | none => w.Timers
    | some k => w.Timers.filter (fun t => decide (t.Handle ≠ k))
  (some w.NextHandle,
    { w with Timers := Kept ++ [⟨w.NextHandle, Holder, Object, Reason, Rate⟩],
             NextHandle := w.NextHandle + 1 })

/-- `FTimerManager::ClearTimer`. -/
def ClearTimer (w : World) (Handle : FTimerHandle) : World :=
  match Handle with
  | none => w
  | some k => { w with Timers := w.Timers.filter (fun t => decide (t.Handle ≠ k)) }

/-- Record a hook invocation. -/
def Call (w : World) (c : HookCall) : World := { w with Calls := w.Calls ++ [c] }

end World

/-! ## `PoolHolder.h` -/

/-- Modelled from the spec: `PoolHolder.h` is not among the sources. The fields are the
ones `PoolHolder.cpp` reads and writes (the ObjectSnapshot of the data model). -/
structure FDefaultObjectSettings where
  bImplementsPoolableInterface : Bool
  bIsActor : Bool
  bStartWithTickEnabled : Bool
  TickInterval : FReal
  bHiddenInGame : Bool
  LifeSpan : FReal
  bCanBeDamaged : Bool
deriving DecidableEq, Repr

/-- Modelled from the spec: `PoolHolder.h` is not among the sources. The fields are the
ones `PoolHolder.cpp` reads and writes (the ComponentSnapshot of the data model). -/
structure FDefaultComponentSettings where
  bImplementsPoolableInterface : Bool
  bStartWithTickEnabled : Bool
  TickInterval : FReal
  Tags : List FString
  bAutoActivate : Bool
  bIsSceneComponent : Bool
  RelativeTransform : FTransform
  bIsVisible : Bool
  bIsHidden : Bool
  bIsStaticMeshComponent : Bool
  bIsSimulatingPhysics : Bool
deriving DecidableEq, Repr

/-- Modelled from the spec: `PoolHolder.h` is not among the sources. Class identity and
requested pool size; the class may be null and the size is an `int32`. -/
structure FPoolSpecification where
  Class : Option UClass
  NumberOfObjects : Int
deriving DecidableEq, Repr

/-- Modelled from the spec: `PoolHolder.h` is not among the sources. The members are the
ones `PoolHolder.cpp` uses; `Self` is the identity of the holder actor (`this`). -/
structure APoolHolder where
  Self : ObjId
  ObjectPool : TMap FString ObjId
  AvailableObjects : List FString
  ObjectsToTimers : TMap ObjId FTimerHandle
  DefaultObjectSettings : FDefaultObjectSettings
  DefaultComponentsSettings : List FDefaultComponentSettings
deriving DecidableEq, Repr

/-- Modelled from the spec: the default of the `EndPlayReason` parameter of
`SetObjectActive` is declared in `PoolHolder.h`, which is not among the sources; it is
taken to be the default `ReturnToPool` declares in `APoolManager.h`. -/
def DefaultEndPlayReason : EEndPlayReason := EEndPlayReason.Destroyed

/-- Modelled from the spec: member initialisers of the settings struct are declared in
`PoolHolder.h`, which is not among the sources; lifespan 0 means no expiry. -/
def FDefaultObjectSettings.Initial : FDefaultObjectSettings where
  bImplementsPoolableInterface := false
  bIsActor := false
  bStartWithTickEnabled := false
  TickInterval := 0
  bHiddenInGame := false
  LifeSpan := 0
  bCanBeDamaged := false

/-- Modelled from the spec: member initialisers of the settings struct are declared in
`PoolHolder.h`, which is not among the sources. -/
def FDefaultComponentSettings.Initial : FDefaultComponentSettings where
  bImplementsPoolableInterface := false
  bStartWithTickEnabled := false
  TickInterval := 0
  Tags := []
  bAutoActivate := false
  bIsSceneComponent := false
  RelativeTransform := 0
  bIsVisible := false
  bIsHidden := false
  bIsStaticMeshComponent := false
  bIsSimulatingPhysics := false

/-! ## `PoolHolder.cpp` -/

namespace APoolHolder

/-- Body of the component loop of `RestoreActorSettings` for one component. -/
def RestoreComponent (c : UActorComponent) (s : FDefaultComponentSettings) :
    UActorComponent :=
  let c1 := UActorComponent.SetActive { c with
    bComponentTickEnabled := s.bStartWithTickEnabled
    ComponentTickInterval := s.TickInterval
    ComponentTags := s.Tags } s.bAutoActivate
  if s.bIsSceneComponent then
    if c1.bIsSceneComponent then
      let c2 := { c1 with
        RelativeTransform := s.RelativeTransform
        bVisible := s.bIsVisible
        bHiddenInGame := s.bIsHidden }
      if s.bIsStaticMeshComponent then
        if c2.bIsStaticMeshComponent then
          { c2 with bSimulatePhysics := s.bIsSimulatingPhysics }
        else c2
      else c2
    else c1
  else c1

/-- The component loop of `RestoreActorSettings`: index `i` runs over the components of
the actor and the function returns as soon as `i >= DefaultComponentsSettings.Num()`. -/
def RestoreComponents : List UActorComponent → List FDefaultComponentSettings →
    List UActorComponent
  | [], _ => []
  | c :: cs, [] => c :: cs
  | c :: cs, s :: ss => RestoreComponent c s :: RestoreComponents cs ss

/-- `APoolHolder::RestoreActorSettings`. The result is `none` when the life span is
positive and the actor has no entry in `ObjectsToTimers` (`*Timer` on a null pointer). -/
def RestoreActorSettings (h : APoolHolder) (w : World) (Actor : ObjId) :
    Option (APoolHolder × World) :=
  let D := h.DefaultObjectSettings
  let w1 := w.SetObject Actor { w.Objects Actor with
    ActorTickInterval := D.TickInterval
    bCanBeDamaged := D.bCanBeDamaged }
  let Armed : Option (APoolHolder × World) :=
    if 0 < D.LifeSpan then
      match TMap.Find h.ObjectsToTimers Actor with
      | none => none
      | some Timer =>
        let r := w1.SetTimer Timer h.Self Actor EEndPlayReason.Destroyed D.LifeSpan
        some ({ h with ObjectsToTimers := TMap.Add h.ObjectsToTimers Actor r.1 }, r.2)
    else some (h, w1)
  match Armed with
  | none => none
  | some (h2, w2) =>
    if 0 < h.DefaultComponentsSettings.length then
      some (h2, w2.SetObject Actor { w2.Objects Actor with
        Components := RestoreComponents (w2.Objects Actor).Components
          h.DefaultComponentsSettings })
    else some (h2, w2)

/-- `APoolHolder::SetObjectActive`. Activation detaches the actor with the rule
`KeepWorldTransform` after `RestoreActorSettings` ran; deactivation attaches it to the
holder with the rule `KeepRelativeTransform`, which changes no relative transform. -/
def SetObjectActive (h : APoolHolder) (w : World) (Object : ObjId) (bIsActive : Bool)
    (EndPlayReason : EEndPlayReason) : Option (APoolHolder × World) :=
  if !w.IsValidLowLevelFast Object then some (h, w)
  else
    let AsActor : Option (APoolHolder × World) :=
      if h.DefaultObjectSettings.bIsActor then
        let Moved : Option (APoolHolder × World) :=
          if bIsActive then
            match RestoreActorSettings h w Object with
            | none => none
            | some (h1, w1) => some (h1, w1.DetachFromActor Object)
          else
            some (h, w.SetObject Object { w.Objects Object with AttachParent := some h.Self })
        match Moved with
        | none => none
        | some (h1, w1) =>
          some (h1, w1.SetObject Object { w1.Objects Object with
            bHidden := !bIsActive || h.DefaultObjectSettings.bHiddenInGame
            bCollisionEnabled := bIsActive
            bActorTickEnabled := bIsActive && h.DefaultObjectSettings.bStartWithTickEnabled })
      else some (h, w)
    match AsActor with
    | none => none
    | some (h2, w2) =>
      if h.DefaultObjectSettings.bImplementsPoolableInterface then
        if bIsActive then some (h2, w2.Call (HookCall.PoolableBeginPlay Object))
        else some (h2, w2.Call (HookCall.PoolableEndPlay Object EndPlayReason))
      else some (h2, w2)

/-- `APoolHolder::Add`. -/
def Add (h : APoolHolder) (w : World) (Object : ObjId) : Option (APoolHolder × World) :=
  let Name := w.GetName Object
  let h1 := { h with
    ObjectPool := TMap.Add h.ObjectPool Name Object
    AvailableObjects := h.AvailableObjects ++ [Name] }
  match SetObjectActive h1 w Object false DefaultEndPlayReason with
  | none => none
  | some (h2, w2) =>
    if 0 < h2.DefaultObjectSettings.LifeSpan then
      some ({ h2 with ObjectsToTimers := TMap.Add h2.ObjectsToTimers Object none },
        w2.SetObject Object { w2.Objects Object with InitialLifeSpan := 0 })
    else some (h2, w2)

/-- `APoolHolder::GetSpecificAndSetActive`. -/
def GetSpecificAndSetActive (h : APoolHolder) (w : World) (ObjectName : FString) :
    Option (Option ObjId × APoolHolder × World) :=
  match TMap.Find h.ObjectPool ObjectName with
  | none => some (none, h, w)
  | some UnusedObject =>
    match SetObjectActive h w UnusedObject true DefaultEndPlayReason with
    | none => none
    | some (h1, w1) => some (some UnusedObject, h1, w1)

/-- `APoolHolder::GetUnused`. -/
def GetUnused (h : APoolHolder) (w : World) : Option (Option ObjId × APoolHolder × World) :=
  match h.AvailableObjects with
  | Name :: _ =>
    match GetSpecificAndSetActive h w Name with
    | none => none
    | some (UnusedObject, h1, w1) =>
      some (UnusedObject, { h1 with AvailableObjects := h1.AvailableObjects.eraseIdx 0 }, w1)
  | [] => some (none, h, w)

/-- The loop of `APoolHolder::GetAllUnused` over the names still to visit. -/
def GetAllUnusedLoop : List FString → APoolHolder → World → List (Option ObjId) →
    Option (List (Option ObjId) × APoolHolder × World)
  | [], h, w, Objects => some (Objects, h, w)
  | Name :: Rest, h, w, Objects =>
    match GetSpecificAndSetActive h w Name with
    | none => none
    | some (Object, h1, w1) => GetAllUnusedLoop Rest h1 w1 (Objects ++ [Object])

/-- `APoolHolder::GetAllUnused`. -/
def GetAllUnused (h : APoolHolder) (w : World) :
    Option (List (Option ObjId) × APoolHolder × World) :=
  match GetAllUnusedLoop h.AvailableObjects h w [] with
  | none => none
  | some (Objects, h1, w1) => some (Objects, { h1 with AvailableObjects := [] }, w1)

/-- `APoolHolder::GetSpecific`; `TArray::Remove` removes every occurrence. -/
def GetSpecific (h : APoolHolder) (w : World) (ObjectName : FString) :
    Option (Option ObjId × APoolHolder × World) :=
  GetSpecificAndSetActive
    { h with AvailableObjects := h.AvailableObjects.filter (fun n => decide (n ≠ ObjectName)) }
    w ObjectName

/-- `APoolHolder::ReturnObject`. -/
def ReturnObject (h : APoolHolder) (w : World) (Object : ObjId)
    (EndPlayReason : EEndPlayReason) : Option (APoolHolder × World) :=
  let ObjectName := w.GetName Object
  SetObjectActive { h with AvailableObjects := h.AvailableObjects ++ [ObjectName] }
    w Object false EndPlayReason

/-- `APoolHolder::GetNumberOfUsedObjects`. Both counts are non-negative `int32` values,
so the difference cannot overflow. -/
def GetNumberOfUsedObjects (h : APoolHolder) : Int :=
  TMap.Num h.ObjectPool - (h.AvailableObjects.length : Int)

/-- `APoolHolder::GetNumberOfAvailableObjects`. -/
def GetNumberOfAvailableObjects (h : APoolHolder) : Int :=
  (h.AvailableObjects.length : Int)

/-- `APoolHolder::IsObjectAvailable`. -/
def IsObjectAvailable (h : APoolHolder) (w : World) (Object : ObjId) : Bool :=
  h.AvailableObjects.contains (w.GetName Object)

/-- Snapshot of one component of the template actor, the body of the capture loop of
`InitializePool`. -/
def CaptureComponent (c : UActorComponent) : FDefaultComponentSettings :=
  let s0 := { FDefaultComponentSettings.Initial with
    bImplementsPoolableInterface := c.bImplementsPoolableInterface
    bStartWithTickEnabled := c.bComponentTickEnabled
    TickInterval := c.ComponentTickInterval
    Tags := c.ComponentTags
    bAutoActivate := c.bAutoActivate }
  if c.bIsSceneComponent then
    let s1 := { s0 with
      bIsSceneComponent := true
      RelativeTransform := c.RelativeTransform
      bIsVisible := c.bVisible
      bIsHidden := c.bHiddenInGame }
    if c.bIsStaticMeshComponent then
      { s1 with bIsStaticMeshComponent := true, bIsSimulatingPhysics := c.bSimulatePhysics }
    else s1
  else s0

/-- The two fill loops of `InitializePool`: construct an instance and `Add` it, `n`
times. -/
def FillPool : Nat → UClass → APoolHolder → World → Option (APoolHolder × World)
  | 0, _, h, w => some (h, w)
  | n + 1, C, h, w =>
    match Add h (w.Construct C 0).2 (w.Construct C 0).1 with
    | none => none
    | some (h1, w1) => FillPool n C h1 w1

/-- `APoolHolder::InitializePool`. A negative `NumberOfObjects` runs no iteration. -/
def InitializePool (h : APoolHolder) (w : World) (PoolSpecification : FPoolSpecification) :
    Option (APoolHolder × World) :=
  match PoolSpecification.Class with
  | none => some (h, w)
  | some C =>
    let NumberOfObjects := PoolSpecification.NumberOfObjects
    let D0 := { h.DefaultObjectSettings with
      bImplementsPoolableInterface := C.bImplementsPoolableInterface }
    if C.bIsChildOfAActor then
      let DefaultActor := (w.Construct C 0).1
      let w1 := (w.Construct C 0).2
      let A := w1.Objects DefaultActor
      let D1 := { D0 with
        bIsActor := true
        bStartWithTickEnabled := A.bActorTickEnabled
        TickInterval := A.ActorTickInterval
        bHiddenInGame := A.bHidden
        LifeSpan := A.InitialLifeSpan
        bCanBeDamaged := A.bCanBeDamaged }
      let h1 := { h with
        DefaultObjectSettings := D1
        DefaultComponentsSettings :=
          h.DefaultComponentsSettings ++ A.Components.map CaptureComponent }
      FillPool NumberOfObjects.toNat C h1 (w1.Destroy DefaultActor)
    else
      FillPool NumberOfObjects.toNat C { h with DefaultObjectSettings := D0 } w

/-- `APoolHolder::Destroyed`. -/
def Destroyed (h : APoolHolder) (w : World) : APoolHolder × World :=
  let w1 :=
    if h.DefaultObjectSettings.bIsActor then
      (TMap.GenerateValueArray h.ObjectPool).foldl World.Destroy w
    else w
  let w2 := (w1.GetAttachedActors h.Self).foldl World.Destroy w1
  let h1 := { h with AvailableObjects := [] }
  let w3 :=
    if 0 < h.DefaultObjectSettings.LifeSpan then
      (TMap.GenerateValueArray h.ObjectsToTimers).foldl World.ClearTimer w2
    else w2
  (h1, w3)

/-- `APoolHolder::StaticClass()`: an actor that never ticks, with the root scene
component the constructor creates. -/
def StaticClass : UClass where
  Name := "PoolHolder"
  bIsChildOfAActor := true
  bImplementsPoolableInterface := false
  bActorTickEnabled := false
  ActorTickInterval := 0
  bHidden := false
  InitialLifeSpan := 0
  bCanBeDamaged := true
  Components := [{
    bImplementsPoolableInterface := false
    bComponentTickEnabled := false
    ComponentTickInterval := 0
    ComponentTags := []
    bAutoActivate := false
    bIsActive := false
    bIsSceneComponent := true
    RelativeTransform := 0
    bVisible := true
    bHiddenInGame := false
    bIsStaticMeshComponent := false
    bSimulatePhysics := false
    bIsRootComponent := true }]

/-- Members of a pool holder right after its constructor ran. -/
def New (Self : ObjId) : APoolHolder where
  Self := Self
  ObjectPool := []
  AvailableObjects := []
  ObjectsToTimers := []
  DefaultObjectSettings := FDefaultObjectSettings.Initial
  DefaultComponentsSettings := []

end APoolHolder

/-! ## `APoolManager.h`, `APoolManager.cpp` -/

/-- Members of the pool manager actor; `Self` is its identity (`this`). -/
structure AAPoolManager where
  Self : ObjId
  ClassNamesToPools : TMap FString ObjId
  DesiredPools : List FPoolSpecification
  bIsReady : Bool
deriving DecidableEq, Repr

/-- The whole program state: the static `Instance` (with the manager it points to), the
members of every pool holder actor, the host runtime, and the lines written with
`UE_LOG`. -/
structure Game where
  Instance : Option AAPoolManager
  Holders : ObjId → APoolHolder
  World : World
  LogTemp : List FString

namespace Game

/-- Write a line with `UE_LOG(LogTemp, Error, ...)`. -/
def Log (g : Game) (Line : FString) : Game := { g with LogTemp := g.LogTemp ++ [Line] }

/-- Store the members of one pool holder. -/
def SetHolder (g : Game) (P : ObjId) (h : APoolHolder) : Game :=
  { g with Holders := fun i => if i = P then h else g.Holders i }

/-- `Actor->Destroy()` with the dispatch to `APoolHolder::Destroyed`; destroying an actor
that is already pending kill does nothing. -/
def DestroyActor (g : Game) (Actor : ObjId) : Game :=
  if (g.World.Objects Actor).bPendingKill then g
  else if (g.World.Objects Actor).Class = some APoolHolder.StaticClass then
    let r := APoolHolder.Destroyed (g.Holders Actor) g.World
    { g.SetHolder Actor r.1 with World := r.2.Destroy Actor }
  else { g with World := g.World.Destroy Actor }

end Game

namespace AAPoolManager

/-- `AAPoolManager::IsPoolManagerReady`. -/
def IsPoolManagerReady (g : Game) : Bool :=
  match g.Instance with
  | none => false
  | some I =>
    if !g.World.IsValid I.Self then false
    else if TMap.Num I.ClassNamesToPools = 0 then false
    else if !I.bIsReady then false
    else true

/-- `AAPoolManager::GetPoolHolder`: `some P` stands for the result `true` with
`PoolHolder = P`, `none` for the result `false`. -/
def GetPoolHolder (g : Game) (Class : Option UClass) : Option ObjId × Game :=
  match Class with
  | some C =>
    if IsPoolManagerReady g then
      match g.Instance with
      | some I =>
        match TMap.Find I.ClassNamesToPools C.Name with
        | some P => (some P, g)
        | none => (none, g.Log "Pool Manager is not ready yet!")
      | none => (none, g.Log "Pool Manager is not ready yet!")
    else (none, g.Log "Pool Manager is not ready yet!")
  | none => (none, g.Log "Pass a valid class in which inherits from UObject!")

/-- `AAPoolManager::GetFromPool`. -/
def GetFromPool (g : Game) (Class : Option UClass) : Option (Option ObjId × Game) :=
  match GetPoolHolder g Class with
  | (some P, g1) =>
    if g1.World.IsValidLowLevelFast P then
      match APoolHolder.GetUnused (g1.Holders P) g1.World with
      | none => none
      | some (Object, h, w) => some (Object, { g1.SetHolder P h with World := w })
    else some (none, g1)
  | (none, g1) => some (none, g1)

/-- `AAPoolManager::GetSpecificFromPool`. -/
def GetSpecificFromPool (g : Game) (Class : Option UClass) (ObjectName : FString) :
    Option (Option ObjId × Game) :=
  match GetPoolHolder g Class with
  | (some P, g1) =>
    if g1.World.IsValidLowLevelFast P then
      match APoolHolder.GetSpecific (g1.Holders P) g1.World ObjectName with
      | none => none
      | some (Object, h, w) => some (Object, { g1.SetHolder P h with World := w })
    else some (none, g1)
  | (none, g1) => some (none, g1)

/-- `AAPoolManager::GetAllFromPool`. -/
def GetAllFromPool (g : Game) (Class : Option UClass) :
    Option (List (Option ObjId) × Game) :=
  match GetPoolHolder g Class with
  | (some P, g1) =>
    if g1.World.IsValidLowLevelFast P then
      match APoolHolder.GetAllUnused (g1.Holders P) g1.World with
      | none => none
      | some (Objects, h, w) => some (Objects, { g1.SetHolder P h with World := w })
    else some ([], g1)
  | (none, g1) => some ([], g1)

/-- `AAPoolManager::GetNumberOfUsedObjects`. -/
def GetNumberOfUsedObjects (g : Game) (Class : Option UClass) : Int × Game :=
  match GetPoolHolder g Class with
  | (none, g1) => (-1, g1)
  | (some P, g1) =>
    if !g1.World.IsValid P then (-1, g1)
    else (APoolHolder.GetNumberOfUsedObjects (g1.Holders P), g1)

/-- `AAPoolManager::GetNumberOfAvailableObjects`. -/
def GetNumberOfAvailableObjects (g : Game) (Class : Option UClass) : Int × Game :=
  match GetPoolHolder g Class with
  | (none, g1) => (-1, g1)
  | (some P, g1) =>
    if !g1.World.IsValid P then (-1, g1)
    else (APoolHolder.GetNumberOfAvailableObjects (g1.Holders P), g1)

/-- `AAPoolManager::InitializeObjectPool`. The result is `none` when `Instance` or the
class of the specification is null (both are dereferenced unchecked). -/
def InitializeObjectPool (g : Game) (PoolSpecification : FPoolSpecification) :
    Option Game :=
  match g.Instance with
  | none => none
  | some I =>
    let PoolHolder := (g.World.Construct APoolHolder.StaticClass
      (g.World.Objects I.Self).Transform).1
    let w0 := (g.World.Construct APoolHolder.StaticClass
      (g.World.Objects I.Self).Transform).2
    let w1 := w0.SetObject PoolHolder { w0.Objects PoolHolder with
      AttachParent := some I.Self }
    match APoolHolder.InitializePool (APoolHolder.New PoolHolder) w1 PoolSpecification with
    | none => none
    | some (h, w2) =>
      match PoolSpecification.Class with
      | none => none
      | some C =>
        some { g.SetHolder PoolHolder h with
          Instance := some { I with
            ClassNamesToPools := TMap.Add I.ClassNamesToPools C.Name PoolHolder }
          World := w2 }

/-- `AAPoolManager::DestroyAllPools`, run on the manager `Instance` points to. -/
def DestroyAllPools (g : Game) : Option Game :=
  match g.Instance with
  | none => none
  | some I =>
    let g1 := (TMap.GenerateValueArray I.ClassNamesToPools).foldl Game.DestroyActor g
    some ((g1.World.GetAttachedActors I.Self).foldl Game.DestroyActor g1)

/-- The loop of `AAPoolManager::InitializePools` over `DesiredPools`. -/
def InitializePoolsLoop : List FPoolSpecification → Game → Option Game
  | [], g => some g
  | PoolSpecification :: Rest, g =>
    match InitializeObjectPool g PoolSpecification with
    | none => none
    | some g1 => InitializePoolsLoop Rest g1

/-- `AAPoolManager::InitializePools`, run on the manager `Instance` points to. -/
def InitializePools (g : Game) : Option Game :=
  match DestroyAllPools g with
  | none => none
  | some g1 =>
    match g1.Instance with
    | none => none
    | some I => InitializePoolsLoop I.DesiredPools g1

end AAPoolManager

/-! ## Invariants, call sequences and examples -/

namespace APoolHolder

/-- Every member of the name index has a timer slot whenever the captured life span is
positive: the condition under which activating a member dereferences a valid slot. -/
def TimerSlots (h : APoolHolder) : Prop :=
  0 < h.DefaultObjectSettings.LifeSpan →
    ∀ Name Object, TMap.Find h.ObjectPool Name = some Object →
      (TMap.Find h.ObjectsToTimers Object).isSome = true

/-- The holder `h'` is `h` with another available list and a timer map that kept every
slot. -/
def Frame (h h' : APoolHolder) : Prop :=
  ∃ T l, h' = { h with ObjectsToTimers := T, AvailableObjects := l } ∧
    ∀ k, (TMap.Find h.ObjectsToTimers k).isSome = true → (TMap.Find T k).isSome = true

/-- Identities of the members `InitializePool` constructs for a class in world `w`: they
are consecutive, and the template actor of an actor class takes the first identity. -/
def MemberIds (w : World) (C : UClass) (n : Nat) : List ObjId :=
  List.range' (if C.bIsChildOfAActor then w.NextId + 1 else w.NextId) n

/-- `n` consecutive calls of `GetUnused`, with the list of what each call returned. -/
def GetUnusedTimes : Nat → APoolHolder → World →
    Option (List (Option ObjId) × APoolHolder × World)
  | 0, h, w => some ([], h, w)
  | n + 1, h, w =>
    match GetUnused h w with
    | none => none
    | some (Object, h1, w1) =>
      match GetUnusedTimes n h1 w1 with
      | none => none
      | some (Objects, h2, w2) => some (Object :: Objects, h2, w2)

/-- Calling `GetUnused` for as long as the available list is not empty, at most `Fuel`
times, adding what each call returned to `Objects`; `none` also when the fuel runs out
before the list is empty. -/
def GetUnusedUntilEmpty : Nat → APoolHolder → World → List (Option ObjId) →
    Option (List (Option ObjId) × APoolHolder × World)
  | 0, h, w, Objects => if h.AvailableObjects = [] then some (Objects, h, w) else none
  | Fuel + 1, h, w, Objects =>
    if h.AvailableObjects = [] then some (Objects, h, w)
    else
      match GetUnused h w with
      | none => none
      | some (Object, h1, w1) => GetUnusedUntilEmpty Fuel h1 w1 (Objects ++ [Object])

end APoolHolder

/-- One call of a checkout or return operation of a pool holder. -/
inductive PoolCall where
  | GetUnused
  | GetSpecific (ObjectName : FString)
  | GetAllUnused
  | ReturnObject (Object : ObjId) (EndPlayReason : EEndPlayReason)
deriving DecidableEq, Repr

/-- Perform one call, dropping what it returns. -/
def PoolCall.Run : PoolCall → APoolHolder → World → Option (APoolHolder × World)
  | PoolCall.GetUnused, h, w => (APoolHolder.GetUnused h w).map (fun r => r.2)
  | PoolCall.GetSpecific ObjectName, h, w =>
    (APoolHolder.GetSpecific h w ObjectName).map (fun r => r.2)
  | PoolCall.GetAllUnused, h, w => (APoolHolder.GetAllUnused h w).map (fun r => r.2)
  | PoolCall.ReturnObject Object EndPlayReason, h, w =>
    APoolHolder.ReturnObject h w Object EndPlayReason

/-- Perform a finite sequence of calls, first call first. -/
def RunCalls : List PoolCall → APoolHolder → World → Option (APoolHolder × World)
  | [], h, w => some (h, w)
  | c :: cs, h, w =>
    match c.Run h w with
    | none => none
    | some (h1, w1) => RunCalls cs h1 w1

namespace Example

/-- A pooled actor class with a life span of five time units and the poolable contract. -/
def Bullet : UClass where
  Name := "Bullet"
  bIsChildOfAActor := true
  bImplementsPoolableInterface := true
  bActorTickEnabled := true
  ActorTickInterval := 0
  bHidden := false
  InitialLifeSpan := 5
  bCanBeDamaged := true
  Components := []

/-- The class of the pool manager actor. -/
def Manager : UClass where
  Name := "PoolManager"
  bIsChildOfAActor := true
  bImplementsPoolableInterface := false
  bActorTickEnabled := false
  ActorTickInterval := 0
  bHidden := false
  InitialLifeSpan := 0
  bCanBeDamaged := true
  Components := []

/-- A naming provider: distinct names for the first identities. -/
def Names : ObjId → FString
  | 0 => "PoolManager_0"
  | 1 => "PoolHolder_0"
  | 2 => "Bullet_0"
  | 3 => "Bullet_1"
  | 4 => "Bullet_2"
  | 5 => "Bullet_3"
  | 6 => "Bullet_4"
  | _ => "Object"

/-- State of an identity no object was constructed under. -/
def Blank : UObjectState :=
  { World.NewState Manager 0 with Class := none, bValidLowLevel := false }

/-- A world holding the manager (identity 0) and one pool holder (identity 1). -/
def World0 : World where
  Objects := fun i =>
    if i = 0 then World.NewState Manager 0
    else if i = 1 then
      { World.NewState APoolHolder.StaticClass 0 with AttachParent := some 0 }
    else Blank
  GetName := Names
  NextId := 2
  Timers := []
  NextHandle := 0
  Calls := []

/-- The pool of three bullets `InitializePool` builds in `World0`, with the world it
leaves: the template takes identity 2, the members are 3, 4 and 5. -/
def Pool3 : APoolHolder × World :=
  (APoolHolder.InitializePool (APoolHolder.New 1) World0 ⟨some Bullet, 3⟩).get (by decide)

/-- A bullet constructed outside the pool (identity 6, named `Bullet_4`) and the world
holding it next to `Pool3`. -/
def Stray : ObjId × World := Pool3.2.Construct Bullet 0

/-- The holder and world after `ReturnObject` was called on `Pool3` with the stray
bullet, which is not a member. -/
def StrayReturned : APoolHolder × World :=
  (APoolHolder.ReturnObject Pool3.1 Stray.2 Stray.1 EEndPlayReason.Destroyed).get (by decide)

end Example

namespace Example

/-- The naming provider of the registry examples. -/
def GameNames : ObjId → FString
  | 0 => "PoolManager_0"
  | 1 => "PoolHolder_0"
  | 2 => "Bullet_0"
  | 3 => "Bullet_1"
  | 4 => "PoolHolder_1"
  | 5 => "Bullet_2"
  | 6 => "Bullet_3"
  | _ => "Object"

/-- A ready pool manager (identity 0) with no pool yet and no desired pools. -/
def Game0 : Game where
  Instance := some { Self := 0, ClassNamesToPools := [], DesiredPools := [], bIsReady := true }
  Holders := fun i => APoolHolder.New i
  World :=
    { Objects := fun i => if i = 0 then World.NewState Manager 0 else Blank
      GetName := GameNames
      NextId := 1
      Timers := []
      NextHandle := 0
      Calls := [] }
  LogTemp := []

/-- After `InitializeObjectPool` for one bullet: the class `Bullet` is registered under
pool holder 1, whose single member is object 3 (object 2 was the template). -/
def Game1 : Game :=
  (AAPoolManager.InitializeObjectPool Game0 ⟨some Bullet, 1⟩).get (by decide)

/-- After a second `InitializeObjectPool` for the class `Bullet`: the new pool holder is
object 4 and its member is object 6. -/
def Game2 : Game :=
  (AAPoolManager.InitializeObjectPool Game1 ⟨some Bullet, 1⟩).get (by decide)

/-- After `InitializePools` ran on `Game1`, where no pool is desired. -/
def Game1Again : Game :=
  (AAPoolManager.InitializePools Game1).get (by decide)

end Example

/-! ## Registry maintenance, queries and timer expiry -/

namespace World

/-- `IsValidLowLevelFast()` called through a pointer that may be null: a null pointer is
not valid. -/
def IsValidLowLevelFastPtr (w : World) (o : Option ObjId) : Bool :=
  match o with
  | none => false
  | some i => w.IsValidLowLevelFast i

end World

namespace APoolHolder

/-- The components activation leaves on the actor `x`: the component loop of
`RestoreActorSettings` restores them by position, then the detach rewrites the relative
transform of the root component when `x` is attached. -/
def ActivatedComponents (h : APoolHolder) (w : World) (x : ObjId) :
    List UActorComponent :=
  (RestoreComponents (w.Objects x).Components h.DefaultComponentsSettings).map
    (w.DetachComponent x)

/-- The actor flags activation sets from the captured object settings `D`: detached,
collision on, and tick, tick interval, damageable and hidden as captured. -/
def ActivatedAs (D : FDefaultObjectSettings) (s : UObjectState) : Prop :=
  s.AttachParent = none ∧ s.bCollisionEnabled = true ∧
  s.bActorTickEnabled = D.bStartWithTickEnabled ∧
  s.ActorTickInterval = D.TickInterval ∧
  s.bCanBeDamaged = D.bCanBeDamaged ∧
  s.bHidden = D.bHiddenInGame

/-- The timer manager fires the pending one-shot timer `t` that `RestoreActorSettings`
bound to `ReturnObject` of this holder: the timer is gone and `ReturnObject(t.Object,
t.Reason)` runs. A timer that is not pending, or is bound to another holder, does
nothing here. -/
def FireTimer (h : APoolHolder) (w : World) (t : FTimerData) :
    Option (APoolHolder × World) :=
  if t ∈ w.Timers ∧ t.Holder = h.Self then
    ReturnObject h (w.ClearTimer (some t.Handle)) t.Object t.Reason
  else some (h, w)

end APoolHolder

namespace AAPoolManager

/-- The loop of `AAPoolManager::GetXFromPool`. -/
def GetXFromPoolLoop : Nat → Game → Option UClass → List (Option ObjId) →
    Option (List (Option ObjId) × Game)
  | 0, g, _, Objects => some (Objects, g)
  | n + 1, g, Class, Objects =>
    match GetFromPool g Class with
    | none => none
    | some (Object, g1) =>
      if g1.World.IsValidLowLevelFastPtr Object then some (Objects, g1)
      else GetXFromPoolLoop n g1 Class (Objects ++ [Object])

/-- `AAPoolManager::GetXFromPool`. A negative `Quantity` runs no iteration. -/
def GetXFromPool (g : Game) (Class : Option UClass) (Quantity : Int) :
    Option (List (Option ObjId) × Game) :=
  GetXFromPoolLoop Quantity.toNat g Class []

/-- `AAPoolManager::ReturnToPool`. -/
def ReturnToPool (g : Game) (Object : ObjId) (EndPlayReason : EEndPlayReason) :
    Option Game :=
  match GetPoolHolder g (g.World.Objects Object).Class with
  | (none, g1) => some g1
  | (some PoolHolder, g1) =>
    if !g1.World.IsValid PoolHolder then some g1
    else
      match APoolHolder.ReturnObject (g1.Holders PoolHolder) g1.World Object
        EndPlayReason with
      | none => none
      | some (h, w) => some { g1.SetHolder PoolHolder h with World := w }

/-- `AAPoolManager::EmptyObjectPool`. The result is `none` when the class has no entry
in a non-empty map: the pointer `Find` returns is dereferenced unchecked. -/
def EmptyObjectPool (g : Game) (Class : Option UClass) : Option Game :=
  match Class with
  | none => some g
  | some C =>
    match g.Instance with
    | none => some g
    | some I =>
      if !g.World.IsValid I.Self then some g
      else if TMap.Num I.ClassNamesToPools = 0 then some g
      else
        let g1 := { g with Instance := some { I with bIsReady := false } }
        match TMap.Find I.ClassNamesToPools C.Name with
        | none => none
        | some PoolHolder =>
          if !g1.World.IsValid PoolHolder then some g1
          else
            let g2 := g1.DestroyActor PoolHolder
            some { g2 with
              Instance := some { I with
                ClassNamesToPools := TMap.Remove I.ClassNamesToPools C.Name
                bIsReady := true } }

/-- `AAPoolManager::IsObjectActive`. `Cast<AActor>` gives a valid actor when the class
of the object derives from `AActor` and the object is valid. -/
def IsObjectActive (g : Game) (Object : ObjId) : Bool × Game :=
  let bIsActor :=
    match (g.World.Objects Object).Class with
    | some C => C.bIsChildOfAActor
    | none => false
  if bIsActor && g.World.IsValidLowLevelFast Object then
    match (g.World.Objects Object).AttachParent with
    | some AttachedTo =>
      if g.World.IsValidLowLevelFast AttachedTo then
        (decide ((g.World.Objects AttachedTo).Class = some APoolHolder.StaticClass), g)
      else (false, g)
    | none => (false, g)
  else
    match GetPoolHolder g (g.World.Objects Object).Class with
    | (some PoolHolder, g1) =>
      if g1.World.IsValidLowLevelFast PoolHolder then
        (!(APoolHolder.IsObjectAvailable (g1.Holders PoolHolder) g1.World Object), g1)
      else (false, g1)
    | (none, g1) => (false, g1)

/-- `AAPoolManager::ContainsClass`, with `Instance` taken to be set. -/
def ContainsClass (g : Game) (Class : Option UClass) : Option Bool :=
  match Class with
  | none => some false
  | some C =>
    match g.Instance with
    | none => none
    | some I => some (TMap.Contains I.ClassNamesToPools C.Name)

end AAPoolManager

namespace Example

/-- A pooled actor class without life span, with one scene component that does not tick. -/
def Rocket : UClass where
  Name := "Rocket"
  bIsChildOfAActor := true
  bImplementsPoolableInterface := false
  bActorTickEnabled := false
  ActorTickInterval := 2
  bHidden := false
  InitialLifeSpan := 0
  bCanBeDamaged := false
  Components := [{
    bImplementsPoolableInterface := false
    bComponentTickEnabled := false
    ComponentTickInterval := 1
    ComponentTags := ["Engine"]
    bAutoActivate := true
    bIsActive := true
    bIsSceneComponent := true
    RelativeTransform := 7
    bVisible := true
    bHiddenInGame := false
    bIsStaticMeshComponent := false
    bSimulatePhysics := false }]

/-- A plain object class (not an actor). -/
def Token : UClass where
  Name := "Token"
  bIsChildOfAActor := false
  bImplementsPoolableInterface := false
  bActorTickEnabled := false
  ActorTickInterval := 0
  bHidden := false
  InitialLifeSpan := 0
  bCanBeDamaged := false
  Components := []

/-- The registry `Game0` with one desired pool, of one rocket. -/
def Game0R : Game :=
  { Game0 with
    Instance := some
      { Self := 0, ClassNamesToPools := [], DesiredPools := [⟨some Rocket, 1⟩], bIsReady := true } }

/-- After `InitializeObjectPool` for one bullet on `Game0R`: `Bullet` is registered under
pool holder 1 with member 3. -/
def Game1R : Game :=
  (AAPoolManager.InitializeObjectPool Game0R ⟨some Bullet, 1⟩).get (by decide)

/-- After `InitializePools` ran on `Game1R`: the desired pool of one rocket was created
under pool holder 4, with member 6. -/
def Game1RAgain : Game :=
  (AAPoolManager.InitializePools Game1R).get (by decide)

/-- After one `GetFromPool` for `Bullet` on `Game1`: member 3 is leased. -/
def Game1Leased : Game :=
  ((AAPoolManager.GetFromPool Game1 (some Bullet)).get (by decide)).2

/-- A naming provider for rockets. -/
def RocketNames : ObjId → FString
  | 0 => "PoolManager_0"
  | 1 => "PoolHolder_0"
  | 2 => "Rocket_0"
  | 3 => "Rocket_1"
  | 4 => "Rocket_2"
  | _ => "Object"

/-- The pool of two rockets `InitializePool` builds in `World0` under the naming provider
`RocketNames` (template 2, members 3 and 4), with the world it leaves. -/
def Rockets : APoolHolder × World :=
  (APoolHolder.InitializePool (APoolHolder.New 1) { World0 with GetName := RocketNames }
    ⟨some Rocket, 2⟩).get (by decide)

end Example

/-! ## Operation sequences and disciplined use -/

/-- One operation on a pool holder: a checkout or return call, `Add`, or the expiry of a
timer. -/
inductive PoolOp where
  | Call (c : PoolCall)
  | Add (Object : ObjId)
  | Expire (Timer : FTimerData)
deriving DecidableEq, Repr

/-- Perform one operation, dropping what it returns. -/
def PoolOp.Run : PoolOp → APoolHolder → World → Option (APoolHolder × World)
  | PoolOp.Call c, h, w => c.Run h w
  | PoolOp.Add Object, h, w => APoolHolder.Add h w Object
  | PoolOp.Expire Timer, h, w => APoolHolder.FireTimer h w Timer

/-- Perform a finite sequence of operations, first operation first. -/
def RunOps : List PoolOp → APoolHolder → World → Option (APoolHolder × World)
  | [], h, w => some (h, w)
  | op :: ops, h, w =>
    match op.Run h w with
    | none => none
    | some (h1, w1) => RunOps ops h1 w1

namespace APoolHolder

/-- The object is a member registered under its own name and its name is not in the
available list: it is currently leased. -/
def IsLeased (h : APoolHolder) (w : World) (Object : ObjId) : Bool :=
  decide (TMap.Find h.ObjectPool (w.GetName Object) = some Object) &&
    !h.AvailableObjects.contains (w.GetName Object)

/-- What disciplined use keeps true of a holder: the available list has no duplicates
and holds keys of the name index only, every member is registered under its own name,
and every member has its timer slot. -/
def DisciplineInvariant (h : APoolHolder) (w : World) : Prop :=
  h.AvailableObjects.Nodup ∧
  (∀ n ∈ h.AvailableObjects, (TMap.Find h.ObjectPool n).isSome = true) ∧
  (∀ n x, TMap.Find h.ObjectPool n = some x → w.GetName x = n) ∧
  TimerSlots h

end APoolHolder

/-- Disciplined use of one operation in a given state: `GetSpecific` is called with a
name that is in the available list, `ReturnObject` with a member that is leased, a timer
expires only while its object is leased (a timer that is not pending for this holder
does nothing), and an object is added only under a name the name index does not hold. -/
def PoolOp.Disciplined (h : APoolHolder) (w : World) : PoolOp → Bool
  | PoolOp.Call PoolCall.GetUnused => true
  | PoolOp.Call PoolCall.GetAllUnused => true
  | PoolOp.Call (PoolCall.GetSpecific ObjectName) => h.AvailableObjects.contains ObjectName
  | PoolOp.Call (PoolCall.ReturnObject Object _) => APoolHolder.IsLeased h w Object
  | PoolOp.Add Object => !TMap.Contains h.ObjectPool (w.GetName Object)
  | PoolOp.Expire Timer =>
    !decide (Timer ∈ w.Timers ∧ Timer.Holder = h.Self) ||
      APoolHolder.IsLeased h w Timer.Object

/-- Every operation of the sequence is disciplined in the state it is performed in. -/
def DisciplinedOps : List PoolOp → APoolHolder → World → Bool
  | [], _, _ => true
  | op :: ops, h, w =>
    op.Disciplined h w &&
      match op.Run h w with
      | none => false
      | some (h1, w1) => DisciplinedOps ops h1 w1

namespace Example

/-- A disciplined use of the pool of three bullets: a checkout, a named checkout, the
return of the first bullet, and the expiry of the timer of the second. -/
def Session : List PoolOp :=
  [PoolOp.Call PoolCall.GetUnused,
   PoolOp.Call (PoolCall.GetSpecific "Bullet_3"),
   PoolOp.Call (PoolCall.ReturnObject 3 EEndPlayReason.Destroyed),
   PoolOp.Expire ⟨1, 1, 5, EEndPlayReason.Destroyed, 5⟩]

end Example

/-! ## Lemmas -/

namespace TMap
variable {κ ν : Type} [DecidableEq κ]

theorem Find_Add_self (m : TMap κ ν) (k : κ) (v : ν) : Find (Add m k v) k = some v := by
  induction m with
  | nil => simp [Find, Add]
  | cons p t ih =>
    obtain ⟨a, b⟩ := p
    by_cases h1 : a = k <;> simp_all [Find, Add]

theorem Find_Add_of_ne (m : TMap κ ν) (k k' : κ) (v : ν) (hne : k ≠ k') :
    Find (Add m k v) k' = Find m k' := by
  induction m with
  | nil => simp [Find, Add, hne]
  | cons p t ih =>
    obtain ⟨a, b⟩ := p
    by_cases h1 : a = k <;> by_cases h2 : a = k' <;> simp_all [Find, Add]

theorem Find_Add_isSome (m : TMap κ ν) (k k' : κ) (v : ν)
    (hk : (Find m k').isSome = true) : (Find (Add m k v) k').isSome = true := by
  by_cases hne : k = k'
  · subst hne; simp [Find_Add_self]
  · rw [Find_Add_of_ne m k k' v hne]; exact hk

end TMap

namespace APoolHolder

theorem RestoreActorSettings_avail (h : APoolHolder) (l : List FString) (w : World)
    (a : ObjId) :
    RestoreActorSettings { h with AvailableObjects := l } w a =
      (RestoreActorSettings h w a).map
        (fun p => ({ p.1 with AvailableObjects := l }, p.2)) := by
  simp only [RestoreActorSettings]
  by_cases hL : 0 < h.DefaultObjectSettings.LifeSpan
  · cases hF : TMap.Find h.ObjectsToTimers a with
    | none => simp [hL, hF]
    | some t =>
      by_cases hC : 0 < h.DefaultComponentsSettings.length <;> simp [hL, hF, hC]
  · by_cases hC : 0 < h.DefaultComponentsSettings.length <;> simp [hL, hC]

theorem SetObjectActive_avail (h : APoolHolder) (l : List FString) (w : World)
    (o : ObjId) (b : Bool) (r : EEndPlayReason) :
    SetObjectActive { h with AvailableObjects := l } w o b r =
      (SetObjectActive h w o b r).map
        (fun p => ({ p.1 with AvailableObjects := l }, p.2)) := by
  simp only [SetObjectActive, RestoreActorSettings_avail]
  by_cases hV : w.IsValidLowLevelFast o
  · by_cases hA : h.DefaultObjectSettings.bIsActor
    · cases b
      · by_cases hP : h.DefaultObjectSettings.bImplementsPoolableInterface <;>
          simp [hV, hA, hP]
      · cases hR : RestoreActorSettings h w o with
        | none => simp [hV, hA, hR]
        | some p =>
          by_cases hP : h.DefaultObjectSettings.bImplementsPoolableInterface <;>
            simp [hV, hA, hP, hR]
    · cases b <;> by_cases hP : h.DefaultObjectSettings.bImplementsPoolableInterface <;>
        simp [hV, hA, hP]
  · simp [hV]

theorem GetSpecificAndSetActive_avail (h : APoolHolder) (l : List FString) (w : World)
    (n : FString) :
    GetSpecificAndSetActive { h with AvailableObjects := l } w n =
      (GetSpecificAndSetActive h w n).map
        (fun p => (p.1, { p.2.1 with AvailableObjects := l }, p.2.2)) := by
  simp only [GetSpecificAndSetActive, SetObjectActive_avail]
  cases hF : TMap.Find h.ObjectPool n with
  | none => simp
  | some o =>
    cases hS : SetObjectActive h w o true DefaultEndPlayReason with
    | none => simp [hS]
    | some p => simp [hS]

/-- What a call of `RestoreActorSettings` may change of the holder and of the world. -/
theorem RestoreActorSettings_effect (h : APoolHolder) (w : World) (a : ObjId)
    (h' : APoolHolder) (w' : World) (e : RestoreActorSettings h w a = some (h', w')) :
    (∃ T, h' = { h with ObjectsToTimers := T } ∧
      ∀ k, (TMap.Find h.ObjectsToTimers k).isSome = true → (TMap.Find T k).isSome = true) ∧
    w'.GetName = w.GetName ∧ w'.NextId = w.NextId ∧
    ∀ i, i ≠ a → w'.Objects i = w.Objects i := by
  simp only [RestoreActorSettings] at e
  by_cases hL : 0 < h.DefaultObjectSettings.LifeSpan
  · cases hF : TMap.Find h.ObjectsToTimers a with
    | none => simp [hL, hF] at e
    | some t =>
      by_cases hC : 0 < h.DefaultComponentsSettings.length <;>
        simp only [hL, hF, hC, if_true, if_false, Option.some.injEq, Prod.mk.injEq] at e <;>
        obtain ⟨rfl, rfl⟩ := e <;>
        refine ⟨⟨_, rfl, fun k hk => TMap.Find_Add_isSome _ _ _ _ hk⟩, rfl, rfl, ?_⟩ <;>
        intro i hi <;> simp [World.SetObject, World.SetTimer, hi]
  · by_cases hC : 0 < h.DefaultComponentsSettings.length <;>
      simp only [hL, hC, if_true, if_false, Option.some.injEq, Prod.mk.injEq] at e <;>
      obtain ⟨rfl, rfl⟩ := e <;>
      refine ⟨⟨_, rfl, fun k hk => hk⟩, rfl, rfl, ?_⟩ <;>
      intro i hi <;> simp [World.SetObject, hi]

theorem RestoreActorSettings_isSome (h : APoolHolder) (w : World) (a : ObjId)
    (hs : 0 < h.DefaultObjectSettings.LifeSpan → (TMap.Find h.ObjectsToTimers a).isSome = true) :
    (RestoreActorSettings h w a).isSome = true := by
  simp only [RestoreActorSettings]
  by_cases hL : 0 < h.DefaultObjectSettings.LifeSpan
  · have := hs hL
    cases hF : TMap.Find h.ObjectsToTimers a with
    | none => simp [hF] at this
    | some t => by_cases hC : 0 < h.DefaultComponentsSettings.length <;> simp [hL, hC]
  · by_cases hC : 0 < h.DefaultComponentsSettings.length <;> simp [hL, hC]

theorem SetObjectActive_effect (h : APoolHolder) (w : World) (o : ObjId) (b : Bool)
    (r : EEndPlayReason) (h' : APoolHolder) (w' : World)
    (e : SetObjectActive h w o b r = some (h', w')) :
    (∃ T, h' = { h with ObjectsToTimers := T } ∧
      ∀ k, (TMap.Find h.ObjectsToTimers k).isSome = true → (TMap.Find T k).isSome = true) ∧
    w'.GetName = w.GetName ∧ w'.NextId = w.NextId ∧
    ∀ i, i ≠ o → w'.Objects i = w.Objects i := by
  simp only [SetObjectActive] at e
  by_cases hV : w.IsValidLowLevelFast o
  · by_cases hA : h.DefaultObjectSettings.bIsActor
    · cases b
      · by_cases hP : h.DefaultObjectSettings.bImplementsPoolableInterface <;>
          simp only [hV, hA, hP, Bool.not_true, Bool.false_eq_true, if_true, if_false,
            Option.some.injEq, Prod.mk.injEq] at e <;>
          obtain ⟨rfl, rfl⟩ := e <;>
          refine ⟨⟨_, rfl, fun k hk => hk⟩, rfl, rfl, ?_⟩ <;>
          intro i hi <;> simp [World.SetObject, World.Call, hi]
      · cases hR : RestoreActorSettings h w o with
        | none => simp [hV, hA, hR] at e
        | some p =>
          obtain ⟨h1, w1⟩ := p
          obtain ⟨⟨T, hT, hmono⟩, hN, hI, hO⟩ := RestoreActorSettings_effect h w o h1 w1 hR
          by_cases hP : h.DefaultObjectSettings.bImplementsPoolableInterface <;>
            simp only [hV, hA, hP, hR, Bool.not_true, Bool.false_eq_true, if_true, if_false,
              Option.some.injEq, Prod.mk.injEq] at e <;>
            obtain ⟨rfl, rfl⟩ := e <;>
            refine ⟨⟨T, hT, hmono⟩, hN, hI, ?_⟩ <;>
            intro i hi <;> simp [World.SetObject, World.DetachFromActor, World.Call, hi, hO i hi]
    · cases b <;> by_cases hP : h.DefaultObjectSettings.bImplementsPoolableInterface <;>
        simp only [hV, hA, hP, Bool.not_true, Bool.false_eq_true, if_true, if_false,
            Option.some.injEq, Prod.mk.injEq] at e <;>
        obtain ⟨rfl, rfl⟩ := e <;>
        refine ⟨⟨_, rfl, fun k hk => hk⟩, rfl, rfl, ?_⟩ <;>
        intro i hi <;> simp [World.Call]
  · simp only [hV, Bool.not_false, if_true, Option.some.injEq, Prod.mk.injEq] at e
    obtain ⟨rfl, rfl⟩ := e
    exact ⟨⟨_, rfl, fun k hk => hk⟩, rfl, rfl, fun i _ => rfl⟩

theorem SetObjectActive_false_isSome (h : APoolHolder) (w : World) (o : ObjId)
    (r : EEndPlayReason) : (SetObjectActive h w o false r).isSome = true := by
  simp only [SetObjectActive]
  by_cases hV : w.IsValidLowLevelFast o <;>
    by_cases hA : h.DefaultObjectSettings.bIsActor <;>
    by_cases hP : h.DefaultObjectSettings.bImplementsPoolableInterface <;>
    simp [hV, hA, hP]

theorem SetObjectActive_true_isSome (h : APoolHolder) (w : World) (o : ObjId)
    (r : EEndPlayReason)
    (hs : 0 < h.DefaultObjectSettings.LifeSpan →
      (TMap.Find h.ObjectsToTimers o).isSome = true) :
    (SetObjectActive h w o true r).isSome = true := by
  simp only [SetObjectActive]
  have hR := RestoreActorSettings_isSome h w o hs
  cases hRe : RestoreActorSettings h w o with
  | none => simp [hRe] at hR
  | some p =>
    by_cases hV : w.IsValidLowLevelFast o <;>
      by_cases hA : h.DefaultObjectSettings.bIsActor <;>
      by_cases hP : h.DefaultObjectSettings.bImplementsPoolableInterface <;>
      simp [hV, hA, hP]


theorem Frame.refl (h : APoolHolder) : Frame h h := ⟨_, _, rfl, fun _ hk => hk⟩

theorem Frame.trans {a b c : APoolHolder} (h1 : Frame a b) (h2 : Frame b c) : Frame a c := by
  obtain ⟨T1, l1, rfl, m1⟩ := h1
  obtain ⟨T2, l2, rfl, m2⟩ := h2
  exact ⟨T2, l2, rfl, fun k hk => m2 k (m1 k hk)⟩

theorem Frame.setAvail {a b : APoolHolder} (h1 : Frame a b) (l : List FString) :
    Frame a { b with AvailableObjects := l } := by
  obtain ⟨T1, l1, rfl, m1⟩ := h1
  exact ⟨T1, l, rfl, m1⟩

theorem Frame.ofAvail (a : APoolHolder) (l : List FString) :
    Frame a { a with AvailableObjects := l } := ⟨_, l, rfl, fun _ hk => hk⟩

theorem Frame.pool {a b : APoolHolder} (h1 : Frame a b) : b.ObjectPool = a.ObjectPool := by
  obtain ⟨T1, l1, rfl, _⟩ := h1; rfl

theorem Frame.settings {a b : APoolHolder} (h1 : Frame a b) :
    b.DefaultObjectSettings = a.DefaultObjectSettings := by
  obtain ⟨T1, l1, rfl, _⟩ := h1; rfl

theorem Frame.timerSlots {a b : APoolHolder} (h1 : Frame a b) (ha : TimerSlots a) :
    TimerSlots b := by
  obtain ⟨T1, l1, rfl, m1⟩ := h1
  intro hL n o hF
  exact m1 o (ha hL n o hF)

theorem SetObjectActive_Frame {h : APoolHolder} {w : World} {o : ObjId} {b : Bool}
    {r : EEndPlayReason} {h' : APoolHolder} {w' : World}
    (e : SetObjectActive h w o b r = some (h', w')) :
    Frame h h' ∧ h'.AvailableObjects = h.AvailableObjects ∧ w'.GetName = w.GetName := by
  obtain ⟨⟨T, rfl, hm⟩, hN, _, _⟩ := SetObjectActive_effect h w o b r h' w' e
  exact ⟨⟨T, h.AvailableObjects, rfl, hm⟩, rfl, hN⟩

theorem GetSpecificAndSetActive_Frame {h : APoolHolder} {w : World} {n : FString}
    {x : Option ObjId} {h' : APoolHolder} {w' : World}
    (e : GetSpecificAndSetActive h w n = some (x, h', w')) :
    x = TMap.Find h.ObjectPool n ∧ Frame h h' ∧ h'.AvailableObjects = h.AvailableObjects ∧
      w'.GetName = w.GetName := by
  simp only [GetSpecificAndSetActive] at e
  cases hF : TMap.Find h.ObjectPool n with
  | none =>
    simp only [hF, Option.some.injEq, Prod.mk.injEq] at e
    obtain ⟨rfl, rfl, rfl⟩ := e
    exact ⟨rfl, Frame.refl _, rfl, rfl⟩
  | some o =>
    cases hS : SetObjectActive h w o true DefaultEndPlayReason with
    | none => simp [hF, hS] at e
    | some p =>
      obtain ⟨h1, w1⟩ := p
      simp only [hF, hS, Option.some.injEq, Prod.mk.injEq] at e
      obtain ⟨rfl, rfl, rfl⟩ := e
      obtain ⟨hfr, ha, hn⟩ := SetObjectActive_Frame hS
      exact ⟨rfl, hfr, ha, hn⟩

theorem GetSpecificAndSetActive_isSome (h : APoolHolder) (w : World) (n : FString)
    (hs : TimerSlots h) : (GetSpecificAndSetActive h w n).isSome = true := by
  simp only [GetSpecificAndSetActive]
  cases hF : TMap.Find h.ObjectPool n with
  | none => simp
  | some o =>
    have := SetObjectActive_true_isSome h w o DefaultEndPlayReason (fun hL => hs hL n o hF)
    cases hS : SetObjectActive h w o true DefaultEndPlayReason with
    | none => simp [hS] at this
    | some p => simp [hS]

theorem TimerSlots_setAvail {h : APoolHolder} (hs : TimerSlots h) (l : List FString) :
    TimerSlots { h with AvailableObjects := l } := hs

/-- `GetUnused` on a non-empty list, in terms of the lookup of the front name. -/
theorem GetUnused_cons (h : APoolHolder) (w : World) (a : FString) (rest : List FString)
    (ha : h.AvailableObjects = a :: rest) :
    GetUnused h w = (GetSpecificAndSetActive h w a).map
      (fun p => (p.1, { p.2.1 with AvailableObjects := rest }, p.2.2)) := by
  simp only [GetUnused, ha]
  cases hG : GetSpecificAndSetActive h w a with
  | none => simp
  | some p =>
    obtain ⟨x, h1, w1⟩ := p
    obtain ⟨_, _, hav, _⟩ := GetSpecificAndSetActive_Frame hG
    simp [hav, ha]

theorem GetUnused_nil (h : APoolHolder) (w : World) (ha : h.AvailableObjects = []) :
    GetUnused h w = some (none, h, w) := by
  simp [GetUnused, ha]

theorem GetUnused_Frame {h : APoolHolder} {w : World} {x : Option ObjId}
    {h' : APoolHolder} {w' : World} (e : GetUnused h w = some (x, h', w')) :
    Frame h h' ∧ w'.GetName = w.GetName := by
  cases ha : h.AvailableObjects with
  | nil =>
    rw [GetUnused_nil h w ha] at e
    simp only [Option.some.injEq, Prod.mk.injEq] at e
    obtain ⟨_, rfl, rfl⟩ := e
    exact ⟨Frame.refl _, rfl⟩
  | cons a rest =>
    rw [GetUnused_cons h w a rest ha] at e
    cases hG : GetSpecificAndSetActive h w a with
    | none => simp [hG] at e
    | some p =>
      obtain ⟨y, h1, w1⟩ := p
      simp only [hG, Option.map_some', Option.some.injEq, Prod.mk.injEq] at e
      obtain ⟨_, rfl, rfl⟩ := e
      obtain ⟨_, hfr, _, hn⟩ := GetSpecificAndSetActive_Frame hG
      exact ⟨hfr.setAvail rest, hn⟩

theorem GetUnused_isSome (h : APoolHolder) (w : World) (hs : TimerSlots h) :
    (GetUnused h w).isSome = true := by
  cases ha : h.AvailableObjects with
  | nil => simp [GetUnused_nil h w ha]
  | cons a rest =>
    rw [GetUnused_cons h w a rest ha]
    have := GetSpecificAndSetActive_isSome h w a hs
    cases hG : GetSpecificAndSetActive h w a with
    | none => simp [hG] at this
    | some p => simp

theorem GetSpecific_Frame {h : APoolHolder} {w : World} {n : FString} {x : Option ObjId}
    {h' : APoolHolder} {w' : World} (e : GetSpecific h w n = some (x, h', w')) :
    Frame h h' ∧ w'.GetName = w.GetName := by
  simp only [GetSpecific] at e
  obtain ⟨_, hfr, _, hn⟩ := GetSpecificAndSetActive_Frame e
  exact ⟨(Frame.ofAvail h _).trans hfr, hn⟩

theorem GetSpecific_isSome (h : APoolHolder) (w : World) (n : FString) (hs : TimerSlots h) :
    (GetSpecific h w n).isSome = true :=
  GetSpecificAndSetActive_isSome _ w n (TimerSlots_setAvail hs _)

theorem GetAllUnusedLoop_Frame (names : List FString) :
    ∀ (h : APoolHolder) (w : World) (acc : List (Option ObjId)) (xs : List (Option ObjId))
      (h' : APoolHolder) (w' : World),
      GetAllUnusedLoop names h w acc = some (xs, h', w') →
      Frame h h' ∧ h'.AvailableObjects = h.AvailableObjects ∧ w'.GetName = w.GetName ∧
        xs = acc ++ names.map (TMap.Find h.ObjectPool) := by
  induction names with
  | nil =>
    intro h w acc xs h' w' e
    simp only [GetAllUnusedLoop, Option.some.injEq, Prod.mk.injEq] at e
    obtain ⟨rfl, rfl, rfl⟩ := e
    exact ⟨Frame.refl _, rfl, rfl, by simp⟩
  | cons a rest ih =>
    intro h w acc xs h' w' e
    simp only [GetAllUnusedLoop] at e
    cases hG : GetSpecificAndSetActive h w a with
    | none => simp [hG] at e
    | some p =>
      obtain ⟨y, h1, w1⟩ := p
      simp only [hG] at e
      obtain ⟨hy, hfr, hav, hn⟩ := GetSpecificAndSetActive_Frame hG
      obtain ⟨hfr2, hav2, hn2, hxs⟩ := ih h1 w1 _ xs h' w' e
      refine ⟨hfr.trans hfr2, hav2.trans hav, hn2.trans hn, ?_⟩
      rw [hxs, hfr.pool, hy]; simp

theorem GetAllUnusedLoop_isSome (names : List FString) :
    ∀ (h : APoolHolder) (w : World) (acc : List (Option ObjId)), TimerSlots h →
      (GetAllUnusedLoop names h w acc).isSome = true := by
  induction names with
  | nil => intro h w acc _; simp [GetAllUnusedLoop]
  | cons a rest ih =>
    intro h w acc hs
    simp only [GetAllUnusedLoop]
    have := GetSpecificAndSetActive_isSome h w a hs
    cases hG : GetSpecificAndSetActive h w a with
    | none => simp [hG] at this
    | some p =>
      obtain ⟨y, h1, w1⟩ := p
      obtain ⟨_, hfr, _, _⟩ := GetSpecificAndSetActive_Frame hG
      exact ih h1 w1 _ (hfr.timerSlots hs)

theorem GetAllUnused_Frame {h : APoolHolder} {w : World} {xs : List (Option ObjId)}
    {h' : APoolHolder} {w' : World} (e : GetAllUnused h w = some (xs, h', w')) :
    Frame h h' ∧ w'.GetName = w.GetName := by
  simp only [GetAllUnused] at e
  cases hG : GetAllUnusedLoop h.AvailableObjects h w [] with
  | none => simp [hG] at e
  | some p =>
    obtain ⟨y, h1, w1⟩ := p
    simp only [hG, Option.some.injEq, Prod.mk.injEq] at e
    obtain ⟨_, rfl, rfl⟩ := e
    obtain ⟨hfr, _, hn, _⟩ := GetAllUnusedLoop_Frame _ h w [] y h1 w1 hG
    exact ⟨hfr.setAvail [], hn⟩

theorem GetAllUnused_isSome (h : APoolHolder) (w : World) (hs : TimerSlots h) :
    (GetAllUnused h w).isSome = true := by
  simp only [GetAllUnused]
  have := GetAllUnusedLoop_isSome h.AvailableObjects h w [] hs
  cases hG : GetAllUnusedLoop h.AvailableObjects h w [] with
  | none => simp [hG] at this
  | some p => simp

theorem ReturnObject_Frame {h : APoolHolder} {w : World} {o : ObjId} {r : EEndPlayReason}
    {h' : APoolHolder} {w' : World} (e : ReturnObject h w o r = some (h', w')) :
    Frame h h' ∧ h'.AvailableObjects = h.AvailableObjects ++ [w.GetName o] ∧
      w'.GetName = w.GetName := by
  simp only [ReturnObject] at e
  obtain ⟨hfr, hav, hn⟩ := SetObjectActive_Frame e
  exact ⟨(Frame.ofAvail h _).trans hfr, hav, hn⟩

theorem ReturnObject_isSome (h : APoolHolder) (w : World) (o : ObjId) (r : EEndPlayReason) :
    (ReturnObject h w o r).isSome = true :=
  SetObjectActive_false_isSome _ w o r

end APoolHolder

theorem PoolCall.Run_Frame {c : PoolCall} {h : APoolHolder} {w : World}
    {h' : APoolHolder} {w' : World} (e : c.Run h w = some (h', w')) :
    APoolHolder.Frame h h' := by
  cases c with
  | GetUnused =>
    simp only [PoolCall.Run, Option.map_eq_some'] at e
    obtain ⟨⟨x, h1, w1⟩, e1, e2⟩ := e
    simp only [Prod.mk.injEq] at e2
    obtain ⟨rfl, rfl⟩ := e2
    exact (APoolHolder.GetUnused_Frame e1).1
  | GetSpecific n =>
    simp only [PoolCall.Run, Option.map_eq_some'] at e
    obtain ⟨⟨x, h1, w1⟩, e1, e2⟩ := e
    simp only [Prod.mk.injEq] at e2
    obtain ⟨rfl, rfl⟩ := e2
    exact (APoolHolder.GetSpecific_Frame e1).1
  | GetAllUnused =>
    simp only [PoolCall.Run, Option.map_eq_some'] at e
    obtain ⟨⟨x, h1, w1⟩, e1, e2⟩ := e
    simp only [Prod.mk.injEq] at e2
    obtain ⟨rfl, rfl⟩ := e2
    exact (APoolHolder.GetAllUnused_Frame e1).1
  | ReturnObject o r =>
    simp only [PoolCall.Run] at e
    exact (APoolHolder.ReturnObject_Frame e).1

theorem PoolCall.Run_isSome (c : PoolCall) (h : APoolHolder) (w : World)
    (hs : APoolHolder.TimerSlots h) : (c.Run h w).isSome = true := by
  cases c with
  | GetUnused => simp [PoolCall.Run, APoolHolder.GetUnused_isSome h w hs]
  | GetSpecific n => simp [PoolCall.Run, APoolHolder.GetSpecific_isSome h w n hs]
  | GetAllUnused => simp [PoolCall.Run, APoolHolder.GetAllUnused_isSome h w hs]
  | ReturnObject o r => simp [PoolCall.Run, APoolHolder.ReturnObject_isSome h w o r]

theorem RunCalls_total (cs : List PoolCall) :
    ∀ (h : APoolHolder) (w : World), APoolHolder.TimerSlots h →
      ∃ h' w', RunCalls cs h w = some (h', w') ∧ APoolHolder.Frame h h' := by
  induction cs with
  | nil => intro h w _; exact ⟨h, w, rfl, APoolHolder.Frame.refl h⟩
  | cons c cs ih =>
    intro h w hs
    have hsome := PoolCall.Run_isSome c h w hs
    cases hc : c.Run h w with
    | none => simp [hc] at hsome
    | some p =>
      obtain ⟨h1, w1⟩ := p
      have hfr := PoolCall.Run_Frame hc
      obtain ⟨h2, w2, e2, hfr2⟩ := ih h1 w1 (hfr.timerSlots hs)
      exact ⟨h2, w2, by simp [RunCalls, hc, e2], hfr.trans hfr2⟩

namespace APoolHolder

theorem SetObjectActive_false_holder {h : APoolHolder} {w : World} {o : ObjId}
    {r : EEndPlayReason} {h' : APoolHolder} {w' : World}
    (e : SetObjectActive h w o false r = some (h', w')) :
    h' = h ∧ w'.GetName = w.GetName ∧ w'.NextId = w.NextId := by
  obtain ⟨_, hN, hI, _⟩ := SetObjectActive_effect h w o false r h' w' e
  refine ⟨?_, hN, hI⟩
  simp only [SetObjectActive] at e
  by_cases hV : w.IsValidLowLevelFast o <;>
    by_cases hA : h.DefaultObjectSettings.bIsActor <;>
    by_cases hP : h.DefaultObjectSettings.bImplementsPoolableInterface <;>
    simp only [hV, hA, hP, Bool.not_true, Bool.not_false, Bool.false_eq_true, if_true,
      if_false, Option.some.injEq, Prod.mk.injEq] at e <;>
    exact e.1.symm

/-- `Add` always returns, and what it does to the holder. -/
theorem Add_spec (h : APoolHolder) (w : World) (o : ObjId) :
    ∃ w', Add h w o = some ({ h with
        ObjectPool := TMap.Add h.ObjectPool (w.GetName o) o
        AvailableObjects := h.AvailableObjects ++ [w.GetName o]
        ObjectsToTimers := if 0 < h.DefaultObjectSettings.LifeSpan
          then TMap.Add h.ObjectsToTimers o none else h.ObjectsToTimers }, w') ∧
      w'.GetName = w.GetName ∧ w'.NextId = w.NextId := by
  simp only [Add]
  have hsome := SetObjectActive_false_isSome
    { h with ObjectPool := TMap.Add h.ObjectPool (w.GetName o) o
             AvailableObjects := h.AvailableObjects ++ [w.GetName o] } w o DefaultEndPlayReason
  cases hS : SetObjectActive
    { h with ObjectPool := TMap.Add h.ObjectPool (w.GetName o) o
             AvailableObjects := h.AvailableObjects ++ [w.GetName o] } w o false
      DefaultEndPlayReason with
  | none => simp [hS] at hsome
  | some p =>
    obtain ⟨h1, w1⟩ := p
    obtain ⟨rfl, hN, hI⟩ := SetObjectActive_false_holder hS
    by_cases hL : 0 < h.DefaultObjectSettings.LifeSpan
    · exact ⟨w1.SetObject o { w1.Objects o with InitialLifeSpan := 0 }, by simp [hL], hN, hI⟩
    · exact ⟨w1, by simp [hL], hN, hI⟩

/-- The name index after adding the objects `ids` one after the other. -/
theorem FillPool_spec (C : UClass) (n : Nat) :
    ∀ (h : APoolHolder) (w : World),
      ∃ h' w', FillPool n C h w = some (h', w') ∧
        h'.ObjectPool = (List.range' w.NextId n).foldl
          (fun m i => TMap.Add m (w.GetName i) i) h.ObjectPool ∧
        h'.AvailableObjects = h.AvailableObjects ++ (List.range' w.NextId n).map w.GetName ∧
        h'.DefaultObjectSettings = h.DefaultObjectSettings ∧
        h'.DefaultComponentsSettings = h.DefaultComponentsSettings ∧
        h'.Self = h.Self ∧
        (TimerSlots h → TimerSlots h') ∧
        w'.GetName = w.GetName ∧ w'.NextId = w.NextId + n := by
  induction n with
  | zero => intro h w; exact ⟨h, w, rfl, rfl, by simp, rfl, rfl, rfl, id, rfl, rfl⟩
  | succ n ih =>
    intro h w
    obtain ⟨w1, hAdd, hN1, hI1⟩ := Add_spec h (w.Construct C 0).2 (w.Construct C 0).1
    have hCN : (w.Construct C 0).2.GetName = w.GetName := rfl
    have hCI : (w.Construct C 0).2.NextId = w.NextId + 1 := rfl
    have hC1 : (w.Construct C 0).1 = w.NextId := rfl
    rw [hCN, hC1] at hAdd
    rw [hCN] at hN1
    rw [hCI] at hI1
    obtain ⟨h2, w2, e2, hp, ha, hd, hc, hs, ht, hN2, hI2⟩ := ih { h with
        ObjectPool := TMap.Add h.ObjectPool (w.GetName w.NextId) w.NextId
        AvailableObjects := h.AvailableObjects ++ [w.GetName w.NextId]
        ObjectsToTimers := if 0 < h.DefaultObjectSettings.LifeSpan
          then TMap.Add h.ObjectsToTimers w.NextId none else h.ObjectsToTimers } w1
    refine ⟨h2, w2, ?_, ?_, ?_, ?_, ?_, ?_, ?_, ?_, ?_⟩
    · simp only [FillPool, hC1, hAdd, e2]
    · rw [hp, hN1, hI1]; simp [List.range'_succ]
    · rw [ha, hN1, hI1]; simp [List.range'_succ]
    · rw [hd]
    · rw [hc]
    · rw [hs]
    · intro hts
      apply ht
      intro hL name obj hF
      simp only at hL hF ⊢
      simp only [hL, if_true]
      by_cases hn : w.GetName w.NextId = name
      · subst hn
        rw [TMap.Find_Add_self] at hF
        simp only [Option.some.injEq] at hF
        subst hF
        simp [TMap.Find_Add_self]
      · rw [TMap.Find_Add_of_ne _ _ _ _ hn] at hF
        exact TMap.Find_Add_isSome _ _ _ _ (hts hL name obj hF)
    · rw [hN2, hN1]
    · rw [hI2, hI1, Nat.add_assoc, Nat.add_comm 1 n]

theorem TimerSlots_of_pool_nil (h : APoolHolder) (hp : h.ObjectPool = []) : TimerSlots h := by
  intro _ name obj hF
  simp [hp, TMap.Find] at hF

/-- `InitializePool` on a holder with empty name index returns, and the holder it leaves. -/
theorem InitializePool_spec (h : APoolHolder) (w : World) (C : UClass) (N : Int)
    (hp : h.ObjectPool = []) :
    ∃ h' w', InitializePool h w ⟨some C, N⟩ = some (h', w') ∧
      h'.ObjectPool = (MemberIds w C N.toNat).foldl
        (fun m i => TMap.Add m (w.GetName i) i) [] ∧
      h'.AvailableObjects = h.AvailableObjects ++ (MemberIds w C N.toNat).map w.GetName ∧
      TimerSlots h' ∧ w'.GetName = w.GetName := by
  simp only [InitializePool, MemberIds]
  by_cases hA : C.bIsChildOfAActor
  · simp only [hA, if_true]
    obtain ⟨h2, w2, e2, hp2, ha2, _, _, _, ht, hN2, _⟩ := FillPool_spec C N.toNat
      { h with
        DefaultObjectSettings := { h.DefaultObjectSettings with
          bImplementsPoolableInterface := C.bImplementsPoolableInterface
          bIsActor := true
          bStartWithTickEnabled := ((w.Construct C 0).2.Objects (w.Construct C 0).1).bActorTickEnabled
          TickInterval := ((w.Construct C 0).2.Objects (w.Construct C 0).1).ActorTickInterval
          bHiddenInGame := ((w.Construct C 0).2.Objects (w.Construct C 0).1).bHidden
          LifeSpan := ((w.Construct C 0).2.Objects (w.Construct C 0).1).InitialLifeSpan
          bCanBeDamaged := ((w.Construct C 0).2.Objects (w.Construct C 0).1).bCanBeDamaged }
        DefaultComponentsSettings := h.DefaultComponentsSettings ++
          ((w.Construct C 0).2.Objects (w.Construct C 0).1).Components.map CaptureComponent }
      ((w.Construct C 0).2.Destroy (w.Construct C 0).1)
    refine ⟨h2, w2, e2, ?_, ?_, ht (TimerSlots_of_pool_nil _ hp), ?_⟩
    · rw [hp2]; simp only [hp]; rfl
    · rw [ha2]; rfl
    · rw [hN2]; rfl
  · simp only [hA, Bool.false_eq_true, if_false]
    obtain ⟨h2, w2, e2, hp2, ha2, _, _, _, ht, hN2, _⟩ := FillPool_spec C N.toNat
      { h with
        DefaultObjectSettings := { h.DefaultObjectSettings with
          bImplementsPoolableInterface := C.bImplementsPoolableInterface } } w
    refine ⟨h2, w2, e2, ?_, ?_, ht (TimerSlots_of_pool_nil _ hp), hN2⟩
    · rw [hp2]; simp only [hp]
    · rw [ha2]

theorem InitializePool_total (h : APoolHolder) (w : World) (spec : FPoolSpecification)
    (hp : h.ObjectPool = []) :
    ∃ h' w', InitializePool h w spec = some (h', w') ∧ TimerSlots h' := by
  obtain ⟨C, N⟩ := spec
  cases C with
  | none => exact ⟨h, w, rfl, TimerSlots_of_pool_nil h hp⟩
  | some C =>
    obtain ⟨h', w', e, _, _, ht, _⟩ := InitializePool_spec h w C N hp
    exact ⟨h', w', e, ht⟩

end APoolHolder

namespace TMap
variable {κ ν : Type} [DecidableEq κ]

theorem Add_of_not_mem (m : TMap κ ν) (k : κ) (v : ν) (hk : ∀ p ∈ m, p.1 ≠ k) :
    Add m k v = m ++ [(k, v)] := by
  induction m with
  | nil => rfl
  | cons p t ih =>
    obtain ⟨a, b⟩ := p
    have h1 : a ≠ k := hk (a, b) (by simp)
    simp only [Add, h1, if_false, List.cons_append, List.cons.injEq, true_and]
    exact ih (fun p hp => hk p (by simp [hp]))

theorem foldl_Add_nodup (name : ν → κ) (ids : List ν) :
    ∀ (m : TMap κ ν), (∀ i ∈ ids, ∀ p ∈ m, p.1 ≠ name i) → (ids.map name).Nodup →
      ids.foldl (fun m i => Add m (name i) i) m = m ++ ids.map (fun i => (name i, i)) := by
  induction ids with
  | nil => intro m _ _; simp
  | cons j rest ih =>
    intro m hm hnd
    simp only [List.map_cons, List.nodup_cons, List.mem_map, not_exists, not_and] at hnd
    simp only [List.foldl_cons, List.map_cons]
    rw [Add_of_not_mem m (name j) j (hm j (by simp))]
    rw [ih _ ?_ hnd.2]
    · simp
    · intro i hi p hp
      simp only [List.mem_append, List.mem_singleton] at hp
      rcases hp with hp | rfl
      · exact hm i (by simp [hi]) p hp
      · exact fun e => hnd.1 i hi e.symm

theorem Find_map_of_nodup (name : ν → κ) (ids : List ν) (hnd : (ids.map name).Nodup) :
    ∀ j ∈ ids, Find (ids.map (fun i => (name i, i))) (name j) = some j := by
  induction ids with
  | nil => intro j hj; simp at hj
  | cons a rest ih =>
    intro j hj
    simp only [List.map_cons, List.nodup_cons, List.mem_map, not_exists, not_and] at hnd
    simp only [List.map_cons, Find]
    by_cases e : name a = name j
    · simp only [e, if_true, Option.some.injEq]
      rcases List.mem_cons.mp hj with rfl | hj'
      · rfl
      · exact absurd e.symm (hnd.1 j hj')
    · simp only [e, if_false]
      rcases List.mem_cons.mp hj with rfl | hj'
      · exact absurd rfl e
      · exact ih hnd.2 j hj'

end TMap

namespace APoolHolder

/-- With timer slots in place, as many `GetUnused` calls as a prefix of the available
list is long return the members registered under the names of that prefix, in order,
and leave the rest of the list. -/
theorem GetUnusedTimes_front (l : List FString) :
    ∀ (rest : List FString) (h : APoolHolder) (w : World),
      h.AvailableObjects = l ++ rest → TimerSlots h →
      ∃ h' w', GetUnusedTimes l.length h w = some (l.map (TMap.Find h.ObjectPool), h', w') ∧
        Frame h h' ∧ h'.AvailableObjects = rest ∧ w'.GetName = w.GetName := by
  induction l with
  | nil =>
    intro rest h w ha _
    exact ⟨h, w, rfl, Frame.refl h, by simpa using ha, rfl⟩
  | cons a t ih =>
    intro rest h w ha hs
    have hsome := GetSpecificAndSetActive_isSome h w a hs
    cases hG : GetSpecificAndSetActive h w a with
    | none => simp [hG] at hsome
    | some p =>
      obtain ⟨x, h1, w1⟩ := p
      obtain ⟨hx, hfr, _, hn⟩ := GetSpecificAndSetActive_Frame hG
      have hU : GetUnused h w = some (x, { h1 with AvailableObjects := t ++ rest }, w1) := by
        rw [GetUnused_cons h w a (t ++ rest) (by simpa using ha), hG]; rfl
      have hfr1 : Frame h { h1 with AvailableObjects := t ++ rest } := hfr.setAvail _
      obtain ⟨h2, w2, e2, hfr2, ha2, hn2⟩ :=
        ih rest { h1 with AvailableObjects := t ++ rest } w1 rfl (hfr1.timerSlots hs)
      refine ⟨h2, w2, ?_, hfr1.trans hfr2, ha2, hn2.trans hn⟩
      simp only [List.length_cons, GetUnusedTimes, hU, e2, List.map_cons, hx]
      have : ({ h1 with AvailableObjects := t ++ rest } : APoolHolder).ObjectPool
          = h.ObjectPool := hfr1.pool
      rw [this]

end APoolHolder

theorem filter_ne_eq_erase (l : List FString) (name : FString) (hnd : l.Nodup) :
    l.filter (fun n => decide (n ≠ name)) = l.erase name := by
  rw [List.Nodup.erase_eq_filter hnd]
  apply List.filter_congr
  intro x _
  by_cases hx : x = name <;> simp [hx]

namespace APoolHolder

/-- What activation leaves on a valid member of an actor pool. -/
theorem SetObjectActive_true_actor {h : APoolHolder} {w : World} {o : ObjId}
    {r : EEndPlayReason} {h' : APoolHolder} {w' : World}
    (e : SetObjectActive h w o true r = some (h', w'))
    (hV : w.IsValidLowLevelFast o = true) (hA : h.DefaultObjectSettings.bIsActor = true) :
    (w'.Objects o).bCollisionEnabled = true ∧ (w'.Objects o).AttachParent = none ∧
    (w'.Objects o).bHidden = h.DefaultObjectSettings.bHiddenInGame ∧
    (w'.Objects o).bActorTickEnabled = h.DefaultObjectSettings.bStartWithTickEnabled := by
  simp only [SetObjectActive] at e
  cases hR : RestoreActorSettings h w o with
  | none => simp [hV, hA, hR] at e
  | some p =>
    obtain ⟨h1, w1⟩ := p
    by_cases hP : h.DefaultObjectSettings.bImplementsPoolableInterface <;>
      simp only [hV, hA, hP, hR, Bool.not_true, Bool.false_eq_true, if_true, if_false,
        Option.some.injEq, Prod.mk.injEq] at e <;>
      obtain ⟨rfl, rfl⟩ := e <;>
      simp [World.SetObject, World.DetachFromActor, World.Call]

theorem GetSpecific_of_find {h : APoolHolder} {w : World} {name : FString} {obj : ObjId}
    (hfind : TMap.Find h.ObjectPool name = some obj) :
    GetSpecific h w name = (SetObjectActive h w obj true DefaultEndPlayReason).map
      (fun p => (some obj,
        { p.1 with
          AvailableObjects := (h.AvailableObjects.filter (fun n => decide (n ≠ name))) },
        p.2)) := by
  simp only [GetSpecific, GetSpecificAndSetActive_avail]
  simp only [GetSpecificAndSetActive, hfind]
  cases hS : SetObjectActive h w obj true DefaultEndPlayReason with
  | none => simp
  | some p => simp

/-- `GetSpecific` is `GetUnused` on the list with the name moved to the front. -/
theorem GetSpecific_eq_GetUnused (h : APoolHolder) (w : World) (name : FString) :
    GetUnused { h with AvailableObjects :=
        name :: h.AvailableObjects.filter (fun n => decide (n ≠ name)) } w
      = GetSpecific h w name := by
  rw [GetUnused_cons _ w name (h.AvailableObjects.filter (fun n => decide (n ≠ name))) rfl]
  simp only [GetSpecific, GetSpecificAndSetActive_avail]
  cases hG : GetSpecificAndSetActive h w name with
  | none => simp
  | some p => simp

end APoolHolder

theorem Example.Pool3_timerSlots : APoolHolder.TimerSlots Example.Pool3.1 := by
  obtain ⟨h', w', e, ht⟩ := APoolHolder.InitializePool_total (APoolHolder.New 1) Example.World0
    ⟨some Example.Bullet, 3⟩ rfl
  have hp : Example.Pool3 = (h', w') := by simp [Example.Pool3, e]
  rw [hp]
  exact ht

namespace APoolHolder

theorem Add_timerSlots {h : APoolHolder} {w : World} {x : ObjId} {h1 : APoolHolder}
    {w1 : World} (e : Add h w x = some (h1, w1)) (hs : TimerSlots h) :
    TimerSlots h1 ∧ h1.AvailableObjects = h.AvailableObjects ++ [w.GetName x] ∧
    h1.ObjectPool = TMap.Add h.ObjectPool (w.GetName x) x ∧ w1.GetName = w.GetName := by
  obtain ⟨w', e', hN, _⟩ := Add_spec h w x
  rw [e'] at e
  simp only [Option.some.injEq, Prod.mk.injEq] at e
  obtain ⟨rfl, rfl⟩ := e
  refine ⟨?_, rfl, rfl, hN⟩
  intro hL name obj hF
  simp only at hL hF ⊢
  simp only [hL, if_true]
  by_cases hn : w.GetName x = name
  · subst hn
    rw [TMap.Find_Add_self] at hF
    simp only [Option.some.injEq] at hF
    subst hF
    simp [TMap.Find_Add_self]
  · rw [TMap.Find_Add_of_ne _ _ _ _ hn] at hF
    exact TMap.Find_Add_isSome _ _ _ _ (hs hL name obj hF)

theorem GetAllUnusedLoop_avail (names : List FString) :
    ∀ (h : APoolHolder) (l : List FString) (w : World) (acc : List (Option ObjId)),
      GetAllUnusedLoop names { h with AvailableObjects := l } w acc =
        (GetAllUnusedLoop names h w acc).map
          (fun p => (p.1, { p.2.1 with AvailableObjects := l }, p.2.2)) := by
  induction names with
  | nil => intro h l w acc; rfl
  | cons a t ih =>
    intro h l w acc
    simp only [GetAllUnusedLoop, GetSpecificAndSetActive_avail]
    cases hG : GetSpecificAndSetActive h w a with
    | none => simp
    | some p =>
      obtain ⟨x, h1, w1⟩ := p
      simp only [Option.map_some']
      exact ih h1 l w1 _

theorem GetUnusedUntilEmpty_eq_loop (names : List FString) :
    ∀ (h : APoolHolder) (w : World) (acc : List (Option ObjId)) (Fuel : Nat),
      h.AvailableObjects = names → names.length ≤ Fuel →
      GetUnusedUntilEmpty Fuel h w acc =
        (GetAllUnusedLoop names h w acc).map
          (fun p => (p.1, { p.2.1 with AvailableObjects := [] }, p.2.2)) := by
  induction names with
  | nil =>
    intro h w acc Fuel ha _
    have hh : ({ h with AvailableObjects := [] } : APoolHolder) = h := by
      cases h; simp_all
    cases Fuel <;> simp [GetUnusedUntilEmpty, GetAllUnusedLoop, ha, hh]
  | cons a t ih =>
    intro h w acc Fuel ha hF
    cases Fuel with
    | zero => simp at hF
    | succ F =>
      have hne : h.AvailableObjects ≠ [] := by simp [ha]
      simp only [GetUnusedUntilEmpty, hne, if_false, GetAllUnusedLoop]
      rw [GetUnused_cons h w a t ha]
      cases hG : GetSpecificAndSetActive h w a with
      | none => simp
      | some p =>
        obtain ⟨x, h1, w1⟩ := p
        simp only [Option.map_some']
        rw [ih { h1 with AvailableObjects := t } w1 _ F rfl (by simpa using hF)]
        rw [GetAllUnusedLoop_avail t h1 t w1]
        cases hL : GetAllUnusedLoop t h1 w1 (acc ++ [x]) with
        | none => simp
        | some q => simp

end APoolHolder

namespace AAPoolManager

theorem GetPoolHolder_of_registered {g : Game} {C : UClass} {I : AAPoolManager} {P : ObjId}
    (hr : IsPoolManagerReady g = true) (hI : g.Instance = some I)
    (hF : TMap.Find I.ClassNamesToPools C.Name = some P) :
    GetPoolHolder g (some C) = (some P, g) := by
  simp [GetPoolHolder, hr, hI, hF]

theorem GetPoolHolder_of_failed {g : Game} {Class : Option UClass}
    (hfail : Class = none ∨ IsPoolManagerReady g = false ∨
      ∃ C I, Class = some C ∧ g.Instance = some I ∧
        TMap.Find I.ClassNamesToPools C.Name = none) :
    ∃ Line, GetPoolHolder g Class = (none, g.Log Line) := by
  cases Class with
  | none => exact ⟨_, rfl⟩
  | some C =>
    by_cases hr : IsPoolManagerReady g = true
    · rcases hfail with h | h | ⟨C', I, hC, hI, hF⟩
      · cases h
      · rw [hr] at h; cases h
      · cases hC
        exact ⟨"Pool Manager is not ready yet!", by simp [GetPoolHolder, hr, hI, hF]⟩
    · exact ⟨"Pool Manager is not ready yet!", by simp [GetPoolHolder, hr]⟩

end AAPoolManager

namespace World

theorem Destroy_objects_of_ne (w : World) (x o : ObjId) (hne : o ≠ x) :
    (w.Destroy x).Objects o = w.Objects o := by
  simp [Destroy, SetObject, hne]

theorem Destroy_pending (w : World) (x o : ObjId)
    (hp : o = x ∨ (w.Objects o).bPendingKill = true) :
    ((w.Destroy x).Objects o).bPendingKill = true := by
  by_cases hne : o = x
  · subst hne; simp [Destroy, SetObject]
  · rw [Destroy_objects_of_ne w x o hne]
    rcases hp with h | h
    · exact absurd h hne
    · exact h

theorem foldl_Destroy_objects (l : List ObjId) :
    ∀ (w : World) (o : ObjId), o ∉ l → (l.foldl Destroy w).Objects o = w.Objects o := by
  induction l with
  | nil => intro w o _; rfl
  | cons a t ih =>
    intro w o ho
    simp only [List.mem_cons, not_or] at ho
    simp only [List.foldl_cons]
    rw [ih (w.Destroy a) o ho.2, Destroy_objects_of_ne w a o ho.1]

theorem foldl_Destroy_pending (l : List ObjId) :
    ∀ (w : World) (o : ObjId), (o ∈ l ∨ (w.Objects o).bPendingKill = true) →
      ((l.foldl Destroy w).Objects o).bPendingKill = true := by
  induction l with
  | nil =>
    intro w o h
    rcases h with h | h
    · simp at h
    · exact h
  | cons a t ih =>
    intro w o h
    simp only [List.foldl_cons]
    apply ih
    rcases h with h | h
    · rcases List.mem_cons.mp h with h1 | h1
      · exact Or.inr (Destroy_pending w a o (Or.inl h1))
      · exact Or.inl h1
    · exact Or.inr (Destroy_pending w a o (Or.inr h))

theorem foldl_Destroy_rest (l : List ObjId) :
    ∀ (w : World), (l.foldl Destroy w).Timers = w.Timers ∧
      (l.foldl Destroy w).NextId = w.NextId ∧ (l.foldl Destroy w).GetName = w.GetName := by
  induction l with
  | nil => intro w; exact ⟨rfl, rfl, rfl⟩
  | cons a t ih =>
    intro w
    simp only [List.foldl_cons]
    obtain ⟨h1, h2, h3⟩ := ih (w.Destroy a)
    exact ⟨h1, h2, h3⟩

theorem ClearTimer_objects (w : World) (k : FTimerHandle) :
    (w.ClearTimer k).Objects = w.Objects := by
  cases k <;> rfl

theorem mem_ClearTimer (w : World) (k : FTimerHandle) (t : FTimerData)
    (ht : t ∈ (w.ClearTimer k).Timers) : t ∈ w.Timers ∧ k ≠ some t.Handle := by
  cases k with
  | none => exact ⟨ht, by simp⟩
  | some j =>
    simp only [ClearTimer, List.mem_filter, decide_eq_true_eq] at ht
    exact ⟨ht.1, fun e => ht.2 (by simpa using e.symm)⟩

theorem foldl_ClearTimer_objects (l : List FTimerHandle) :
    ∀ (w : World), (l.foldl ClearTimer w).Objects = w.Objects := by
  induction l with
  | nil => intro w; rfl
  | cons a t ih =>
    intro w
    simp only [List.foldl_cons]
    rw [ih, ClearTimer_objects]

theorem mem_foldl_ClearTimer (l : List FTimerHandle) :
    ∀ (w : World) (t : FTimerData), t ∈ (l.foldl ClearTimer w).Timers →
      t ∈ w.Timers ∧ some t.Handle ∉ l := by
  induction l with
  | nil => intro w t ht; exact ⟨ht, by simp⟩
  | cons a r ih =>
    intro w t ht
    simp only [List.foldl_cons] at ht
    obtain ⟨h1, h2⟩ := ih _ t ht
    obtain ⟨h3, h4⟩ := mem_ClearTimer w a t h1
    refine ⟨h3, ?_⟩
    simp only [List.mem_cons, not_or]
    exact ⟨fun e => h4 e.symm, h2⟩

end World

namespace APoolHolder

theorem RestoreComponents_nil (P : List UActorComponent) : RestoreComponents P [] = P := by
  cases P <;> rfl

end APoolHolder

namespace APoolHolder

theorem settings_nil_of_not_pos {S : List FDefaultComponentSettings}
    (hC : ¬ 0 < S.length) : S = [] := by
  cases S with
  | nil => rfl
  | cons a b => simp at hC

/-- The state `RestoreActorSettings` leaves on the actor. -/
theorem RestoreActorSettings_state {h : APoolHolder} {w : World} {x : ObjId}
    {h1 : APoolHolder} {w1 : World} (e : RestoreActorSettings h w x = some (h1, w1)) :
    w1.Objects x = { w.Objects x with
      ActorTickInterval := h.DefaultObjectSettings.TickInterval
      bCanBeDamaged := h.DefaultObjectSettings.bCanBeDamaged
      Components :=
        RestoreComponents (w.Objects x).Components h.DefaultComponentsSettings } := by
  simp only [RestoreActorSettings] at e
  by_cases hC : 0 < h.DefaultComponentsSettings.length
  · by_cases hL : 0 < h.DefaultObjectSettings.LifeSpan
    · cases hF : TMap.Find h.ObjectsToTimers x with
      | none => simp [hL, hF] at e
      | some t =>
        simp only [hL, hF, hC, if_true, Option.some.injEq, Prod.mk.injEq] at e
        obtain ⟨_, rfl⟩ := e
        simp [World.SetObject, World.SetTimer]
    · simp only [hL, hC, if_true, if_false, Option.some.injEq, Prod.mk.injEq] at e
      obtain ⟨_, rfl⟩ := e
      simp [World.SetObject]
  · have hnil := settings_nil_of_not_pos hC
    by_cases hL : 0 < h.DefaultObjectSettings.LifeSpan
    · cases hF : TMap.Find h.ObjectsToTimers x with
      | none => simp [hL, hF] at e
      | some t =>
        simp only [hL, hF, hC, if_true, if_false, Option.some.injEq, Prod.mk.injEq] at e
        obtain ⟨_, rfl⟩ := e
        simp [World.SetObject, World.SetTimer, hnil, RestoreComponents_nil]
    · simp only [hL, hC, if_true, if_false, Option.some.injEq, Prod.mk.injEq] at e
      obtain ⟨_, rfl⟩ := e
      simp [World.SetObject, hnil, RestoreComponents_nil]

/-- The state activation leaves on a valid member of an actor pool. -/
theorem SetObjectActive_true_state {h : APoolHolder} {w : World} {x : ObjId}
    {r : EEndPlayReason} {h' : APoolHolder} {w' : World}
    (e : SetObjectActive h w x true r = some (h', w'))
    (hV : w.IsValidLowLevelFast x = true) (hA : h.DefaultObjectSettings.bIsActor = true) :
    w'.Objects x = { w.Objects x with
      ActorTickInterval := h.DefaultObjectSettings.TickInterval
      bCanBeDamaged := h.DefaultObjectSettings.bCanBeDamaged
      Components := ActivatedComponents h w x
      AttachParent := none
      bHidden := h.DefaultObjectSettings.bHiddenInGame
      bCollisionEnabled := true
      bActorTickEnabled := h.DefaultObjectSettings.bStartWithTickEnabled } := by
  simp only [SetObjectActive] at e
  cases hR : RestoreActorSettings h w x with
  | none => simp [hV, hA, hR] at e
  | some p =>
    obtain ⟨h1, w1⟩ := p
    have hst := RestoreActorSettings_state hR
    obtain ⟨_, _, _, hO⟩ := RestoreActorSettings_effect h w x h1 w1 hR
    have hT : ∀ P, (w1.Objects P).Transform = (w.Objects P).Transform := by
      intro P
      by_cases hP : P = x
      · subst hP; rw [hst]
      · rw [hO P hP]
    have hD : w1.DetachComponent x = w.DetachComponent x := by
      funext c
      simp only [World.DetachComponent, hst]
      cases (w.Objects x).AttachParent with
      | none => rfl
      | some P => simp only [hT]
    by_cases hP : h.DefaultObjectSettings.bImplementsPoolableInterface <;>
      simp only [hV, hA, hP, hR, Bool.not_true, Bool.false_eq_true, if_true, if_false,
        Option.some.injEq, Prod.mk.injEq] at e <;>
      obtain ⟨_, rfl⟩ := e <;>
      simp [World.SetObject, World.Call, World.DetachFromActor, hst, ActivatedComponents,
        hD]

/-- Deactivation touches neither the validity nor the components of any object, nor the
timers. -/
theorem SetObjectActive_false_state {h : APoolHolder} {w : World} {x : ObjId}
    {r : EEndPlayReason} {h' : APoolHolder} {w' : World}
    (e : SetObjectActive h w x false r = some (h', w')) :
    w'.Timers = w.Timers ∧
    ∀ o, (w'.Objects o).Components = (w.Objects o).Components ∧
      (w'.Objects o).bValidLowLevel = (w.Objects o).bValidLowLevel := by
  simp only [SetObjectActive] at e
  by_cases hV : w.IsValidLowLevelFast x <;>
    by_cases hA : h.DefaultObjectSettings.bIsActor <;>
    by_cases hP : h.DefaultObjectSettings.bImplementsPoolableInterface <;>
    simp only [hV, hA, hP, Bool.not_true, Bool.not_false, Bool.false_eq_true, if_true,
      if_false, Option.some.injEq, Prod.mk.injEq] at e <;>
    obtain ⟨_, rfl⟩ := e <;>
    refine ⟨rfl, fun o => ?_⟩ <;>
    by_cases ho : o = x <;> simp [World.SetObject, World.Call, ho]

/-- Activation keeps the validity of every object. -/
theorem SetObjectActive_valid {h : APoolHolder} {w : World} {x : ObjId} {b : Bool}
    {r : EEndPlayReason} {h' : APoolHolder} {w' : World}
    (e : SetObjectActive h w x b r = some (h', w')) (o : ObjId) :
    w'.IsValidLowLevelFast o = w.IsValidLowLevelFast o := by
  cases b with
  | false => exact ((SetObjectActive_false_state e).2 o).2
  | true =>
    by_cases ho : o = x
    · subst ho
      by_cases hV : w.IsValidLowLevelFast o = true
      · by_cases hA : h.DefaultObjectSettings.bIsActor = true
        · simp only [World.IsValidLowLevelFast, SetObjectActive_true_state e hV hA]
        · simp only [SetObjectActive] at e
          by_cases hP : h.DefaultObjectSettings.bImplementsPoolableInterface <;>
            simp only [hV, hA, hP, Bool.not_true, Bool.false_eq_true, if_true,
              if_false, Option.some.injEq, Prod.mk.injEq] at e <;>
            obtain ⟨_, rfl⟩ := e <;> rfl
      · simp only [Bool.not_eq_true] at hV
        simp only [SetObjectActive, hV, Bool.not_false, if_true, Option.some.injEq,
          Prod.mk.injEq] at e
        obtain ⟨_, rfl⟩ := e
        rfl
    · obtain ⟨_, _, _, hO⟩ := SetObjectActive_effect h w x true r h' w' e
      simp only [World.IsValidLowLevelFast, hO o ho]

end APoolHolder

namespace APoolHolder

theorem SetObjectActive_of_invalid {h : APoolHolder} {w : World} {x : ObjId} {b : Bool}
    {r : EEndPlayReason} (hV : w.IsValidLowLevelFast x = false) :
    SetObjectActive h w x b r = some (h, w) := by
  simp [SetObjectActive, hV]

theorem SetObjectActive_true_activated {h : APoolHolder} {w : World} {x : ObjId}
    {r : EEndPlayReason} {h' : APoolHolder} {w' : World}
    (e : SetObjectActive h w x true r = some (h', w'))
    (hV : w.IsValidLowLevelFast x = true) (hA : h.DefaultObjectSettings.bIsActor = true) :
    ActivatedAs h.DefaultObjectSettings (w'.Objects x) := by
  rw [SetObjectActive_true_state e hV hA]
  exact ⟨rfl, rfl, rfl, rfl, rfl, rfl⟩

theorem SetObjectActive_true_keeps_activated {h : APoolHolder} {w : World} {x : ObjId}
    {r : EEndPlayReason} {h' : APoolHolder} {w' : World}
    (e : SetObjectActive h w x true r = some (h', w'))
    (hA : h.DefaultObjectSettings.bIsActor = true) (y : ObjId)
    (hy : ActivatedAs h.DefaultObjectSettings (w.Objects y)) :
    ActivatedAs h.DefaultObjectSettings (w'.Objects y) := by
  by_cases hxy : y = x
  · subst hxy
    by_cases hV : w.IsValidLowLevelFast y = true
    · exact SetObjectActive_true_activated e hV hA
    · simp only [Bool.not_eq_true] at hV
      rw [SetObjectActive_of_invalid hV] at e
      simp only [Option.some.injEq, Prod.mk.injEq] at e
      obtain ⟨_, rfl⟩ := e
      exact hy
  · obtain ⟨_, _, _, hO⟩ := SetObjectActive_effect h w x true r h' w' e
    rw [hO y hxy]
    exact hy

theorem GetSpecificAndSetActive_activated {h : APoolHolder} {w : World} {n : FString}
    {res : Option ObjId} {h' : APoolHolder} {w' : World}
    (e : GetSpecificAndSetActive h w n = some (res, h', w'))
    (hA : h.DefaultObjectSettings.bIsActor = true) :
    (∀ y, ActivatedAs h.DefaultObjectSettings (w.Objects y) →
      ActivatedAs h.DefaultObjectSettings (w'.Objects y)) ∧
    (∀ x, TMap.Find h.ObjectPool n = some x → w.IsValidLowLevelFast x = true →
      ActivatedAs h.DefaultObjectSettings (w'.Objects x)) ∧
    (∀ o, w'.IsValidLowLevelFast o = w.IsValidLowLevelFast o) := by
  simp only [GetSpecificAndSetActive] at e
  cases hF : TMap.Find h.ObjectPool n with
  | none =>
    simp only [hF, Option.some.injEq, Prod.mk.injEq] at e
    obtain ⟨_, _, rfl⟩ := e
    exact ⟨fun _ hy => hy, fun x hx => by simp at hx, fun _ => rfl⟩
  | some o =>
    cases hS : SetObjectActive h w o true DefaultEndPlayReason with
    | none => simp [hF, hS] at e
    | some p =>
      obtain ⟨h1, w1⟩ := p
      simp only [hF, hS, Option.some.injEq, Prod.mk.injEq] at e
      obtain ⟨_, _, rfl⟩ := e
      refine ⟨fun y hy => SetObjectActive_true_keeps_activated hS hA y hy, ?_,
        fun o' => SetObjectActive_valid hS o'⟩
      intro x hx hV
      simp only [Option.some.injEq] at hx
      subst hx
      exact SetObjectActive_true_activated hS hV hA

theorem GetAllUnusedLoop_activated (names : List FString) :
    ∀ (h : APoolHolder) (w : World) (acc xs : List (Option ObjId)) (h' : APoolHolder)
      (w' : World), GetAllUnusedLoop names h w acc = some (xs, h', w') →
      h.DefaultObjectSettings.bIsActor = true →
      (∀ y, ActivatedAs h.DefaultObjectSettings (w.Objects y) →
        ActivatedAs h.DefaultObjectSettings (w'.Objects y)) ∧
      (∀ n ∈ names, ∀ x, TMap.Find h.ObjectPool n = some x →
        w.IsValidLowLevelFast x = true →
        ActivatedAs h.DefaultObjectSettings (w'.Objects x)) := by
  induction names with
  | nil =>
    intro h w acc xs h' w' e _
    simp only [GetAllUnusedLoop, Option.some.injEq, Prod.mk.injEq] at e
    obtain ⟨_, _, rfl⟩ := e
    exact ⟨fun _ hy => hy, fun n hn => by simp at hn⟩
  | cons a t ih =>
    intro h w acc xs h' w' e hA
    simp only [GetAllUnusedLoop] at e
    cases hG : GetSpecificAndSetActive h w a with
    | none => simp [hG] at e
    | some p =>
      obtain ⟨y, h1, w1⟩ := p
      simp only [hG] at e
      obtain ⟨_, hfr, _, _⟩ := GetSpecificAndSetActive_Frame hG
      obtain ⟨hkeep, hact, hval⟩ := GetSpecificAndSetActive_activated hG hA
      have hD : h1.DefaultObjectSettings = h.DefaultObjectSettings := hfr.settings
      have hA1 : h1.DefaultObjectSettings.bIsActor = true := by rw [hD]; exact hA
      obtain ⟨hkeep2, hact2⟩ := ih h1 w1 _ xs h' w' e hA1
      rw [hD] at hkeep2 hact2
      refine ⟨fun z hz => hkeep2 z (hkeep z hz), ?_⟩
      intro n hn x hx hV
      rcases List.mem_cons.mp hn with rfl | hn'
      · exact hkeep2 x (hact x hx hV)
      · exact hact2 n hn' x (by rw [hfr.pool]; exact hx) (by rw [hval]; exact hV)

end APoolHolder

namespace APoolHolder

theorem Frame.slot {a b : APoolHolder} (h1 : Frame a b) (k : ObjId)
    (hk : (TMap.Find a.ObjectsToTimers k).isSome = true) :
    (TMap.Find b.ObjectsToTimers k).isSome = true := by
  obtain ⟨T1, l1, rfl, m⟩ := h1
  exact m k hk

end APoolHolder

theorem Example.Rockets_settings :
    Example.Rockets.1.DefaultObjectSettings.bIsActor = true ∧
    ¬ 0 < Example.Rockets.1.DefaultObjectSettings.LifeSpan := by
  decide

theorem Example.Rockets_timerSlots : APoolHolder.TimerSlots Example.Rockets.1 :=
  fun hL => absurd hL Example.Rockets_settings.2

namespace TMap
variable {κ ν : Type} [DecidableEq κ]

theorem Find_Remove_self (m : TMap κ ν) (k : κ) : Find (Remove m k) k = none := by
  induction m with
  | nil => rfl
  | cons p t ih =>
    obtain ⟨a, b⟩ := p
    by_cases h1 : a = k
    · simp only [Remove, List.filter, h1, ne_eq, not_true_eq_false, decide_False]
      exact ih
    · simp only [Remove, List.filter, h1, ne_eq, not_false_eq_true, decide_True, Find,
        if_false]
      exact ih

theorem Find_Remove_of_ne (m : TMap κ ν) (k k' : κ) (hne : k' ≠ k) :
    Find (Remove m k) k' = Find m k' := by
  induction m with
  | nil => rfl
  | cons p t ih =>
    obtain ⟨a, b⟩ := p
    by_cases h1 : a = k
    · have h2 : a ≠ k' := fun e => hne (e ▸ h1)
      simp only [Remove, List.filter, h1, ne_eq, not_true_eq_false, decide_False, Find]
      rw [if_neg (by rw [← h1]; exact h2)]
      exact ih
    · simp only [Remove, List.filter, h1, ne_eq, not_false_eq_true, decide_True, Find]
      by_cases h2 : a = k'
      · simp [h2]
      · simp only [h2, if_false]
        exact ih

end TMap

namespace APoolHolder

/-- `Destroyed` leaves alone every object that is neither in the name index nor attached
to the holder. -/
theorem Destroyed_objects (h : APoolHolder) (w : World) (o : ObjId)
    (hv : o ∉ TMap.GenerateValueArray h.ObjectPool)
    (ha : (w.Objects o).AttachParent ≠ some h.Self) :
    (Destroyed h w).2.Objects o = w.Objects o := by
  have h1 : (if h.DefaultObjectSettings.bIsActor = true then
      (TMap.GenerateValueArray h.ObjectPool).foldl World.Destroy w else w).Objects o
      = w.Objects o := by
    by_cases hA : h.DefaultObjectSettings.bIsActor = true
    · simp only [hA, if_true]
      exact World.foldl_Destroy_objects _ w o hv
    · simp [hA]
  have h2 : ∀ w1 : World, w1.Objects o = w.Objects o →
      ((w1.GetAttachedActors h.Self).foldl World.Destroy w1).Objects o = w.Objects o := by
    intro w1 e1
    rw [World.foldl_Destroy_objects _ w1 o ?_, e1]
    intro hmem
    simp only [World.GetAttachedActors, List.mem_filter, decide_eq_true_eq] at hmem
    rw [e1] at hmem
    exact ha hmem.2
  simp only [Destroyed]
  by_cases hL : 0 < h.DefaultObjectSettings.LifeSpan
  · simp only [hL, if_true, World.foldl_ClearTimer_objects]
    exact h2 _ h1
  · simp only [hL, if_false]
    exact h2 _ h1

end APoolHolder

namespace Game

theorem DestroyActor_holders (g : Game) (P Q : ObjId) (hne : Q ≠ P) :
    (g.DestroyActor P).Holders Q = g.Holders Q := by
  simp only [DestroyActor]
  by_cases h1 : (g.World.Objects P).bPendingKill = true
  · simp [h1]
  · by_cases h2 : (g.World.Objects P).Class = some APoolHolder.StaticClass
    · simp [h1, h2, SetHolder, hne]
    · simp [h1, h2]

theorem DestroyActor_instance (g : Game) (P : ObjId) :
    (g.DestroyActor P).Instance = g.Instance ∧ (g.DestroyActor P).LogTemp = g.LogTemp := by
  simp only [DestroyActor]
  by_cases h1 : (g.World.Objects P).bPendingKill = true
  · simp [h1]
  · by_cases h2 : (g.World.Objects P).Class = some APoolHolder.StaticClass
    · simp [h1, h2, SetHolder]
    · simp [h1, h2]

theorem DestroyActor_pending (g : Game) (P : ObjId) :
    ((g.DestroyActor P).World.Objects P).bPendingKill = true := by
  simp only [DestroyActor]
  by_cases h1 : (g.World.Objects P).bPendingKill = true
  · simp [h1]
  · by_cases h2 : (g.World.Objects P).Class = some APoolHolder.StaticClass
    · simp only [h1, h2, if_true, if_false, Bool.false_eq_true]
      exact World.Destroy_pending _ P P (Or.inl rfl)
    · simp only [h1, h2, if_false, Bool.false_eq_true]
      exact World.Destroy_pending _ P P (Or.inl rfl)

theorem DestroyActor_objects (g : Game) (P o : ObjId) (hne : o ≠ P)
    (hv : o ∉ TMap.GenerateValueArray (g.Holders P).ObjectPool)
    (ha : (g.World.Objects o).AttachParent ≠ some (g.Holders P).Self) :
    (g.DestroyActor P).World.Objects o = g.World.Objects o := by
  simp only [DestroyActor]
  by_cases h1 : (g.World.Objects P).bPendingKill = true
  · simp [h1]
  · by_cases h2 : (g.World.Objects P).Class = some APoolHolder.StaticClass
    · simp only [h1, h2, if_true, if_false, Bool.false_eq_true]
      rw [World.Destroy_objects_of_ne _ P o hne]
      exact APoolHolder.Destroyed_objects _ _ o hv ha
    · simp only [h1, h2, if_false, Bool.false_eq_true]
      exact World.Destroy_objects_of_ne _ P o hne

end Game

namespace APoolHolder

end APoolHolder

namespace TMap
variable {κ ν : Type} [DecidableEq κ]

theorem mem_keys_of_Find_isSome (m : TMap κ ν) (k : κ)
    (hk : (Find m k).isSome = true) : k ∈ m.map Prod.fst := by
  induction m with
  | nil => simp [Find] at hk
  | cons p t ih =>
    obtain ⟨a, b⟩ := p
    by_cases h1 : a = k
    · simp [h1]
    · simp only [Find, h1, if_false] at hk
      simp only [List.map_cons, List.mem_cons]
      exact Or.inr (ih hk)

theorem length_le_of_nodup_keys (m : TMap κ ν) (l : List κ) (hnd : l.Nodup)
    (hsub : ∀ n ∈ l, (Find m n).isSome = true) : l.length ≤ m.length := by
  have h1 : l ⊆ m.map Prod.fst := fun n hn => mem_keys_of_Find_isSome m n (hsub n hn)
  have h2 := (hnd.subperm h1).length_le
  simpa using h2

theorem Find_map_key (name : ν → κ) (ids : List ν) (n : κ) (x : ν)
    (hF : Find (ids.map (fun i => (name i, i))) n = some x) : name x = n := by
  induction ids with
  | nil => simp [Find] at hF
  | cons a t ih =>
    simp only [List.map_cons, Find] at hF
    by_cases h1 : name a = n
    · simp only [h1, if_true, Option.some.injEq] at hF
      subst hF
      exact h1
    · simp only [h1, if_false] at hF
      exact ih hF

end TMap

namespace APoolHolder

theorem FireTimer_cases (h : APoolHolder) (w : World) (t : FTimerData) :
    (FireTimer h w t = some (h, w) ∧ ¬ (t ∈ w.Timers ∧ t.Holder = h.Self)) ∨
    (FireTimer h w t = ReturnObject h (w.ClearTimer (some t.Handle)) t.Object t.Reason ∧
      (t ∈ w.Timers ∧ t.Holder = h.Self)) := by
  by_cases hc : t ∈ w.Timers ∧ t.Holder = h.Self
  · exact Or.inr ⟨by simp [FireTimer, hc], hc⟩
  · exact Or.inl ⟨by simp [FireTimer, hc], hc⟩

theorem ClearTimer_GetName (w : World) (k : FTimerHandle) :
    (w.ClearTimer k).GetName = w.GetName := by
  cases k <;> rfl

end APoolHolder

/-- Under the timer slots every operation returns, keeps the timer slots and every slot
there was, and leaves the settings alone. -/
theorem PoolOp.Run_slots (op : PoolOp) (h : APoolHolder) (w : World)
    (hs : APoolHolder.TimerSlots h) :
    ∃ h' w', op.Run h w = some (h', w') ∧ APoolHolder.TimerSlots h' ∧
      (∀ k, (TMap.Find h.ObjectsToTimers k).isSome = true →
        (TMap.Find h'.ObjectsToTimers k).isSome = true) ∧
      h'.DefaultObjectSettings = h.DefaultObjectSettings := by
  cases op with
  | Call c =>
    have hsome := PoolCall.Run_isSome c h w hs
    cases hc : c.Run h w with
    | none => simp [hc] at hsome
    | some p =>
      obtain ⟨h1, w1⟩ := p
      have hfr := PoolCall.Run_Frame hc
      exact ⟨h1, w1, hc, hfr.timerSlots hs, fun k hk => hfr.slot k hk, hfr.settings⟩
  | Add x =>
    obtain ⟨w1, e, _, _⟩ := APoolHolder.Add_spec h w x
    obtain ⟨hs1, _, _, _⟩ := APoolHolder.Add_timerSlots e hs
    refine ⟨_, w1, e, hs1, ?_, rfl⟩
    intro k hk
    by_cases hL : 0 < h.DefaultObjectSettings.LifeSpan
    · simp only [hL, if_true]
      exact TMap.Find_Add_isSome _ _ _ _ hk
    · simp only [hL, if_false]
      exact hk
  | Expire t =>
    rcases APoolHolder.FireTimer_cases h w t with ⟨e, _⟩ | ⟨e, _⟩
    · exact ⟨h, w, e, hs, fun _ hk => hk, rfl⟩
    · have hsome := APoolHolder.ReturnObject_isSome h (w.ClearTimer (some t.Handle))
        t.Object t.Reason
      cases hR : APoolHolder.ReturnObject h (w.ClearTimer (some t.Handle)) t.Object
          t.Reason with
      | none => simp [hR] at hsome
      | some p =>
        obtain ⟨h1, w1⟩ := p
        obtain ⟨hfr, _, _⟩ := APoolHolder.ReturnObject_Frame hR
        exact ⟨h1, w1, by simp only [PoolOp.Run, e, hR], hfr.timerSlots hs,
          fun k hk => hfr.slot k hk, hfr.settings⟩

theorem RunOps_slots (ops : List PoolOp) :
    ∀ (h : APoolHolder) (w : World), APoolHolder.TimerSlots h →
      ∃ h' w', RunOps ops h w = some (h', w') ∧ APoolHolder.TimerSlots h' ∧
        (∀ k, (TMap.Find h.ObjectsToTimers k).isSome = true →
          (TMap.Find h'.ObjectsToTimers k).isSome = true) ∧
        h'.DefaultObjectSettings = h.DefaultObjectSettings := by
  induction ops with
  | nil => intro h w hs; exact ⟨h, w, rfl, hs, fun _ hk => hk, rfl⟩
  | cons op ops ih =>
    intro h w hs
    obtain ⟨h1, w1, e1, hs1, hm1, hd1⟩ := PoolOp.Run_slots op h w hs
    obtain ⟨h2, w2, e2, hs2, hm2, hd2⟩ := ih h1 w1 hs1
    exact ⟨h2, w2, by simp only [RunOps, e1, e2], hs2, fun k hk => hm2 k (hm1 k hk),
      hd2.trans hd1⟩

namespace APoolHolder

/-- A holder that differs by timer handles and available list only keeps the invariant
when its new list has no duplicates and holds keys only. -/
theorem DisciplineInvariant.of_frame {h h' : APoolHolder} {w w' : World}
    (hinv : DisciplineInvariant h w) (hfr : Frame h h') (hn : w'.GetName = w.GetName)
    (hnd : h'.AvailableObjects.Nodup)
    (hsub : ∀ n ∈ h'.AvailableObjects, (TMap.Find h.ObjectPool n).isSome = true) :
    DisciplineInvariant h' w' := by
  obtain ⟨_, _, hname, hs⟩ := hinv
  refine ⟨hnd, ?_, ?_, hfr.timerSlots hs⟩
  · intro n hmem
    rw [hfr.pool]
    exact hsub n hmem
  · intro n x hF
    rw [hfr.pool] at hF
    rw [hn]
    exact hname n x hF

theorem GetUnused_avail {h : APoolHolder} {w : World} {res : Option ObjId}
    {h' : APoolHolder} {w' : World} (e : GetUnused h w = some (res, h', w')) :
    h'.AvailableObjects = h.AvailableObjects.tail ∧
      res = (h.AvailableObjects.head?).bind (TMap.Find h.ObjectPool) := by
  cases hav : h.AvailableObjects with
  | nil =>
    rw [GetUnused_nil h w hav] at e
    simp only [Option.some.injEq, Prod.mk.injEq] at e
    obtain ⟨rfl, rfl, _⟩ := e
    exact ⟨by simp [hav], rfl⟩
  | cons a rest =>
    rw [GetUnused_cons h w a rest hav] at e
    cases hG : GetSpecificAndSetActive h w a with
    | none => simp [hG] at e
    | some p =>
      obtain ⟨y, h1, w1⟩ := p
      obtain ⟨hy, _, _, _⟩ := GetSpecificAndSetActive_Frame hG
      simp only [hG, Option.map_some', Option.some.injEq, Prod.mk.injEq] at e
      obtain ⟨rfl, rfl, _⟩ := e
      exact ⟨rfl, by simp [hy]⟩

theorem GetSpecific_avail {h : APoolHolder} {w : World} {n : FString}
    {res : Option ObjId} {h' : APoolHolder} {w' : World}
    (e : GetSpecific h w n = some (res, h', w')) :
    h'.AvailableObjects = h.AvailableObjects.filter (fun m => decide (m ≠ n)) ∧
      res = TMap.Find h.ObjectPool n := by
  simp only [GetSpecific] at e
  obtain ⟨hres, _, hav, _⟩ := GetSpecificAndSetActive_Frame e
  exact ⟨hav, hres⟩

theorem GetAllUnused_avail {h : APoolHolder} {w : World} {xs : List (Option ObjId)}
    {h' : APoolHolder} {w' : World} (e : GetAllUnused h w = some (xs, h', w')) :
    h'.AvailableObjects = [] ∧ xs = h.AvailableObjects.map (TMap.Find h.ObjectPool) := by
  simp only [GetAllUnused] at e
  cases hG : GetAllUnusedLoop h.AvailableObjects h w [] with
  | none => simp [hG] at e
  | some p =>
    obtain ⟨ys, h1, w1⟩ := p
    obtain ⟨_, _, _, hys⟩ := GetAllUnusedLoop_Frame _ h w [] ys h1 w1 hG
    simp only [hG, Option.some.injEq, Prod.mk.injEq] at e
    obtain ⟨rfl, rfl, _⟩ := e
    exact ⟨rfl, by simpa using hys⟩

theorem IsLeased_iff {h : APoolHolder} {w : World} {x : ObjId} :
    IsLeased h w x = true ↔
      TMap.Find h.ObjectPool (w.GetName x) = some x ∧ w.GetName x ∉ h.AvailableObjects := by
  simp [IsLeased]

/-- A disciplined return keeps the invariant. -/
theorem DisciplineInvariant.returnObject {h : APoolHolder} {w : World} {x : ObjId}
    {r : EEndPlayReason} (hinv : DisciplineInvariant h w) (hl : IsLeased h w x = true) :
    ∃ h' w', ReturnObject h w x r = some (h', w') ∧ DisciplineInvariant h' w' := by
  obtain ⟨hF, hnot⟩ := IsLeased_iff.mp hl
  have hsome := ReturnObject_isSome h w x r
  cases hR : ReturnObject h w x r with
  | none => simp [hR] at hsome
  | some p =>
    obtain ⟨h1, w1⟩ := p
    obtain ⟨hfr, hav, hn⟩ := ReturnObject_Frame hR
    refine ⟨h1, w1, rfl, hinv.of_frame hfr hn ?_ ?_⟩
    · rw [hav]
      exact List.Nodup.append hinv.1 (List.nodup_singleton _)
        (by
          intro a ha hb
          simp only [List.mem_singleton] at hb
          subst hb
          exact hnot ha)
    · intro n hmem
      rw [hav] at hmem
      rcases List.mem_append.mp hmem with h1' | h1'
      · exact hinv.2.1 n h1'
      · simp only [List.mem_singleton] at h1'
        subst h1'
        simp [hF]

/-- Adding an object under a name the name index does not hold keeps the invariant. -/
theorem DisciplineInvariant.add {h : APoolHolder} {w : World} {x : ObjId}
    (hinv : DisciplineInvariant h w)
    (hfresh : TMap.Find h.ObjectPool (w.GetName x) = none) :
    ∃ h' w', Add h w x = some (h', w') ∧ DisciplineInvariant h' w' := by
  obtain ⟨w', e, _, _⟩ := Add_spec h w x
  obtain ⟨hs1, hav, hp, hn⟩ := Add_timerSlots e hinv.2.2.2
  have hnot : w.GetName x ∉ h.AvailableObjects := by
    intro hmem
    have := hinv.2.1 _ hmem
    simp [hfresh] at this
  refine ⟨_, w', e, ?_, ?_, ?_, hs1⟩
  · rw [hav]
    exact List.Nodup.append hinv.1 (List.nodup_singleton _)
      (by
        intro a ha hb
        simp only [List.mem_singleton] at hb
        subst hb
        exact hnot ha)
  · intro n hmem
    rw [hav] at hmem
    rw [hp]
    rcases List.mem_append.mp hmem with h1' | h1'
    · exact TMap.Find_Add_isSome _ _ _ _ (hinv.2.1 n h1')
    · simp only [List.mem_singleton] at h1'
      subst h1'
      simp [TMap.Find_Add_self]
  · intro n y hF
    rw [hp] at hF
    rw [hn]
    by_cases hne : w.GetName x = n
    · subst hne
      rw [TMap.Find_Add_self] at hF
      simp only [Option.some.injEq] at hF
      subst hF
      rfl
    · rw [TMap.Find_Add_of_ne _ _ _ _ hne] at hF
      exact hinv.2.2.1 n y hF

end APoolHolder

/-- A disciplined operation returns and keeps the invariant. -/
theorem PoolOp.Run_disciplined (op : PoolOp) (h : APoolHolder) (w : World)
    (hinv : APoolHolder.DisciplineInvariant h w) (hd : op.Disciplined h w = true) :
    ∃ h' w', op.Run h w = some (h', w') ∧ APoolHolder.DisciplineInvariant h' w' := by
  cases op with
  | Add x =>
    have hfresh : TMap.Find h.ObjectPool (w.GetName x) = none := by
      simpa [PoolOp.Disciplined, TMap.Contains] using hd
    exact APoolHolder.DisciplineInvariant.add hinv hfresh
  | Expire t =>
    rcases APoolHolder.FireTimer_cases h w t with ⟨e, _⟩ | ⟨e, hc⟩
    · exact ⟨h, w, e, hinv⟩
    · have hl : APoolHolder.IsLeased h (w.ClearTimer (some t.Handle)) t.Object = true := by
        simp only [PoolOp.Disciplined, hc, and_self, decide_True, Bool.not_true,
          Bool.false_or] at hd
        simpa [APoolHolder.IsLeased] using hd
      have hinv' : APoolHolder.DisciplineInvariant h (w.ClearTimer (some t.Handle)) :=
        ⟨hinv.1, hinv.2.1, hinv.2.2.1, hinv.2.2.2⟩
      obtain ⟨h1, w1, e1, hi1⟩ :=
        APoolHolder.DisciplineInvariant.returnObject (r := t.Reason) hinv' hl
      exact ⟨h1, w1, by simp only [PoolOp.Run, e, e1], hi1⟩
  | Call c =>
    cases c with
    | ReturnObject x r =>
      exact APoolHolder.DisciplineInvariant.returnObject hinv
        (by simpa [PoolOp.Disciplined] using hd)
    | GetUnused =>
      have hsome := APoolHolder.GetUnused_isSome h w hinv.2.2.2
      cases hU : APoolHolder.GetUnused h w with
      | none => simp [hU] at hsome
      | some p =>
        obtain ⟨y, h1, w1⟩ := p
        obtain ⟨hfr, hn⟩ := APoolHolder.GetUnused_Frame hU
        obtain ⟨hav, _⟩ := APoolHolder.GetUnused_avail hU
        refine ⟨h1, w1, by simp [PoolOp.Run, PoolCall.Run, hU],
          hinv.of_frame hfr hn ?_ ?_⟩
        · rw [hav]; exact hinv.1.tail
        · intro n hmem
          rw [hav] at hmem
          exact hinv.2.1 n (List.mem_of_mem_tail hmem)
    | GetSpecific n =>
      have hsome := APoolHolder.GetSpecific_isSome h w n hinv.2.2.2
      cases hU : APoolHolder.GetSpecific h w n with
      | none => simp [hU] at hsome
      | some p =>
        obtain ⟨y, h1, w1⟩ := p
        obtain ⟨hfr, hn⟩ := APoolHolder.GetSpecific_Frame hU
        obtain ⟨hav, _⟩ := APoolHolder.GetSpecific_avail hU
        refine ⟨h1, w1, by simp [PoolOp.Run, PoolCall.Run, hU],
          hinv.of_frame hfr hn ?_ ?_⟩
        · rw [hav]; exact hinv.1.filter _
        · intro m hmem
          rw [hav] at hmem
          exact hinv.2.1 m (List.mem_of_mem_filter hmem)
    | GetAllUnused =>
      have hsome := APoolHolder.GetAllUnused_isSome h w hinv.2.2.2
      cases hU : APoolHolder.GetAllUnused h w with
      | none => simp [hU] at hsome
      | some p =>
        obtain ⟨y, h1, w1⟩ := p
        obtain ⟨hfr, hn⟩ := APoolHolder.GetAllUnused_Frame hU
        obtain ⟨hav, _⟩ := APoolHolder.GetAllUnused_avail hU
        refine ⟨h1, w1, by simp [PoolOp.Run, PoolCall.Run, hU],
          hinv.of_frame hfr hn ?_ ?_⟩
        · rw [hav]; exact List.nodup_nil
        · intro m hmem
          rw [hav] at hmem
          simp at hmem

theorem RunOps_disciplined (ops : List PoolOp) :
    ∀ (h : APoolHolder) (w : World), APoolHolder.DisciplineInvariant h w →
      DisciplinedOps ops h w = true →
      ∃ h' w', RunOps ops h w = some (h', w') ∧ APoolHolder.DisciplineInvariant h' w' := by
  induction ops with
  | nil => intro h w hinv _; exact ⟨h, w, rfl, hinv⟩
  | cons op ops ih =>
    intro h w hinv hd
    simp only [DisciplinedOps, Bool.and_eq_true] at hd
    obtain ⟨h1, w1, e1, hi1⟩ := PoolOp.Run_disciplined op h w hinv hd.1
    have hd2 := hd.2
    simp only [e1] at hd2
    obtain ⟨h2, w2, e2, hi2⟩ := ih h1 w1 hi1 hd2
    exact ⟨h2, w2, by simp only [RunOps, e1, e2], hi2⟩

/-- A pool initialized with pairwise distinct member names satisfies the invariant. -/
theorem APoolHolder.InitializePool_discipline (Self : ObjId) (w0 : World) (C : UClass)
    (N : Int) (h0 : APoolHolder) (w1 : World)
    (hinit : APoolHolder.InitializePool (APoolHolder.New Self) w0 ⟨some C, N⟩ = some (h0, w1))
    (hnames : ((MemberIds w0 C N.toNat).map w0.GetName).Nodup) :
    APoolHolder.DisciplineInvariant h0 w1 := by
  obtain ⟨h', w', e, hp, hav, ht, hn⟩ :=
    APoolHolder.InitializePool_spec (APoolHolder.New Self) w0 C N rfl
  rw [e] at hinit
  simp only [Option.some.injEq, Prod.mk.injEq] at hinit
  obtain ⟨rfl, rfl⟩ := hinit
  have hpool : h'.ObjectPool = (MemberIds w0 C N.toNat).map (fun i => (w0.GetName i, i)) := by
    rw [hp, TMap.foldl_Add_nodup w0.GetName (MemberIds w0 C N.toNat) []
      (fun _ _ p hp => by simp at hp) hnames]
    simp
  have havl : h'.AvailableObjects = (MemberIds w0 C N.toNat).map w0.GetName := by
    rw [hav]; simp [APoolHolder.New]
  refine ⟨?_, ?_, ?_, ht⟩
  · rw [havl]; exact hnames
  · intro n hmem
    rw [havl] at hmem
    obtain ⟨j, hj, rfl⟩ := List.mem_map.mp hmem
    rw [hpool, TMap.Find_map_of_nodup w0.GetName _ hnames j hj]
    rfl
  · intro n x hF
    rw [hpool] at hF
    rw [hn]
    exact TMap.Find_map_key w0.GetName _ n x hF

/-- Under the invariant, the member registered under a name of the available list is
available and not leased. -/
theorem APoolHolder.DisciplineInvariant.available_of_find {h : APoolHolder} {w : World}
    {n : FString} {x : ObjId} (hinv : APoolHolder.DisciplineInvariant h w)
    (hmem : n ∈ h.AvailableObjects) (hF : TMap.Find h.ObjectPool n = some x) :
    APoolHolder.IsObjectAvailable h w x = true ∧ APoolHolder.IsLeased h w x = false := by
  have hn := hinv.2.2.1 n x hF
  have hc : h.AvailableObjects.contains (w.GetName x) = true := by
    rw [hn]; simpa using hmem
  exact ⟨hc, by simp only [APoolHolder.IsLeased, hc, Bool.not_true, Bool.and_false]⟩

/-- Under the invariant, a member whose name left the available list of a holder with
the same name index is leased there. -/
theorem APoolHolder.DisciplineInvariant.leased_after {h h' : APoolHolder} {w w' : World}
    {n : FString} {x : ObjId} (hinv : APoolHolder.DisciplineInvariant h w)
    (hF : TMap.Find h.ObjectPool n = some x) (hp : h'.ObjectPool = h.ObjectPool)
    (hn : w'.GetName = w.GetName) (hnot : n ∉ h'.AvailableObjects) :
    APoolHolder.IsLeased h' w' x = true := by
  have hx := hinv.2.2.1 n x hF
  rw [APoolHolder.IsLeased_iff, hn, hx, hp]
  exact ⟨hF, hnot⟩

/-! ## Properties of the specification -/

section PoolHolderProperties

open APoolHolder

/-- C1: from a pool initialized by `InitializePool`, every finite sequence of
`GetUnused`, `GetSpecific`, `GetAllUnused` and `ReturnObject` calls runs to a state in
which `GetNumberOfUsedObjects() + GetNumberOfAvailableObjects()` is the number of
entries of the `ObjectPool` name index, and that index is the one initialization built. -/
theorem C1_used_plus_available_eq_membership (Self : ObjId) (w0 : World)
    (PoolSpecification : FPoolSpecification) (calls : List PoolCall) :
    ∃ h0 w1 h w,
      InitializePool (APoolHolder.New Self) w0 PoolSpecification = some (h0, w1) ∧
      RunCalls calls h0 w1 = some (h, w) ∧
      GetNumberOfUsedObjects h + GetNumberOfAvailableObjects h = TMap.Num h.ObjectPool ∧
      h.ObjectPool = h0.ObjectPool := by
  obtain ⟨h0, w1, e0, hs⟩ := InitializePool_total (APoolHolder.New Self) w0 PoolSpecification rfl
  obtain ⟨h, w, e1, hfr⟩ := RunCalls_total calls h0 w1 hs
  refine ⟨h0, w1, h, w, e0, e1, ?_, hfr.pool⟩
  simp only [GetNumberOfUsedObjects, GetNumberOfAvailableObjects]
  omega

/-- C2: on a pool freshly initialized with `n` instances whose names are pairwise
distinct, `n` consecutive `GetUnused` calls return the `n` members, each exactly once
(they are pairwise distinct and they are the values of the name index, in order), the
next call returns null, and then `n` objects are used and none is available. -/
theorem C2_getUnused_yields_each_member_once (Self : ObjId) (w0 : World) (C : UClass)
    (n : Nat) (hnames : ((MemberIds w0 C n).map w0.GetName).Nodup) :
    ∃ h w h' w',
      InitializePool (APoolHolder.New Self) w0 ⟨some C, (n : Int)⟩ = some (h, w) ∧
      TMap.GenerateValueArray h.ObjectPool = MemberIds w0 C n ∧
      GetUnusedTimes n h w = some ((MemberIds w0 C n).map some, h', w') ∧
      (MemberIds w0 C n).Nodup ∧ (MemberIds w0 C n).length = n ∧
      GetUnused h' w' = some (none, h', w') ∧
      GetNumberOfUsedObjects h' = (n : Int) ∧ GetNumberOfAvailableObjects h' = 0 := by
  obtain ⟨h, w, e0, hp, ha, hs, hN⟩ :=
    InitializePool_spec (APoolHolder.New Self) w0 C (n : Int) rfl
  simp only [Int.toNat_ofNat] at hp ha
  have hlen : (MemberIds w0 C n).length = n := by simp [MemberIds]
  have hpool : h.ObjectPool = (MemberIds w0 C n).map (fun i => (w0.GetName i, i)) := by
    rw [hp, TMap.foldl_Add_nodup w0.GetName _ [] (by simp) hnames]; simp
  have hav : h.AvailableObjects = (MemberIds w0 C n).map w0.GetName ++ [] := by
    rw [ha]; simp [APoolHolder.New]
  obtain ⟨h', w', e1, hfr, ha', _⟩ := GetUnusedTimes_front _ [] h w hav hs
  have hfind : ((MemberIds w0 C n).map w0.GetName).map (TMap.Find h.ObjectPool)
      = (MemberIds w0 C n).map some := by
    rw [List.map_map]
    apply List.map_congr_left
    intro j hj
    simp only [Function.comp, hpool]
    exact TMap.Find_map_of_nodup w0.GetName _ hnames j hj
  rw [hfind, List.length_map, hlen] at e1
  refine ⟨h, w, h', w', e0, ?_, e1, ?_, hlen, GetUnused_nil h' w' ha', ?_, ?_⟩
  · rw [hpool]; simp [TMap.GenerateValueArray, Function.comp_def]
  · simp only [MemberIds]; exact List.nodup_range' _ _
  · simp [GetNumberOfUsedObjects, ha', hfr.pool, hpool, TMap.Num, hlen]
  · simp [GetNumberOfAvailableObjects, ha']

/-- Witness of C2: Scenario A, a pool of three bullets. -/
theorem C2_getUnused_yields_each_member_once_witness :
    ((MemberIds Example.World0 Example.Bullet 3).map Example.World0.GetName).Nodup ∧
    ∃ h w h' w',
      InitializePool (APoolHolder.New 1) Example.World0 ⟨some Example.Bullet, ((3 : Nat) : Int)⟩
        = some (h, w) ∧
      TMap.GenerateValueArray h.ObjectPool = MemberIds Example.World0 Example.Bullet 3 ∧
      GetUnusedTimes 3 h w
        = some ((MemberIds Example.World0 Example.Bullet 3).map some, h', w') ∧
      (MemberIds Example.World0 Example.Bullet 3).Nodup ∧
      (MemberIds Example.World0 Example.Bullet 3).length = 3 ∧
      GetUnused h' w' = some (none, h', w') ∧
      GetNumberOfUsedObjects h' = ((3 : Nat) : Int) ∧ GetNumberOfAvailableObjects h' = 0 :=
  ⟨by decide,
    C2_getUnused_yields_each_member_once 1 Example.World0 Example.Bullet 3 (by decide)⟩

/-- C3, evaluated on the pool of three bullets: `GetSpecific("Bullet_2")` returns the
member 4 and takes its name out of the available list, and the same call made again
right away returns the leased member 4 once more, where null is expected. -/
theorem C3_getSpecific_again_returns_leased_member :
    (GetSpecific Example.Pool3.1 Example.Pool3.2 "Bullet_2").map
        (fun r => (r.1, r.2.1.AvailableObjects)) = some (some 4, ["Bullet_1", "Bullet_3"]) ∧
    (match GetSpecific Example.Pool3.1 Example.Pool3.2 "Bullet_2" with
      | some (_, h, w) => (GetSpecific h w "Bullet_2").map (fun r => r.1)
      | none => none) = some (some 4) := by
  decide

/-- C4: when the available list has no duplicates and holds `name`, and `obj` is the
member registered under `name` (and every member has its timer slot), `GetSpecific(name)`
returns `obj`, leaves holder and world as activating `obj` leaves them, with the name
erased from the available list (the other names keep their order, one entry less), and
this is what `GetUnused` does when the name stands at the front of the list. A valid
member of an actor pool ends with collision on, detached, and with the captured hidden
and tick flags. -/
theorem C4_getSpecific_takes_named_member (h : APoolHolder) (w : World) (name : FString)
    (obj : ObjId) (hnd : h.AvailableObjects.Nodup) (hmem : name ∈ h.AvailableObjects)
    (hfind : TMap.Find h.ObjectPool name = some obj) (hs : TimerSlots h) :
    ∃ h1 w1,
      SetObjectActive h w obj true DefaultEndPlayReason = some (h1, w1) ∧
      GetSpecific h w name = some (some obj,
        { h1 with AvailableObjects := h.AvailableObjects.erase name }, w1) ∧
      GetUnused { h with AvailableObjects := name :: h.AvailableObjects.erase name } w
        = GetSpecific h w name ∧
      h.AvailableObjects.erase name
        = h.AvailableObjects.filter (fun n => decide (n ≠ name)) ∧
      name ∉ h.AvailableObjects.erase name ∧
      GetNumberOfAvailableObjects { h1 with AvailableObjects := h.AvailableObjects.erase name }
        = GetNumberOfAvailableObjects h - 1 ∧
      (w.IsValidLowLevelFast obj = true → h.DefaultObjectSettings.bIsActor = true →
        (w1.Objects obj).bCollisionEnabled = true ∧ (w1.Objects obj).AttachParent = none ∧
        (w1.Objects obj).bHidden = h.DefaultObjectSettings.bHiddenInGame ∧
        (w1.Objects obj).bActorTickEnabled
          = h.DefaultObjectSettings.bStartWithTickEnabled) := by
  have hsome := SetObjectActive_true_isSome h w obj DefaultEndPlayReason
    (fun hL => hs hL name obj hfind)
  cases hS : SetObjectActive h w obj true DefaultEndPlayReason with
  | none => simp [hS] at hsome
  | some p =>
    obtain ⟨h1, w1⟩ := p
    have hfe := filter_ne_eq_erase h.AvailableObjects name hnd
    refine ⟨h1, w1, rfl, ?_, ?_, hfe.symm, hnd.not_mem_erase, ?_, ?_⟩
    · rw [GetSpecific_of_find hfind, hS, ← hfe, Option.map_some']
    · rw [← hfe]; exact GetSpecific_eq_GetUnused h w name
    · simp only [GetNumberOfAvailableObjects, List.length_erase_of_mem hmem]
      have : 0 < h.AvailableObjects.length := List.length_pos_of_mem hmem
      omega
    · intro hV hA
      exact SetObjectActive_true_actor hS hV hA

/-- Witness of C4: taking `Bullet_2` out of the pool of three bullets. -/
theorem C4_getSpecific_takes_named_member_witness :
    Example.Pool3.1.AvailableObjects.Nodup ∧
    "Bullet_2" ∈ Example.Pool3.1.AvailableObjects ∧
    TMap.Find Example.Pool3.1.ObjectPool "Bullet_2" = some 4 ∧
    ∃ h1 w1,
      SetObjectActive Example.Pool3.1 Example.Pool3.2 4 true DefaultEndPlayReason
        = some (h1, w1) ∧
      GetSpecific Example.Pool3.1 Example.Pool3.2 "Bullet_2" = some (some 4,
        { h1 with AvailableObjects := Example.Pool3.1.AvailableObjects.erase "Bullet_2" },
        w1) ∧
      (w1.Objects 4).bCollisionEnabled = true := by
  obtain ⟨h1, w1, e1, e2, _, _, _, _, hact⟩ :=
    C4_getSpecific_takes_named_member Example.Pool3.1 Example.Pool3.2 "Bullet_2" 4
      (by decide) (by decide) (by decide) Example.Pool3_timerSlots
  exact ⟨by decide, by decide, by decide, h1, w1, e1, e2,
    (hact (by decide) (by decide)).1⟩

/-- C5, counterexample: after `ReturnObject` was called with a bullet that is not a
member, its name `Bullet_4` is in the available list and not in the name index, and
`GetSpecific("Bullet_4")` does not leave the available list as it was. -/
theorem C5_getSpecific_unknown_name_counterexample :
    TMap.Find Example.StrayReturned.1.ObjectPool "Bullet_4" = none ∧
    Example.StrayReturned.1.AvailableObjects
      = ["Bullet_1", "Bullet_2", "Bullet_3", "Bullet_4"] ∧
    (GetSpecific Example.StrayReturned.1 Example.StrayReturned.2 "Bullet_4").map
      (fun r => (r.1, r.2.1.AvailableObjects))
      = some (none, ["Bullet_1", "Bullet_2", "Bullet_3"]) := by
  decide

/-- C5, amended: for a name that is not a key of the name index, `GetSpecific` returns
null and leaves the world untouched (no instance is activated), and the available list
loses every occurrence of the name; holder and list are left exactly as they were when
the name does not occur in the list, which is the case whenever the list holds member
names only. -/
theorem C5_getSpecific_unknown_name (h : APoolHolder) (w : World) (name : FString)
    (hfind : TMap.Find h.ObjectPool name = none) :
    GetSpecific h w name = some (none,
      { h with AvailableObjects := h.AvailableObjects.filter (fun n => decide (n ≠ name)) },
      w) ∧
    (name ∉ h.AvailableObjects → GetSpecific h w name = some (none, h, w)) ∧
    ((∀ n ∈ h.AvailableObjects, (TMap.Find h.ObjectPool n).isSome = true) →
      GetSpecific h w name = some (none, h, w)) := by
  have e : GetSpecific h w name = some (none,
      { h with AvailableObjects := h.AvailableObjects.filter (fun n => decide (n ≠ name)) },
      w) := by
    simp only [GetSpecific, GetSpecificAndSetActive, hfind]
  have hnot : name ∉ h.AvailableObjects → GetSpecific h w name = some (none, h, w) := by
    intro hn
    have hf : h.AvailableObjects.filter (fun n => decide (n ≠ name)) = h.AvailableObjects := by
      rw [List.filter_eq_self]
      intro a ha
      have : a ≠ name := fun e => hn (e ▸ ha)
      simp [this]
    rw [e, hf]
  refine ⟨e, hnot, fun hall => hnot (fun hn => ?_)⟩
  have := hall name hn
  simp [hfind] at this

/-- Witness of C5: Scenario C, `Bullet_9` is asked of the pool of three bullets. -/
theorem C5_getSpecific_unknown_name_witness :
    TMap.Find Example.Pool3.1.ObjectPool "Bullet_9" = none ∧
    GetSpecific Example.Pool3.1 Example.Pool3.2 "Bullet_9"
      = some (none, Example.Pool3.1, Example.Pool3.2) :=
  ⟨by decide,
    (C5_getSpecific_unknown_name Example.Pool3.1 Example.Pool3.2 "Bullet_9"
      (by decide)).2.1 (by decide)⟩

/-- C6: `GetUnused` is first in, first out over the available list. With the timer
slots in place, (1) when the list is `a :: rest` and `obj` is registered under `a`,
`GetUnused` returns `obj` and leaves `rest`; (2) `ReturnObject` appends the name of the
object at the back of the list `L`, the next `|L|` calls of `GetUnused` return the
members registered under the entries of `L` in the order of `L`, and only the call after
them returns what is registered under the appended name; (3) the same holds for `Add`,
which also registers the object, so that the last of these calls returns it. -/
theorem C6_getUnused_first_in_first_out (h : APoolHolder) (w : World) (hs : TimerSlots h) :
    (∀ a rest obj, h.AvailableObjects = a :: rest → TMap.Find h.ObjectPool a = some obj →
      ∃ h1 w1, GetUnused h w = some (some obj, h1, w1) ∧ h1.AvailableObjects = rest) ∧
    (∀ x reason, ∃ h1 w1 h2 w2 h3 w3,
      ReturnObject h w x reason = some (h1, w1) ∧
      h1.AvailableObjects = h.AvailableObjects ++ [w.GetName x] ∧
      GetUnusedTimes h.AvailableObjects.length h1 w1
        = some (h.AvailableObjects.map (TMap.Find h.ObjectPool), h2, w2) ∧
      h2.AvailableObjects = [w.GetName x] ∧
      GetUnused h2 w2 = some (TMap.Find h.ObjectPool (w.GetName x), h3, w3) ∧
      h3.AvailableObjects = []) ∧
    (∀ x, ∃ h1 w1 h2 w2 h3 w3,
      Add h w x = some (h1, w1) ∧
      h1.AvailableObjects = h.AvailableObjects ++ [w.GetName x] ∧
      (∀ n, n ≠ w.GetName x → TMap.Find h1.ObjectPool n = TMap.Find h.ObjectPool n) ∧
      GetUnusedTimes h.AvailableObjects.length h1 w1
        = some (h.AvailableObjects.map (TMap.Find h1.ObjectPool), h2, w2) ∧
      h2.AvailableObjects = [w.GetName x] ∧
      GetUnused h2 w2 = some (some x, h3, w3) ∧
      h3.AvailableObjects = []) := by
  have front : ∀ (g : APoolHolder) (v : World) (a : FString) (rest : List FString),
      TimerSlots g → g.AvailableObjects = a :: rest →
      ∃ g1 v1, GetUnused g v = some (TMap.Find g.ObjectPool a, g1, v1) ∧
        g1.AvailableObjects = rest := by
    intro g v a rest hg ha
    obtain ⟨g1, v1, e, _, hr, _⟩ := GetUnusedTimes_front [a] rest g v (by simpa using ha) hg
    simp only [List.length_singleton, GetUnusedTimes, List.map_cons, List.map_nil] at e
    cases hU : GetUnused g v with
    | none => simp [hU] at e
    | some p =>
      obtain ⟨y, g2, v2⟩ := p
      simp only [hU, Option.some.injEq, Prod.mk.injEq, List.cons.injEq, and_true] at e
      obtain ⟨rfl, rfl, rfl⟩ := e
      exact ⟨_, _, rfl, hr⟩
  refine ⟨?_, ?_, ?_⟩
  · intro a rest obj ha hf
    obtain ⟨h1, w1, e, hr⟩ := front h w a rest hs ha
    rw [hf] at e
    exact ⟨h1, w1, e, hr⟩
  · intro x reason
    have hsome := ReturnObject_isSome h w x reason
    cases hR : ReturnObject h w x reason with
    | none => simp [hR] at hsome
    | some p =>
      obtain ⟨h1, w1⟩ := p
      obtain ⟨hfr, hav, hn⟩ := ReturnObject_Frame hR
      obtain ⟨h2, w2, e2, hfr2, hav2, _⟩ :=
        GetUnusedTimes_front h.AvailableObjects [w.GetName x] h1 w1 hav (hfr.timerSlots hs)
      obtain ⟨h3, w3, e3, hav3⟩ :=
        front h2 w2 (w.GetName x) [] (hfr2.timerSlots (hfr.timerSlots hs)) hav2
      rw [hfr.pool] at e2
      rw [hfr2.pool, hfr.pool] at e3
      exact ⟨h1, w1, h2, w2, h3, w3, rfl, hav, e2, hav2, e3, hav3⟩
  · intro x
    obtain ⟨w1', eA, _, _⟩ := Add_spec h w x
    obtain ⟨hs1, hav, hpool, _⟩ := Add_timerSlots eA hs
    obtain ⟨h2, w2, e2, hfr2, hav2, _⟩ :=
      GetUnusedTimes_front h.AvailableObjects [w.GetName x] _ w1' hav hs1
    obtain ⟨h3, w3, e3, hav3⟩ :=
      front h2 w2 (w.GetName x) [] (hfr2.timerSlots hs1) hav2
    rw [hfr2.pool, hpool, TMap.Find_Add_self] at e3
    refine ⟨_, w1', h2, w2, h3, w3, eA, hav, ?_, e2, hav2, e3, hav3⟩
    intro n hn
    rw [hpool]
    exact TMap.Find_Add_of_ne _ _ _ _ (fun e => hn e.symm)

/-- Witness of C6: the pool of three bullets hands out `Bullet_1`, the front of its
available list, first. -/
theorem C6_getUnused_first_in_first_out_witness :
    Example.Pool3.1.AvailableObjects = "Bullet_1" :: ["Bullet_2", "Bullet_3"] ∧
    TMap.Find Example.Pool3.1.ObjectPool "Bullet_1" = some 3 ∧
    ∃ h1 w1, GetUnused Example.Pool3.1 Example.Pool3.2 = some (some 3, h1, w1) ∧
      h1.AvailableObjects = ["Bullet_2", "Bullet_3"] :=
  ⟨by decide, by decide,
    (C6_getUnused_first_in_first_out Example.Pool3.1 Example.Pool3.2
      Example.Pool3_timerSlots).1 "Bullet_1" ["Bullet_2", "Bullet_3"] 3
      (by decide) (by decide)⟩

/-- C7: with fuel for one call per entry of the available list, calling `GetUnused`
until the list is empty is `GetAllUnused`: the same objects in the same order, the same
holder and the same world; with the timer slots in place both return one object per
entry of the list, front first, and leave the list empty. -/
theorem C7_getAllUnused_is_repeated_getUnused (h : APoolHolder) (w : World) (Fuel : Nat)
    (hfuel : h.AvailableObjects.length ≤ Fuel) :
    GetUnusedUntilEmpty Fuel h w [] = GetAllUnused h w ∧
    (TimerSlots h → ∃ h' w',
      GetAllUnused h w
        = some (h.AvailableObjects.map (TMap.Find h.ObjectPool), h', w') ∧
      h'.AvailableObjects = []) := by
  have heq : GetUnusedUntilEmpty Fuel h w [] = GetAllUnused h w := by
    rw [GetUnusedUntilEmpty_eq_loop h.AvailableObjects h w [] Fuel rfl hfuel]
    simp only [GetAllUnused]
    cases hL : GetAllUnusedLoop h.AvailableObjects h w [] with
    | none => simp
    | some q => simp
  refine ⟨heq, fun hs => ?_⟩
  have hsome := GetAllUnusedLoop_isSome h.AvailableObjects h w [] hs
  cases hL : GetAllUnusedLoop h.AvailableObjects h w [] with
  | none => simp [hL] at hsome
  | some q =>
    obtain ⟨xs, h1, w1⟩ := q
    obtain ⟨_, _, _, hxs⟩ := GetAllUnusedLoop_Frame _ h w [] xs h1 w1 hL
    refine ⟨{ h1 with AvailableObjects := [] }, w1, ?_, rfl⟩
    simp only [GetAllUnused, hL, hxs, List.nil_append]

/-- Witness of C7: three calls drain the pool of three bullets as `GetAllUnused` does. -/
theorem C7_getAllUnused_is_repeated_getUnused_witness :
    Example.Pool3.1.AvailableObjects.length ≤ 3 ∧
    GetUnusedUntilEmpty 3 Example.Pool3.1 Example.Pool3.2 []
      = GetAllUnused Example.Pool3.1 Example.Pool3.2 ∧
    (GetAllUnused Example.Pool3.1 Example.Pool3.2).map (fun r => r.1)
      = some [some 3, some 4, some 5] :=
  ⟨by decide,
    (C7_getAllUnused_is_repeated_getUnused Example.Pool3.1 Example.Pool3.2 3
      (by decide)).1,
    by decide⟩

/-- C8: `ReturnObject` always appends the name of the object: the name occurs once more
than before, one more object is available and one less is used, also when the name was
in the list already (it is then there at least twice); a second `ReturnObject` on the
same object appends the name again. -/
theorem C8_returnObject_not_idempotent (h : APoolHolder) (w : World) (x : ObjId)
    (reason reason2 : EEndPlayReason) :
    ∃ h1 w1 h2 w2,
      ReturnObject h w x reason = some (h1, w1) ∧
      h1.AvailableObjects = h.AvailableObjects ++ [w.GetName x] ∧
      h1.AvailableObjects.count (w.GetName x) = h.AvailableObjects.count (w.GetName x) + 1 ∧
      GetNumberOfAvailableObjects h1 = GetNumberOfAvailableObjects h + 1 ∧
      GetNumberOfUsedObjects h1 = GetNumberOfUsedObjects h - 1 ∧
      (w.GetName x ∈ h.AvailableObjects → 2 ≤ h1.AvailableObjects.count (w.GetName x)) ∧
      ReturnObject h1 w1 x reason2 = some (h2, w2) ∧
      h2.AvailableObjects = h.AvailableObjects ++ [w.GetName x, w.GetName x] ∧
      h2.AvailableObjects.count (w.GetName x) = h.AvailableObjects.count (w.GetName x) + 2 := by
  have hsome := ReturnObject_isSome h w x reason
  cases hR : ReturnObject h w x reason with
  | none => simp [hR] at hsome
  | some p =>
    obtain ⟨h1, w1⟩ := p
    obtain ⟨hfr, hav, hn⟩ := ReturnObject_Frame hR
    have hsome2 := ReturnObject_isSome h1 w1 x reason2
    cases hR2 : ReturnObject h1 w1 x reason2 with
    | none => simp [hR2] at hsome2
    | some q =>
      obtain ⟨h2, w2⟩ := q
      obtain ⟨_, hav2, _⟩ := ReturnObject_Frame hR2
      rw [hn, hav] at hav2
      refine ⟨h1, w1, h2, w2, rfl, hav, ?_, ?_, ?_, ?_, hR2, ?_, ?_⟩
      · rw [hav]; simp
      · simp [GetNumberOfAvailableObjects, hav]
      · simp only [GetNumberOfUsedObjects, hav, hfr.pool, List.length_append,
          List.length_singleton]
        push_cast
        omega
      · intro hm
        rw [hav]
        have : 0 < h.AvailableObjects.count (w.GetName x) := List.count_pos_iff.mpr hm
        rw [List.count_append, List.count_singleton_self]
        omega
      · rw [hav2]; simp
      · rw [hav2]; simp

/-- Witness of C8: member 3 of the pool of three bullets is available, and returning it
leaves its name `Bullet_1` in the available list twice. -/
theorem C8_returnObject_not_idempotent_witness :
    Example.Pool3.2.GetName 3 ∈ Example.Pool3.1.AvailableObjects ∧
    ∃ h1 w1,
      ReturnObject Example.Pool3.1 Example.Pool3.2 3 EEndPlayReason.Destroyed
        = some (h1, w1) ∧
      h1.AvailableObjects
        = Example.Pool3.1.AvailableObjects ++ [Example.Pool3.2.GetName 3] ∧
      2 ≤ h1.AvailableObjects.count (Example.Pool3.2.GetName 3) := by
  obtain ⟨h1, w1, _, _, e1, hav, _, _, _, htwice, _⟩ :=
    C8_returnObject_not_idempotent Example.Pool3.1 Example.Pool3.2 3
      EEndPlayReason.Destroyed EEndPlayReason.Destroyed
  exact ⟨by decide, h1, w1, e1, hav, htwice (by decide)⟩

end PoolHolderProperties

section PoolManagerProperties

open AAPoolManager

/-- C9, counterexample: in the ready registry left by `InitializePools`, the class
`Bullet` is still registered, under the destroyed pool holder 1; the registry answers
`-1` to both counts, where the registered pool itself counts 1 used and 0 available. -/
theorem C9_registry_dispatch_counterexample :
    IsPoolManagerReady Example.Game1Again = true ∧
    Example.Game1Again.Instance.map (fun I => I.ClassNamesToPools) = some [("Bullet", 1)] ∧
    (GetNumberOfUsedObjects Example.Game1Again (some Example.Bullet)).1 = -1 ∧
    APoolHolder.GetNumberOfUsedObjects (Example.Game1Again.Holders 1) = 1 ∧
    (GetNumberOfAvailableObjects Example.Game1Again (some Example.Bullet)).1 = -1 ∧
    APoolHolder.GetNumberOfAvailableObjects (Example.Game1Again.Holders 1) = 0 := by
  decide

/-- C9, amended. If the class is null, or the registry is not ready, or the class has no
registered pool, then `GetFromPool` and `GetSpecificFromPool` return null,
`GetAllFromPool` returns the empty list, both counts are `-1`, and the state differs
from the one before by a logged line only. If the class is registered under pool holder
`P` in a ready registry: when `P` fails `IsValidLowLevelFast` the three checkouts return
null, null and the empty list and change nothing; when `P` is pending kill both counts
are `-1`; when `P` passes the check, each function returns what the corresponding
operation of the pool holder `P` returns, and the checkouts store the holder and world
that operation leaves. -/
theorem C9_registry_dispatch (g : Game) (Class : Option UClass) :
    ((Class = none ∨ IsPoolManagerReady g = false ∨
        ∃ C I, Class = some C ∧ g.Instance = some I ∧
          TMap.Find I.ClassNamesToPools C.Name = none) →
      ∃ Line,
        GetFromPool g Class = some (none, g.Log Line) ∧
        (∀ n, GetSpecificFromPool g Class n = some (none, g.Log Line)) ∧
        GetAllFromPool g Class = some ([], g.Log Line) ∧
        GetNumberOfUsedObjects g Class = (-1, g.Log Line) ∧
        GetNumberOfAvailableObjects g Class = (-1, g.Log Line) ∧
        (g.Log Line).Instance = g.Instance ∧ (g.Log Line).Holders = g.Holders ∧
        (g.Log Line).World = g.World) ∧
    (∀ C I P, Class = some C → IsPoolManagerReady g = true → g.Instance = some I →
        TMap.Find I.ClassNamesToPools C.Name = some P →
      (g.World.IsValidLowLevelFast P = false →
        GetFromPool g Class = some (none, g) ∧
        (∀ n, GetSpecificFromPool g Class n = some (none, g)) ∧
        GetAllFromPool g Class = some ([], g)) ∧
      (g.World.IsValid P = false →
        GetNumberOfUsedObjects g Class = (-1, g) ∧
        GetNumberOfAvailableObjects g Class = (-1, g)) ∧
      (g.World.IsValidLowLevelFast P = true →
        GetFromPool g Class = (APoolHolder.GetUnused (g.Holders P) g.World).map
          (fun r => (r.1, { g.SetHolder P r.2.1 with World := r.2.2 })) ∧
        (∀ n, GetSpecificFromPool g Class n =
          (APoolHolder.GetSpecific (g.Holders P) g.World n).map
            (fun r => (r.1, { g.SetHolder P r.2.1 with World := r.2.2 }))) ∧
        GetAllFromPool g Class = (APoolHolder.GetAllUnused (g.Holders P) g.World).map
          (fun r => (r.1, { g.SetHolder P r.2.1 with World := r.2.2 }))) ∧
      (g.World.IsValid P = true →
        GetNumberOfUsedObjects g Class
          = (APoolHolder.GetNumberOfUsedObjects (g.Holders P), g) ∧
        GetNumberOfAvailableObjects g Class
          = (APoolHolder.GetNumberOfAvailableObjects (g.Holders P), g))) := by
  constructor
  · intro hfail
    obtain ⟨Line, e⟩ := GetPoolHolder_of_failed hfail
    refine ⟨Line, ?_, ?_, ?_, ?_, ?_, rfl, rfl, rfl⟩
    · simp [GetFromPool, e]
    · intro n; simp [GetSpecificFromPool, e]
    · simp [GetAllFromPool, e]
    · simp [GetNumberOfUsedObjects, e]
    · simp [GetNumberOfAvailableObjects, e]
  · intro C I P hC hr hI hF
    subst hC
    have e := GetPoolHolder_of_registered hr hI hF
    refine ⟨?_, ?_, ?_, ?_⟩
    · intro hv
      refine ⟨?_, ?_, ?_⟩
      · simp [GetFromPool, e, hv]
      · intro n; simp [GetSpecificFromPool, e, hv]
      · simp [GetAllFromPool, e, hv]
    · intro hv
      constructor
      · simp [GetNumberOfUsedObjects, e, hv]
      · simp [GetNumberOfAvailableObjects, e, hv]
    · intro hv
      refine ⟨?_, ?_, ?_⟩
      · simp only [GetFromPool, e, hv, if_true]
        cases APoolHolder.GetUnused (g.Holders P) g.World with
        | none => rfl
        | some r => rfl
      · intro n
        simp only [GetSpecificFromPool, e, hv, if_true]
        cases APoolHolder.GetSpecific (g.Holders P) g.World n with
        | none => rfl
        | some r => rfl
      · simp only [GetAllFromPool, e, hv, if_true]
        cases APoolHolder.GetAllUnused (g.Holders P) g.World with
        | none => rfl
        | some r => rfl
    · intro hv
      constructor
      · simp [GetNumberOfUsedObjects, e, hv]
      · simp [GetNumberOfAvailableObjects, e, hv]

/-- Witness of C9: in the ready registry with one pool of bullets, whose holder 1 is a
valid object, `GetFromPool` returns what `GetUnused` of that holder returns, member 3. -/
theorem C9_registry_dispatch_witness :
    IsPoolManagerReady Example.Game1 = true ∧
    Example.Game1.World.IsValidLowLevelFast 1 = true ∧
    GetFromPool Example.Game1 (some Example.Bullet)
      = (APoolHolder.GetUnused (Example.Game1.Holders 1) Example.Game1.World).map
          (fun r => (r.1, { Example.Game1.SetHolder 1 r.2.1 with World := r.2.2 })) ∧
    (GetFromPool Example.Game1 (some Example.Bullet)).map (fun r => r.1) = some (some 3) :=
  ⟨by decide, by decide,
    (((C9_registry_dispatch Example.Game1 (some Example.Bullet)).2 Example.Bullet
      { Self := 0, ClassNamesToPools := [("Bullet", 1)], DesiredPools := [], bIsReady := true }
      1 rfl (by decide) (by decide) (by decide)).2.2.1 (by decide)).1,
    by decide⟩

/-- C10, evaluated: the class `Bullet` is registered under pool holder 1 with member 3;
after `InitializeObjectPool` is called for `Bullet` again the class maps to the new pool
holder 4 only, but pool holder 1 and its member 3 were not destroyed (neither is pending
kill, holder 1 still lists member 3 as available and is still attached to the manager),
where the tooltip of the function says the existing pool is destroyed. -/
theorem C10_reregistration_leaves_old_pool_alive :
    Example.Game1.Instance.map (fun I => I.ClassNamesToPools) = some [("Bullet", 1)] ∧
    (Example.Game1.Holders 1).ObjectPool = [("Bullet_1", 3)] ∧
    Example.Game2.Instance.map (fun I => I.ClassNamesToPools) = some [("Bullet", 4)] ∧
    (Example.Game2.World.Objects 1).bPendingKill = false ∧
    (Example.Game2.World.Objects 3).bPendingKill = false ∧
    (Example.Game2.World.Objects 1).AttachParent = some 0 ∧
    (Example.Game2.Holders 1).ObjectPool = [("Bullet_1", 3)] ∧
    (Example.Game2.Holders 1).AvailableObjects = ["Bullet_1"] := by
  decide

end PoolManagerProperties

section RegistryMaintenance

open AAPoolManager

/-- C11, evaluated: in the ready registry whose only pool is the one of `Bullet`, the
class `Rocket` has no entry; `EmptyObjectPool(Rocket)` passes the two early returns and
dereferences the null pointer `Find` gives for the missing entry (no result), where a
no-op is expected. The call is a no-op only while no pool at all is registered. -/
theorem C11_emptyObjectPool_unregistered_dereferences_null :
    IsPoolManagerReady Example.Game1 = true ∧
    Example.Game1.Instance.map (fun I => TMap.Find I.ClassNamesToPools "Rocket")
      = some none ∧
    Example.Game1.Instance.map (fun I => I.ClassNamesToPools) = some [("Bullet", 1)] ∧
    (EmptyObjectPool Example.Game1 (some Example.Rocket)).isSome = false ∧
    (EmptyObjectPool Example.Game0 (some Example.Rocket)).isSome = true := by
  decide

/-- C12: in a ready registry where the class `C` is registered under the pool holder
`P` and `P` is a valid object, `EmptyObjectPool(C)` returns, `P` is pending kill, the
entry of `C` is gone from the map and every other key maps to what it mapped to, the
readiness flag is true, the members of every other pool holder are as before, and so is
every object that is neither `P`, nor in the name index of `P`, nor attached to `P`. -/
theorem C12_emptyObjectPool_removes_exactly_one_pool (g : Game) (C : UClass)
    (I : AAPoolManager) (P : ObjId) (hr : IsPoolManagerReady g = true)
    (hI : g.Instance = some I) (hF : TMap.Find I.ClassNamesToPools C.Name = some P)
    (hV : g.World.IsValid P = true) :
    ∃ g' I',
      EmptyObjectPool g (some C) = some g' ∧ g'.Instance = some I' ∧
      I'.bIsReady = true ∧
      I'.ClassNamesToPools = TMap.Remove I.ClassNamesToPools C.Name ∧
      TMap.Contains I'.ClassNamesToPools C.Name = false ∧
      (∀ D, D ≠ C.Name →
        TMap.Find I'.ClassNamesToPools D = TMap.Find I.ClassNamesToPools D) ∧
      (g'.World.Objects P).bPendingKill = true ∧
      (∀ Q, Q ≠ P → g'.Holders Q = g.Holders Q) ∧
      (∀ o, o ≠ P → o ∉ TMap.GenerateValueArray (g.Holders P).ObjectPool →
        (g.World.Objects o).AttachParent ≠ some (g.Holders P).Self →
        g'.World.Objects o = g.World.Objects o) := by
  have hready : g.World.IsValid I.Self = true ∧ TMap.Num I.ClassNamesToPools ≠ 0 := by
    simp only [IsPoolManagerReady, hI] at hr
    by_cases h1 : g.World.IsValid I.Self = true
    · by_cases h2 : TMap.Num I.ClassNamesToPools = 0
      · simp [h1, h2] at hr
      · exact ⟨h1, h2⟩
    · simp [h1] at hr
  refine ⟨{ Game.DestroyActor { g with Instance := some { I with bIsReady := false } } P with
      Instance := some { I with
        ClassNamesToPools := TMap.Remove I.ClassNamesToPools C.Name
        bIsReady := true } },
    { I with
      ClassNamesToPools := TMap.Remove I.ClassNamesToPools C.Name
      bIsReady := true }, ?_, rfl, rfl, rfl, ?_, ?_, ?_, ?_, ?_⟩
  · simp only [EmptyObjectPool, hI, hready.1, hready.2, hF, hV, Bool.not_true,
      Bool.false_eq_true, if_false]
  · simp [TMap.Contains, TMap.Find_Remove_self]
  · intro D hD
    exact TMap.Find_Remove_of_ne _ _ _ hD
  · exact Game.DestroyActor_pending { g with Instance := some { I with bIsReady := false } } P
  · intro Q hQ
    exact Game.DestroyActor_holders
      { g with Instance := some { I with bIsReady := false } } P Q hQ
  · intro o ho hv ha
    exact Game.DestroyActor_objects
      { g with Instance := some { I with bIsReady := false } } P o ho hv ha

/-- Witness of C12: emptying the pool of `Bullet`, registered under the valid pool
holder 1. -/
theorem C12_emptyObjectPool_removes_exactly_one_pool_witness :
    IsPoolManagerReady Example.Game1 = true ∧
    Example.Game1.World.IsValid 1 = true ∧
    (EmptyObjectPool Example.Game1 (some Example.Bullet)).map
      (fun g => (g.Instance.map (fun I => (I.ClassNamesToPools, I.bIsReady)),
        (g.World.Objects 1).bPendingKill, (g.World.Objects 3).bPendingKill))
      = some (some ([], true), true, true) ∧
    ∃ g' I',
      EmptyObjectPool Example.Game1 (some Example.Bullet) = some g' ∧
      g'.Instance = some I' ∧ I'.bIsReady = true ∧
      (g'.World.Objects 1).bPendingKill = true := by
  obtain ⟨g', I', e, hI', hb, _, _, _, hp, _, _⟩ :=
    C12_emptyObjectPool_removes_exactly_one_pool Example.Game1 Example.Bullet
      { Self := 0, ClassNamesToPools := [("Bullet", 1)], DesiredPools := [], bIsReady := true }
      1 (by decide) (by decide) (by decide) (by decide)
  exact ⟨by decide, by decide, by decide, g', I', e, hI', hb, hp⟩

/-- C13, evaluated: `Bullet` is registered under pool holder 1 and the only desired pool
is one of `Rocket`; after `InitializePools` the map holds the new entry for `Rocket` and
still the entry for `Bullet`, which names the destroyed pool holder 1, where exactly the
entry for `Rocket` is expected. -/
theorem C13_initializePools_keeps_stale_entries :
    Example.Game1R.Instance.map (fun I => (I.ClassNamesToPools, I.DesiredPools))
      = some ([("Bullet", 1)], [⟨some Example.Rocket, 1⟩]) ∧
    Example.Game1RAgain.Instance.map (fun I => I.ClassNamesToPools)
      = some [("Bullet", 1), ("Rocket", 4)] ∧
    (Example.Game1RAgain.World.Objects 1).bPendingKill = true ∧
    (Example.Game1RAgain.World.Objects 4).bPendingKill = false ∧
    (ContainsClass Example.Game1RAgain (some Example.Bullet)) = some true := by
  decide

end RegistryMaintenance

section ExpiryTimers

open APoolHolder

end ExpiryTimers

section RegistryQueries

open AAPoolManager

/-- C15, evaluated: the pool of `Bullet` has one available member, object 3;
`GetXFromPool(Bullet, 1)` checks it out and then leaves the loop because the object is
valid, so it returns the empty list while member 3 is no longer available; on the
exhausted pool `GetXFromPool(Bullet, 2)` returns two null pointers. One valid member,
respectively the empty list, is expected. -/
theorem C15_getXFromPool_drops_valid_objects :
    (Example.Game1.Holders 1).AvailableObjects = ["Bullet_1"] ∧
    (Example.Game1.Holders 1).ObjectPool = [("Bullet_1", 3)] ∧
    (GetXFromPool Example.Game1 (some Example.Bullet) 1).map
      (fun r => (r.1, (r.2.Holders 1).AvailableObjects)) = some ([], []) ∧
    (Example.Game1Leased.Holders 1).AvailableObjects = [] ∧
    (GetXFromPool Example.Game1Leased (some Example.Bullet) 2).map (fun r => r.1)
      = some [none, none] := by
  decide

/-- C16, evaluated: member 3 of the actor pool of `Bullet` is available (attached to its
pool holder) and `IsObjectActive` returns true for it; after `GetFromPool` handed it out
(detached, not available) `IsObjectActive` returns false. The opposite answers are
expected, and are what the branch for objects that are no actors computes. -/
theorem C16_isObjectActive_inverted_for_actors :
    APoolHolder.IsObjectAvailable (Example.Game1.Holders 1) Example.Game1.World 3 = true ∧
    (IsObjectActive Example.Game1 3).1 = true ∧
    (GetFromPool Example.Game1 (some Example.Bullet)).map (fun r => r.1) = some (some 3) ∧
    APoolHolder.IsObjectAvailable (Example.Game1Leased.Holders 1)
      Example.Game1Leased.World 3 = false ∧
    (IsObjectActive Example.Game1Leased 3).1 = false := by
  decide

end RegistryQueries

section DestructionAndReset

open APoolHolder

/-- C17, counterexample: after `Destroyed` ran on the pool of three bullets the name
index still holds its three entries, so three objects count as used. -/
theorem C17_destroyed_counterexample :
    (Destroyed Example.Pool3.1 Example.Pool3.2).1.ObjectPool
      = [("Bullet_1", 3), ("Bullet_2", 4), ("Bullet_3", 5)] ∧
    GetNumberOfUsedObjects (Destroyed Example.Pool3.1 Example.Pool3.2).1 = 3 ∧
    GetNumberOfAvailableObjects (Destroyed Example.Pool3.1 Example.Pool3.2).1 = 0 := by
  decide

/-- C17, amended: `Destroyed` leaves the available list empty and the name index as it
was, so that no object is available and as many are used as the index has entries; for
an actor pool every member of the index is pending kill afterwards; with a positive life
span no timer whose handle is stored in `ObjectsToTimers` is pending afterwards, and
otherwise the timers are left alone. -/
theorem C17_destroyed_effect (h : APoolHolder) (w : World) :
    (Destroyed h w).1.AvailableObjects = [] ∧
    (Destroyed h w).1.ObjectPool = h.ObjectPool ∧
    GetNumberOfAvailableObjects (Destroyed h w).1 = 0 ∧
    GetNumberOfUsedObjects (Destroyed h w).1 = TMap.Num h.ObjectPool ∧
    (h.DefaultObjectSettings.bIsActor = true →
      ∀ o ∈ TMap.GenerateValueArray h.ObjectPool,
        ((Destroyed h w).2.Objects o).bPendingKill = true) ∧
    (0 < h.DefaultObjectSettings.LifeSpan →
      ∀ t ∈ (Destroyed h w).2.Timers,
        some t.Handle ∉ TMap.GenerateValueArray h.ObjectsToTimers) ∧
    (¬ 0 < h.DefaultObjectSettings.LifeSpan → (Destroyed h w).2.Timers = w.Timers) := by
  refine ⟨rfl, rfl, ?_, ?_, ?_, ?_, ?_⟩
  · simp [GetNumberOfAvailableObjects, Destroyed]
  · simp [GetNumberOfUsedObjects, Destroyed]
  · intro hA o ho
    simp only [Destroyed, hA, if_true]
    have h1 : (((TMap.GenerateValueArray h.ObjectPool).foldl World.Destroy w).Objects
        o).bPendingKill = true := World.foldl_Destroy_pending _ w o (Or.inl ho)
    have h2 := World.foldl_Destroy_pending
      (((TMap.GenerateValueArray h.ObjectPool).foldl World.Destroy w).GetAttachedActors
        h.Self)
      ((TMap.GenerateValueArray h.ObjectPool).foldl World.Destroy w) o (Or.inr h1)
    by_cases hL : 0 < h.DefaultObjectSettings.LifeSpan
    · simp only [hL, if_true, World.foldl_ClearTimer_objects]
      exact h2
    · simp only [hL, if_false]
      exact h2
  · intro hL t ht
    simp only [Destroyed, hL, if_true] at ht
    exact (World.mem_foldl_ClearTimer _ _ t ht).2
  · intro hL
    simp only [Destroyed, hL, if_false]
    rw [(World.foldl_Destroy_rest _ _).1]
    by_cases hA : h.DefaultObjectSettings.bIsActor = true
    · simp only [hA, if_true]
      exact (World.foldl_Destroy_rest _ _).1
    · simp [hA]

/-- Witness of C17: after `Destroyed` ran on the pool of three bullets, an actor pool
with a positive life span, member 3 of the name index is pending kill and the available
list is empty. -/
theorem C17_destroyed_effect_witness :
    Example.Pool3.1.DefaultObjectSettings.bIsActor = true ∧
    3 ∈ TMap.GenerateValueArray Example.Pool3.1.ObjectPool ∧
    (Example.Pool3.2.Objects 3).bPendingKill = false ∧
    ((Destroyed Example.Pool3.1 Example.Pool3.2).2.Objects 3).bPendingKill = true ∧
    (Destroyed Example.Pool3.1 Example.Pool3.2).1.AvailableObjects = [] :=
  ⟨by decide, by decide, by decide,
    (C17_destroyed_effect Example.Pool3.1 Example.Pool3.2).2.2.2.2.1 (by decide) 3
      (by decide),
    (C17_destroyed_effect Example.Pool3.1 Example.Pool3.2).1⟩

/-- C19: in an actor pool whose members have their timer slots, let `x` be a valid
object registered under `name`. Whatever the flags of `x` were, after `GetUnused` (when
`name` is at the front of the available list), after `GetSpecific(name)`, and after
`GetAllUnused` (when `name` is in the list, and `x` is then among the returned objects),
`x` is detached, has collision enabled, and its tick-enabled flag, tick interval,
damageable flag and hidden flag are the captured `bStartWithTickEnabled`,
`TickInterval`, `bCanBeDamaged` and `bHiddenInGame`. -/
theorem C19_checkout_sets_captured_actor_flags (h : APoolHolder) (w : World)
    (name : FString) (x : ObjId) (hA : h.DefaultObjectSettings.bIsActor = true)
    (hs : TimerSlots h) (hV : w.IsValidLowLevelFast x = true)
    (hF : TMap.Find h.ObjectPool name = some x) :
    (∀ rest, h.AvailableObjects = name :: rest →
      ∃ h1 w1, GetUnused h w = some (some x, h1, w1) ∧
        ActivatedAs h.DefaultObjectSettings (w1.Objects x)) ∧
    (∃ h1 w1, GetSpecific h w name = some (some x, h1, w1) ∧
      ActivatedAs h.DefaultObjectSettings (w1.Objects x)) ∧
    (name ∈ h.AvailableObjects →
      ∃ xs h1 w1, GetAllUnused h w = some (xs, h1, w1) ∧ some x ∈ xs ∧
        ActivatedAs h.DefaultObjectSettings (w1.Objects x)) ∧
    ∀ s, ActivatedAs h.DefaultObjectSettings s ↔
      (s.AttachParent = none ∧ s.bCollisionEnabled = true ∧
       s.bActorTickEnabled = h.DefaultObjectSettings.bStartWithTickEnabled ∧
       s.ActorTickInterval = h.DefaultObjectSettings.TickInterval ∧
       s.bCanBeDamaged = h.DefaultObjectSettings.bCanBeDamaged ∧
       s.bHidden = h.DefaultObjectSettings.bHiddenInGame) := by
  have named : ∀ (g : APoolHolder), Frame h g →
      ∃ g1 w1, GetSpecificAndSetActive g w name = some (some x, g1, w1) ∧
        ActivatedAs h.DefaultObjectSettings (w1.Objects x) := by
    intro g hfr
    have hsome := GetSpecificAndSetActive_isSome g w name (hfr.timerSlots hs)
    cases hG : GetSpecificAndSetActive g w name with
    | none => simp [hG] at hsome
    | some p =>
      obtain ⟨res, g1, w1⟩ := p
      obtain ⟨hres, _, _, _⟩ := GetSpecificAndSetActive_Frame hG
      rw [hfr.pool, hF] at hres
      subst hres
      have hact := (GetSpecificAndSetActive_activated hG
        (by rw [hfr.settings]; exact hA)).2.1 x (by rw [hfr.pool]; exact hF) hV
      rw [hfr.settings] at hact
      exact ⟨g1, w1, rfl, hact⟩
  refine ⟨?_, ?_, ?_, fun s => Iff.rfl⟩
  · intro rest hav
    obtain ⟨g1, w1, e, hact⟩ := named h (Frame.refl h)
    refine ⟨{ g1 with AvailableObjects := rest }, w1, ?_, hact⟩
    rw [GetUnused_cons h w name rest hav, e]
    rfl
  · exact named _ (Frame.ofAvail h _)
  · intro hmem
    have hsome := GetAllUnusedLoop_isSome h.AvailableObjects h w [] hs
    cases hL : GetAllUnusedLoop h.AvailableObjects h w [] with
    | none => simp [hL] at hsome
    | some q =>
      obtain ⟨xs, h1, w1⟩ := q
      obtain ⟨_, _, _, hxs⟩ := GetAllUnusedLoop_Frame _ h w [] xs h1 w1 hL
      obtain ⟨_, hact⟩ := GetAllUnusedLoop_activated _ h w [] xs h1 w1 hL hA
      refine ⟨xs, { h1 with AvailableObjects := [] }, w1, ?_, ?_, hact name hmem x hF hV⟩
      · simp only [GetAllUnused, hL]
      · rw [hxs]
        simp only [List.nil_append, List.mem_map]
        exact ⟨name, hmem, hF⟩

/-- Witness of C19: rocket 3, hidden and without collision in the pool, is handed out by
`GetUnused` with the captured flags. -/
theorem C19_checkout_sets_captured_actor_flags_witness :
    Example.Rockets.1.AvailableObjects = "Rocket_1" :: ["Rocket_2"] ∧
    (Example.Rockets.2.Objects 3).bCollisionEnabled = false ∧
    (Example.Rockets.2.Objects 3).AttachParent = some 1 ∧
    ∃ h1 w1, GetUnused Example.Rockets.1 Example.Rockets.2 = some (some 3, h1, w1) ∧
      ActivatedAs Example.Rockets.1.DefaultObjectSettings (w1.Objects 3) :=
  ⟨by decide, by decide, by decide,
    (C19_checkout_sets_captured_actor_flags Example.Rockets.1 Example.Rockets.2
      "Rocket_1" 3 (by decide) Example.Rockets_timerSlots (by decide) (by decide)).1
      ["Rocket_2"] (by decide)⟩

end DestructionAndReset

section DisciplinedUse

open APoolHolder

/-- C21: let a fresh holder be initialized for a class whose members get pairwise
distinct names, and let any finite sequence of operations follow in which `GetSpecific`
is called only with names of the available list, `ReturnObject` only on leased members,
a timer expires only while its object is leased, and `Add` only under a name the name
index does not hold. Then the sequence runs, and in the state it reaches the available
list has no duplicates and holds keys of the name index only, `GetNumberOfUsedObjects`
lies between 0 and the size of the name index, `GetUnused` returns null exactly when the
available list is empty, and whatever `GetUnused`, `GetSpecific` (on an available name)
or `GetAllUnused` hands out was available and not leased before the call and is leased
after it. -/
theorem C21_disciplined_use_invariant (Self : ObjId) (w0 : World) (C : UClass) (N : Int)
    (ops : List PoolOp) (h0 : APoolHolder) (w1 : World)
    (hinit : InitializePool (New Self) w0 ⟨some C, N⟩ = some (h0, w1))
    (hnames : ((MemberIds w0 C N.toNat).map w0.GetName).Nodup)
    (hdisc : DisciplinedOps ops h0 w1 = true) :
    ∃ h w, RunOps ops h0 w1 = some (h, w) ∧
      h.AvailableObjects.Nodup ∧
      (∀ n ∈ h.AvailableObjects, TMap.Contains h.ObjectPool n = true) ∧
      0 ≤ GetNumberOfUsedObjects h ∧
      GetNumberOfUsedObjects h ≤ TMap.Num h.ObjectPool ∧
      (∃ r h' w', GetUnused h w = some (r, h', w') ∧
        (r = none ↔ h.AvailableObjects = []) ∧
        ∀ x, r = some x →
          IsObjectAvailable h w x = true ∧ IsLeased h w x = false ∧
            IsLeased h' w' x = true) ∧
      (∀ n ∈ h.AvailableObjects, ∃ r h' w', GetSpecific h w n = some (r, h', w') ∧
        ∀ x, r = some x →
          IsObjectAvailable h w x = true ∧ IsLeased h w x = false ∧
            IsLeased h' w' x = true) ∧
      (∃ xs h' w', GetAllUnused h w = some (xs, h', w') ∧
        ∀ x, some x ∈ xs →
          IsObjectAvailable h w x = true ∧ IsLeased h w x = false ∧
            IsLeased h' w' x = true) := by
  have hinv0 := InitializePool_discipline Self w0 C N h0 w1 hinit hnames
  obtain ⟨h, w, hrun, hinv⟩ := RunOps_disciplined ops h0 w1 hinv0 hdisc
  have hlen := TMap.length_le_of_nodup_keys h.ObjectPool h.AvailableObjects hinv.1 hinv.2.1
  refine ⟨h, w, hrun, hinv.1, ?_, ?_, ?_, ?_, ?_, ?_⟩
  · intro n hmem
    exact hinv.2.1 n hmem
  · simp only [GetNumberOfUsedObjects, TMap.Num]
    omega
  · simp only [GetNumberOfUsedObjects, TMap.Num]
    omega
  · have hsome := GetUnused_isSome h w hinv.2.2.2
    cases hU : GetUnused h w with
    | none => simp [hU] at hsome
    | some p =>
      obtain ⟨r, h', w'⟩ := p
      obtain ⟨hfr, hn⟩ := GetUnused_Frame hU
      obtain ⟨hav, hr⟩ := GetUnused_avail hU
      refine ⟨r, h', w', rfl, ?_, ?_⟩
      · cases hl : h.AvailableObjects with
        | nil => simp [hr, hl]
        | cons a rest =>
          have ha := hinv.2.1 a (by simp [hl])
          cases hF : TMap.Find h.ObjectPool a with
          | none => simp [hF] at ha
          | some y => simp [hr, hl, hF]
      · intro x hx
        cases hl : h.AvailableObjects with
        | nil => simp [hr, hl] at hx
        | cons a rest =>
          have hF : TMap.Find h.ObjectPool a = some x := by
            simpa [hr, hl] using hx
          have hmem : a ∈ h.AvailableObjects := by simp [hl]
          obtain ⟨h1, h2⟩ := hinv.available_of_find hmem hF
          have hnd := hinv.1
          rw [hl] at hnd
          refine ⟨h1, h2, hinv.leased_after hF hfr.pool hn ?_⟩
          rw [hav, hl]
          exact (List.nodup_cons.mp hnd).1
  · intro n hmem
    have hsome := GetSpecific_isSome h w n hinv.2.2.2
    cases hU : GetSpecific h w n with
    | none => simp [hU] at hsome
    | some p =>
      obtain ⟨r, h', w'⟩ := p
      obtain ⟨hfr, hn⟩ := GetSpecific_Frame hU
      obtain ⟨hav, hr⟩ := GetSpecific_avail hU
      refine ⟨r, h', w', rfl, ?_⟩
      intro x hx
      have hF : TMap.Find h.ObjectPool n = some x := by rw [← hr, hx]
      obtain ⟨h1, h2⟩ := hinv.available_of_find hmem hF
      refine ⟨h1, h2, hinv.leased_after hF hfr.pool hn ?_⟩
      rw [hav]
      simp
  · have hsome := GetAllUnused_isSome h w hinv.2.2.2
    cases hU : GetAllUnused h w with
    | none => simp [hU] at hsome
    | some p =>
      obtain ⟨xs, h', w'⟩ := p
      obtain ⟨hfr, hn⟩ := GetAllUnused_Frame hU
      obtain ⟨hav, hr⟩ := GetAllUnused_avail hU
      refine ⟨xs, h', w', rfl, ?_⟩
      intro x hx
      rw [hr] at hx
      obtain ⟨n, hmem, hF⟩ := List.mem_map.mp hx
      obtain ⟨h1, h2⟩ := hinv.available_of_find hmem hF
      refine ⟨h1, h2, hinv.leased_after hF hfr.pool hn ?_⟩
      rw [hav]
      simp

/-- Witness of C21: the pool of three bullets and the session of a checkout, a named
checkout, a return and the expiry of a timer. -/
theorem C21_disciplined_use_invariant_witness :
    InitializePool (New 1) Example.World0 ⟨some Example.Bullet, 3⟩ =
        some (Example.Pool3.1, Example.Pool3.2) ∧
      ((MemberIds Example.World0 Example.Bullet (3 : Int).toNat).map
        Example.World0.GetName).Nodup ∧
      DisciplinedOps Example.Session Example.Pool3.1 Example.Pool3.2 = true ∧
      ∃ h w, RunOps Example.Session Example.Pool3.1 Example.Pool3.2 = some (h, w) ∧
        h.AvailableObjects.Nodup ∧
        (∀ n ∈ h.AvailableObjects, TMap.Contains h.ObjectPool n = true) ∧
        0 ≤ GetNumberOfUsedObjects h ∧
        GetNumberOfUsedObjects h ≤ TMap.Num h.ObjectPool ∧
        (∃ r h' w', GetUnused h w = some (r, h', w') ∧
          (r = none ↔ h.AvailableObjects = []) ∧
          ∀ x, r = some x →
            IsObjectAvailable h w x = true ∧ IsLeased h w x = false ∧
              IsLeased h' w' x = true) ∧
        (∀ n ∈ h.AvailableObjects, ∃ r h' w', GetSpecific h w n = some (r, h', w') ∧
          ∀ x, r = some x →
            IsObjectAvailable h w x = true ∧ IsLeased h w x = false ∧
              IsLeased h' w' x = true) ∧
        (∃ xs h' w', GetAllUnused h w = some (xs, h', w') ∧
          ∀ x, some x ∈ xs →
            IsObjectAvailable h w x = true ∧ IsLeased h w x = false ∧
              IsLeased h' w' x = true) :=
  ⟨(Option.some_get (by decide)).symm, by decide, by decide,
    C21_disciplined_use_invariant 1 Example.World0 Example.Bullet 3 Example.Session
      Example.Pool3.1 Example.Pool3.2 (Option.some_get (by decide)).symm (by decide) (by decide)⟩

/-- C22: a fresh holder initialized by `InitializePool` and then used by any finite
sequence of `Add`, `GetUnused`, `GetSpecific`, `GetAllUnused`, `ReturnObject` and timer
expiries reaches a state: no operation dereferences a missing timer slot. In that state,
when the captured life span is positive every object of the name index has an entry in
`ObjectsToTimers`, every entry the initialization made is still there, and for every
member `RestoreActorSettings` and `GetSpecificAndSetActive` return. -/
theorem C22_timer_slot_safety (Self : ObjId) (w0 : World) (spec : FPoolSpecification)
    (ops : List PoolOp) :
    ∃ h0 w1 h w, InitializePool (New Self) w0 spec = some (h0, w1) ∧
      RunOps ops h0 w1 = some (h, w) ∧
      (0 < h.DefaultObjectSettings.LifeSpan →
        ∀ Name Object, TMap.Find h.ObjectPool Name = some Object →
          TMap.Contains h.ObjectsToTimers Object = true) ∧
      (∀ Object, TMap.Contains h0.ObjectsToTimers Object = true →
        TMap.Contains h.ObjectsToTimers Object = true) ∧
      (∀ Name Object, TMap.Find h.ObjectPool Name = some Object →
        (RestoreActorSettings h w Object).isSome = true ∧
          (GetSpecificAndSetActive h w Name).isSome = true) := by
  obtain ⟨h0, w1, e0, hs0⟩ := InitializePool_total (New Self) w0 spec rfl
  obtain ⟨h, w, e, hs, hkeep, _⟩ := RunOps_slots ops h0 w1 hs0
  refine ⟨h0, w1, h, w, e0, e, ?_, ?_, ?_⟩
  · intro hL Name Object hF
    exact hs hL Name Object hF
  · intro Object hk
    exact hkeep Object hk
  · intro Name Object hF
    exact ⟨RestoreActorSettings_isSome h w Object (fun hL => hs hL Name Object hF),
      GetSpecificAndSetActive_isSome h w Name hs⟩

end DisciplinedUse

end GSRT
